import Mathlib

/-!
# cl-heatmap: tile rendering pipeline

A shallow embedding of `src/main.c` and `src/utils.c`.

* C strings are lists of characters (`CStr`), without the terminating NUL.
* Bytes, `int`s and `unsigned`s are natural numbers / integers; where a C
  assignment narrows, the narrowing is written out as `% 2^w`.
* An array read or write outside its allocation is undefined behaviour and
  is modelled by `none`.
* `float`s are never computed with: a `cl_float` is the 32-bit pattern of
  the value, and every function of `coords.c` is a parameter. The one
  exception is the tile-index rounding, which is stated over the rationals.
* The file system, `errno` and everything the program prints or asks of
  OpenCL live in a `World`; system calls are functions on it.
-/

namespace ClHeatmap

/-! ## write_png: palette and rows -/

/-- Modelled from the spec: the `rgba_t` colour type of `colormaps.h`, which is
not among the sources; a colormap is "an ordered sequence of RGBA entries", here
four channels, each a byte when `rgba_t.is_bytes` holds. -/
structure rgba_t where
  r : Nat
  g : Nat
  b : Nat
  a : Nat
deriving DecidableEq, Repr

/-- All four channels of a colour fit a byte. -/
def rgba_t.is_bytes (c : rgba_t) : Prop :=
  c.r < 256 ∧ c.g < 256 ∧ c.b < 256 ∧ c.a < 256

instance (c : rgba_t) : Decidable c.is_bytes := by
  unfold rgba_t.is_bytes; infer_instance

/-- The `png_color` of libpng: three `png_byte` channels. -/
structure png_color where
  red : Nat
  green : Nat
  blue : Nat
deriving DecidableEq, Repr

/-- The number of bytes of a `png_color`, `sizeof(png_color)`. -/
def sizeof_png_color : Nat := 3

/-- The three stores `colors[i].red = colormap[i].r` (and green, blue) of
main.c:77-79; a store to a `png_byte` keeps the low eight bits. -/
def to_png_color (c : rgba_t) : png_color := ⟨c.r % 256, c.g % 256, c.b % 256⟩

/-- The palette loop of `write_png` (main.c:76-81), `n` iterations left, at index `i`:
`colors[i] = colormap[i]` channel by channel and `trns[i] = colormap[i].a`. -/
def palette_loop (colormap : List rgba_t) :
    Nat → Nat → List png_color → List Nat → Option (List png_color × List Nat)
  | 0, _, colors, trns => some (colors, trns)
  | n + 1, i, colors, trns =>
    match colormap[i]? with
    | none => none
    | some c =>
      if i < colors.length ∧ i < trns.length then
        palette_loop colormap n (i + 1) (colors.set i (to_png_color c)) (trns.set i (c.a % 256))
      else none

/-- Lines 74-84 of `write_png`: both tables are `calloc`ed (the transparency
table with `COLORMAP_LEN * sizeof(png_color)` bytes), filled by the loop, and
their first `COLORMAP_LEN` entries are handed to `png_set_PLTE` and
`png_set_tRNS`. The result is the pair (palette, transparency table) that
libpng receives. -/
def write_png_palette (COLORMAP_LEN : Nat) (colormap : List rgba_t) :
    Option (List png_color × List Nat) :=
  let colors := List.replicate COLORMAP_LEN (⟨0, 0, 0⟩ : png_color)
  let trns := List.replicate (COLORMAP_LEN * sizeof_png_color) 0
  match palette_loop colormap COLORMAP_LEN 0 colors trns with
  | none => none
  | some (colors, trns) => some (colors.take COLORMAP_LEN, trns.take COLORMAP_LEN)

/-- The inner loop of `write_png` (main.c:96-98) for row `y`, `n` iterations
left, at column `x`: `rowp[x] = img[y * height + x]`. -/
def row_loop (img : List Nat) (height y : Nat) : Nat → Nat → Option (List Nat)
  | 0, _ => some []
  | n + 1, x =>
    match img[y * height + x]? with
    | none => none
    | some b =>
      match row_loop img height y n (x + 1) with
      | none => none
      | some rest => some (b :: rest)

/-- The outer loop of `write_png` (main.c:95-100), `n` iterations left, at row
`y`: the rows handed to `png_write_row`, in order. -/
def rows_loop (img : List Nat) (width height : Nat) : Nat → Nat → Option (List (List Nat))
  | 0, _ => some []
  | n + 1, y =>
    match row_loop img height y width 0 with
    | none => none
    | some row =>
      match rows_loop img width height n (y + 1) with
      | none => none
      | some rest => some (row :: rest)

/-- The rows `write_png` emits for a `width` x `height` raster `img`. -/
def write_png_rows (width height : Nat) (img : List Nat) : Option (List (List Nat)) :=
  rows_loop img width height height 0

/-- What `write_png` hands to libpng between `png_init_io` and `png_write_end`:
the header of `png_set_IHDR` (8-bit palette image), the palette, the
transparency table and the rows. -/
structure PngImage where
  width : Nat
  height : Nat
  palette : List png_color
  trns : List Nat
  rows : List (List Nat)
deriving DecidableEq, Repr

/-- The image `write_png` builds from its arguments (main.c:74-100), `none`
when a read leaves its buffer. -/
def write_png_image (COLORMAP_LEN width height : Nat) (img : List Nat)
    (colormap : List rgba_t) : Option PngImage :=
  match write_png_palette COLORMAP_LEN colormap with
  | none => none
  | some (palette, trns) =>
    match write_png_rows width height img with
    | none => none
    | some rows => some ⟨width, height, palette, trns, rows⟩

/-! ## The point selector of the tile loop -/

/-- A `float`, as its 32-bit pattern. -/
abbrev cl_float := Fin 4294967296

/-- The `cl_float2` of OpenCL. -/
structure cl_float2 where
  x : cl_float
  y : cl_float
deriving DecidableEq, Repr

/-- The `cl_float4` of OpenCL. -/
structure cl_float4 where
  x : cl_float
  y : cl_float
  z : cl_float
  w : cl_float
deriving DecidableEq, Repr

/-- The `struct rect` of `coords.h` (not among the sources); main.c reads its
fields `lt` and `rb`. -/
structure rect where
  lt : cl_float2
  rb : cl_float2
deriving DecidableEq, Repr

/-- The selector scan of main.c:558-566, `n` iterations left, at index `i`.
`inside p` is `rect_is_inside(tilems, p)`; `npts` is a `cl_uint`, so `npts++`
is taken modulo `2^32`. A read or a write outside an array is `none`. -/
def select_loop (inside : cl_float2 → Bool) (datapts : List cl_float2) (datavals : List cl_float) :
    Nat → Nat → Nat → List cl_float2 → List cl_float →
      Option (Nat × List cl_float2 × List cl_float)
  | 0, _, npts, chosenpts, chosenvals => some (npts, chosenpts, chosenvals)
  | n + 1, i, npts, chosenpts, chosenvals =>
    match datapts[i]? with
    | none => none
    | some p =>
      if !inside p then
        select_loop inside datapts datavals n (i + 1) npts chosenpts chosenvals
      else
        match datavals[i]? with
        | none => none
        | some v =>
          if npts < chosenpts.length ∧ npts < chosenvals.length then
            select_loop inside datapts datavals n (i + 1) ((npts + 1) % 4294967296)
              (chosenpts.set npts p) (chosenvals.set npts v)
          else none

/-- The scan from `npts = 0` over all `datalen` points (main.c:558-566);
returns `npts` and the two scratch buffers. -/
def select_points (inside : cl_float2 → Bool) (datalen : Nat) (datapts : List cl_float2)
    (datavals : List cl_float) (chosenpts : List cl_float2) (chosenvals : List cl_float) :
    Option (Nat × List cl_float2 × List cl_float) :=
  select_loop inside datapts datavals datalen 0 0 chosenpts chosenvals

/-- The values co-indexed with the points that satisfy `inside`, in order. -/
def selected_vals (inside : cl_float2 → Bool) (datapts : List cl_float2)
    (datavals : List cl_float) : List cl_float :=
  ((datapts.zip datavals).filter (fun pv => inside pv.1)).map Prod.snd

/-! ## C strings and the file system -/

/-- A C string, without its terminating NUL. -/
abbrev CStr := List Char

/-- The `PATH_MAX` of `limits.h` on Linux. -/
def PATH_MAX : Nat := 4096

/-- The BSD `strlcat(dst, src, size)`: appends `src` to `dst`, keeping at most
`size - 1` characters; a `dst` that already fills the buffer is left alone. -/
def strlcat (dst src : CStr) (size : Nat) : CStr :=
  if size ≤ dst.length then dst else (dst ++ src).take (size - 1)

/-- The buffer `snprintf(buf, size, ...)` leaves, given the fully formatted text:
at most `size - 1` characters of it. -/
def snprintf (size : Nat) (formatted : CStr) : CStr := formatted.take (size - 1)

/-- The `%d` conversion of `printf`. -/
def fmt_d (n : Int) : CStr := (toString n).toList

/-- The value an `unsigned int` has when it is passed where an `int` is expected. -/
def int_of_uint (n : Nat) : Int :=
  if n % 4294967296 < 2147483648 then (n % 4294967296 : Nat) else (n % 4294967296 : Nat) - 4294967296

/-- The tokens that successive calls `strtok_r(path, "/", &save)`,
`strtok_r(NULL, "/", &save)`, ... return before the first `NULL`: the maximal
runs of characters other than `/`, with `tok` the run being read. -/
def strtok_r_from : CStr → CStr → List CStr
  | [], tok => if tok = [] then [] else [tok]
  | c :: cs, tok =>
    if c = '/' then
      if tok = [] then strtok_r_from cs [] else tok :: strtok_r_from cs []
    else strtok_r_from cs (tok ++ [c])

/-- All the tokens of `path` for the delimiter `/`. -/
def strtok_r_all (path : CStr) : List CStr := strtok_r_from path []

/-- An absolute, resolved path: the names from the root down. -/
abbrev Key := List CStr

/-- One step of path resolution; `.` stays, `..` goes up (there are no symbolic links). -/
def resolve_step (k : Key) (c : CStr) : Key :=
  if c = ['.'] then k else if c = ['.', '.'] then k.dropLast else k ++ [c]

/-- Path resolution: a path that starts with `/` is resolved from the root, any
other from the working directory; empty components are skipped. -/
def resolve (cwd : Key) (path : CStr) : Key :=
  (strtok_r_all path).foldl resolve_step (if path.head? = some '/' then [] else cwd)

/-- What a name of the file system refers to: a directory, or a regular file
given by its inode number (hard links share it). -/
inductive Node where
  | dir
  | file (ino : Nat)
deriving DecidableEq, Repr

/-- A file system without symbolic links and without permissions: the working
directory of the process, the name table, the content of every inode, and the
next unused inode number. -/
structure FS where
  cwd : Key
  names : Key → Option Node
  data : Nat → List Nat
  next : Nat

/-- Error numbers of Linux. -/
def EPERM : Nat := 1
/-- No such file or directory. -/
def ENOENT : Nat := 2
/-- File exists. -/
def EEXIST : Nat := 17
/-- Not a directory. -/
def ENOTDIR : Nat := 20
/-- Is a directory. -/
def EISDIR : Nat := 21

/-- The system calls of the file system layer. -/
inductive Syscall where
  | mkdir
  | fopen
  | link
deriving DecidableEq, Repr

/-- What the process does that is visible from outside, besides the file system. -/
inductive Event where
  | log_info (fmt : String)
  | log_error (fmt : String)
  | perror (msg : String)
  | failed (call : Syscall) (path : CStr) (errno : Nat)
  | generate_translation_tile (x y z : Int)
  | clEnqueueWriteBuffer
  | clSetKernelArg (index : Nat)
  | clEnqueueNDRangeKernel
  | clFinish
  | clEnqueueReadImage
  | write_png (fname : CStr)
  | exit (status : Nat)
deriving DecidableEq, Repr

/-- The state outside the program's own variables: the file system, `errno`, the
events so far (oldest first; `failed` records a system call that returned an
error), and the status codes the coming OpenCL calls will return (an exhausted
list means `CL_SUCCESS` from then on). -/
structure World where
  fs : FS
  errno : Nat
  trace : List Event
  cl_status : List Int

/-- Appends an event to the trace. -/
def World.emit (w : World) (e : Event) : World := { w with trace := w.trace ++ [e] }

/-- A system call fails: `errno` is set, the failure recorded. A call that
succeeds leaves `errno` as it was. -/
def World.fail (w : World) (call : Syscall) (path : CStr) (e : Nat) : World :=
  { w with errno := e, trace := w.trace ++ [Event.failed call path e] }

/-- The error a path gets whose last component does not exist, from its parent. -/
def parent_errno (fs : FS) (k : Key) : Option Nat :=
  match fs.names k.dropLast with
  | some Node.dir => none
  | some (Node.file _) => some ENOTDIR
  | none => some ENOENT

/-- The `mkdir(path, mode)` of POSIX (the mode plays no part here): returns 0 and
creates the directory, or returns -1 with `errno` set. -/
def mkdir (w : World) (path : CStr) : Int × World :=
  let k := resolve w.fs.cwd path
  if path = [] then (-1, w.fail Syscall.mkdir path ENOENT)
  else
    match w.fs.names k with
    | some _ => (-1, w.fail Syscall.mkdir path EEXIST)
    | none =>
      match parent_errno w.fs k with
      | some e => (-1, w.fail Syscall.mkdir path e)
      | none =>
        (0, { w with fs := { w.fs with names := fun p => if p = k then some Node.dir else w.fs.names p } })

/-- The `fopen(path, "r")` of C followed by the reads of the stream: `none` is the
`NULL` of a failed open, `some bytes` the content the stream delivers (nothing
for a directory, which opens but cannot be read). -/
def fopen_r (w : World) (path : CStr) : Option (List Nat) × World :=
  let k := resolve w.fs.cwd path
  if path = [] then (none, w.fail Syscall.fopen path ENOENT)
  else
    match w.fs.names k with
    | some (Node.file i) => (some (w.fs.data i), w)
    | some Node.dir => (some [], w)
    | none =>
      match parent_errno w.fs k with
      | some e => (none, w.fail Syscall.fopen path e)
      | none => (none, w.fail Syscall.fopen path ENOENT)

/-- The `fopen(path, "w")` of C: `none` is `NULL`; otherwise the inode of the
stream, an existing file truncated in place or a new empty file. -/
def fopen_w (w : World) (path : CStr) : Option Nat × World :=
  let k := resolve w.fs.cwd path
  if path = [] then (none, w.fail Syscall.fopen path ENOENT)
  else
    match w.fs.names k with
    | some (Node.file i) =>
      (some i, { w with fs := { w.fs with data := fun j => if j = i then [] else w.fs.data j } })
    | some Node.dir => (none, w.fail Syscall.fopen path EISDIR)
    | none =>
      match parent_errno w.fs k with
      | some e => (none, w.fail Syscall.fopen path e)
      | none =>
        (some w.fs.next,
          { w with fs := { w.fs with
              names := fun p => if p = k then some (Node.file w.fs.next) else w.fs.names p
              data := fun j => if j = w.fs.next then [] else w.fs.data j
              next := w.fs.next + 1 } })

/-- The bytes `fwrite` and `fclose` add to the end of a stream open for writing. -/
def fwrite (w : World) (ino : Nat) (bytes : List Nat) : World :=
  { w with fs := { w.fs with data := fun j => if j = ino then w.fs.data ino ++ bytes else w.fs.data j } }

/-- The `link(oldpath, newpath)` of POSIX: a second name for the file `oldpath`,
refused when `newpath` exists. -/
def link (w : World) (oldpath newpath : CStr) : Int × World :=
  let ko := resolve w.fs.cwd oldpath
  let kn := resolve w.fs.cwd newpath
  if oldpath = [] ∨ newpath = [] then (-1, w.fail Syscall.link newpath ENOENT)
  else
    match w.fs.names ko with
    | none => (-1, w.fail Syscall.link newpath ENOENT)
    | some Node.dir => (-1, w.fail Syscall.link newpath EPERM)
    | some (Node.file i) =>
      match w.fs.names kn with
      | some _ => (-1, w.fail Syscall.link newpath EEXIST)
      | none =>
        match parent_errno w.fs kn with
        | some e => (-1, w.fail Syscall.link newpath e)
        | none =>
          (0, { w with fs := { w.fs with
                names := fun p => if p = kn then some (Node.file i) else w.fs.names p } })

/-- The content of the file a path names, if it names a regular file. -/
def FS.content (fs : FS) (path : CStr) : Option (List Nat) :=
  match fs.names (resolve fs.cwd path) with
  | some (Node.file i) => some (fs.data i)
  | _ => none

/-- Whether a path names a directory. -/
def FS.is_dir (fs : FS) (path : CStr) : Bool :=
  match fs.names (resolve fs.cwd path) with
  | some Node.dir => true
  | _ => false

/-! ## utils.c: mkdir_recursive -/

/-- The loop of `mkdir_recursive` (utils.c:45-59) over the tokens still to come,
with `dir` the path built so far. The test `ret <= 0 && errno != EEXIST` is the
source's; `perror` reports and the function returns `ret`. -/
def mkdir_recursive_loop : List CStr → CStr → World → Int × World
  | [], _, w => (0, w)
  | tok :: toks, dir, w =>
    let dir := strlcat (strlcat dir tok PATH_MAX) ['/'] PATH_MAX
    let (ret, w) := mkdir w dir
    if ret ≤ 0 ∧ w.errno ≠ EEXIST then
      (ret, w.emit (Event.perror "Failed to mkdir!"))
    else mkdir_recursive_loop toks dir w

/-- The `mkdir_recursive(path, mode)` of utils.c:40-61; `dir` starts zeroed. -/
def mkdir_recursive (w : World) (path : CStr) : Int × World :=
  mkdir_recursive_loop (strtok_r_all path) [] w

/-! ## main.c: fetch_tile_transform -/

/-- The projection handle `projPJ` of proj.4, opaque to the pipeline. -/
abbrev projPJ := Nat

/-- The four bytes of a `float` in memory (little-endian). -/
def bytes_of_float (f : cl_float) : List Nat :=
  [f.val % 256, f.val / 256 % 256, f.val / 65536 % 256, f.val / 16777216 % 256]

/-- The sixteen bytes of a `cl_float4` in memory. -/
def bytes_of_float4 (v : cl_float4) : List Nat :=
  bytes_of_float v.x ++ bytes_of_float v.y ++ bytes_of_float v.z ++ bytes_of_float v.w

/-- The `float` four bytes of memory hold, starting at offset `o`. -/
def float_of_bytes (m : List Nat) (o : Nat) : cl_float :=
  Fin.ofNat (m.getD o 0 % 256 + 256 * (m.getD (o + 1) 0 % 256) + 65536 * (m.getD (o + 2) 0 % 256)
    + 16777216 * (m.getD (o + 3) 0 % 256))

/-- The `cl_float4` sixteen bytes of memory hold, starting at offset `o`. -/
def float4_of_bytes (m : List Nat) (o : Nat) : cl_float4 :=
  ⟨float_of_bytes m o, float_of_bytes m (o + 4), float_of_bytes m (o + 8), float_of_bytes m (o + 12)⟩

/-- The memory of the array `cl_float4 out[2]`. -/
def bytes_of_out (out : cl_float4 × cl_float4) : List Nat :=
  bytes_of_float4 out.1 ++ bytes_of_float4 out.2

/-- The array `cl_float4 out[2]` after `fread(out, sizeof(out[0]), 2, file)` on a
stream that delivers `content`: the bytes read, at most 32, replace the start of
its memory. -/
def fread_out (out : cl_float4 × cl_float4) (content : List Nat) : cl_float4 × cl_float4 :=
  let m := content.take 32 ++ (bytes_of_out out).drop (content.take 32).length
  (float4_of_bytes m 0, float4_of_bytes m 16)

/-- The `dirpath` of `fetch_tile_transform`: `snprintf(dirpath, sizeof(dirpath), "%s/%d/%d", cachedir, z, x)`. -/
def cache_dirpath (cachedir : CStr) (z x : Int) : CStr :=
  snprintf PATH_MAX (cachedir ++ ['/'] ++ fmt_d z ++ ['/'] ++ fmt_d x)

/-- The `path` of `fetch_tile_transform`: `snprintf(path, sizeof(path), "%s/%d.map", dirpath, y)`. -/
def cache_path (cachedir : CStr) (z x y : Int) : CStr :=
  snprintf PATH_MAX (cache_dirpath cachedir z x ++ ['/'] ++ fmt_d y ++ ".map".toList)

/-- The `fetch_tile_transform` of main.c:257-287. `generate_translation_tile` is
the function of `coords.c` (not among the sources) that fills `out`; `out` is
what the caller's array holds on entry. Returns the array and the world. -/
def fetch_tile_transform
    (generate_translation_tile : Int → Int → Int → projPJ → cl_float4 × cl_float4)
    (z x y : Int) (cachedir : CStr) (proj_meters : projPJ) (out : cl_float4 × cl_float4)
    (w : World) : (cl_float4 × cl_float4) × World :=
  let dirpath := cache_dirpath cachedir z x
  let path := cache_path cachedir z x y
  match fopen_r w path with
  | (none, w) =>
    let w := w.emit (Event.generate_translation_tile x y z)
    let out := generate_translation_tile x y z proj_meters
    let (ret, w) := mkdir_recursive w dirpath
    let w := if ret < 0 then w.emit (Event.log_error "Failed to mkdir %s") else w
    match fopen_w w path with
    | (none, w) =>
      (out, w.emit (Event.log_error "Failed to save tile transform cache file %s"))
    | (some fout, w) =>
      let w := w.emit (Event.log_info "Generated cache file %s")
      (out, fwrite w fout (bytes_of_out out))
  | (some content, w) =>
    let w := w.emit (Event.log_info "Loaded cache file %s")
    (fread_out out content, w)

/-! ## main.c: write_png and the tile loop -/

/-- The `write_png` of main.c:55-109. `png_encode` stands for libpng: the bytes
it writes to the stream for the image it is given (its error path through
`setjmp` is not modelled). An image that cannot be built without leaving a
buffer is `none`. -/
def write_png (png_encode : PngImage → List Nat) (COLORMAP_LEN : Nat) (w : World)
    (fname : CStr) (width height : Nat) (img : List Nat) (colormap : List rgba_t) :
    Option World :=
  let w := w.emit (Event.write_png fname)
  match fopen_w w fname with
  | (none, w) => some (w.emit (Event.perror "Failed to write a file\n"))
  | (some fout, w) =>
    match write_png_image COLORMAP_LEN width height img colormap with
    | none => none
    | some image => some (fwrite w fout (png_encode image))

/-- The `CL_SUCCESS` of OpenCL. -/
def CL_SUCCESS : Int := 0

/-- The `EXIT_FAILURE` of `stdlib.h`. -/
def EXIT_FAILURE : Nat := 1

/-- An OpenCL call: it is recorded, and returns the next status code of the world. -/
def cl_call (w : World) (e : Event) : Int × World :=
  match w.cl_status with
  | [] => (CL_SUCCESS, w.emit e)
  | s :: rest => (s, { w.emit e with cl_status := rest })

/-- The macro `OCLCHECK(x)` of main.c:52 applied to the result of a call: on
anything but `CL_SUCCESS` the error is logged and the process exits, which is
the `error` of the result. -/
def OCLCHECK (r : Int × World) : Except World World :=
  if r.1 ≠ CL_SUCCESS then
    Except.error ((r.2.emit (Event.log_error "OCL Error!")).emit (Event.exit EXIT_FAILURE))
  else Except.ok r.2

/-- The six `clSetKernelArg` calls and the `clEnqueueNDRangeKernel` call of
main.c:580-598, each under `OCLCHECK`. -/
def set_args_and_enqueue (w : World) : Except World World := do
  let w ← OCLCHECK (cl_call w (Event.clSetKernelArg 0))
  let w ← OCLCHECK (cl_call w (Event.clSetKernelArg 1))
  let w ← OCLCHECK (cl_call w (Event.clSetKernelArg 2))
  let w ← OCLCHECK (cl_call w (Event.clSetKernelArg 3))
  let w ← OCLCHECK (cl_call w (Event.clSetKernelArg 4))
  let w ← OCLCHECK (cl_call w (Event.clSetKernelArg 5))
  OCLCHECK (cl_call w Event.clEnqueueNDRangeKernel)

/-- The fields of `struct arguments` (main.c:111-124) that the tile loop reads. -/
structure arguments where
  zoomlevel : Int
  outdir : CStr
  colormap : List rgba_t
  proj_meters : projPJ
  prefilter : cl_float

/-- What the tile loop uses and the sources do not define: the constants
`COLORMAP_LEN` (colormaps.h) and `blank_tile_png` (blank.h), the functions of
coords.c, the conversion of an `unsigned int` to a `float`, libpng, and the
compiled kernel `generate_pixel` run over the whole grid (from the two transform
vectors, the point count, the two device buffers and the image as it is, to the
image it leaves). `TILE_SIZE` is 256 in main.c:53. -/
structure Env where
  TILE_SIZE : Nat
  COLORMAP_LEN : Nat
  blank_tile_png : List Nat
  generate_translation_tile : Int → Int → Int → projPJ → cl_float4 × cl_float4
  rect_make : cl_float2 → cl_float2 → rect
  rect_lefttop : rect → cl_float2
  rect_righttop : rect → cl_float2
  rect_rightbot : rect → cl_float2
  rect_leftbot : rect → cl_float2
  tile_to_meters : cl_float2 → Int → projPJ → cl_float2
  rect_max : List cl_float2 → rect
  rect_inflate : rect → cl_float → rect
  rect_is_inside : rect → cl_float2 → Bool
  float_of_uint : Nat → cl_float
  png_encode : PngImage → List Nat
  kernel : cl_float4 → cl_float4 → Nat → List cl_float2 → List cl_float → List Nat → List Nat

/-- The variables of `main` that the tile loop changes, and the world. `tr` is
what the array `tr[2]` of the loop body holds before it is filled; `pts_cl`,
`vals_cl` and `tile_cl` are the contents of the three device objects. -/
structure Host where
  world : World
  tr : cl_float4 × cl_float4
  chosenpts : List cl_float2
  chosenvals : List cl_float
  tile : List Nat
  pts_cl : List cl_float2
  vals_cl : List cl_float
  tile_cl : List Nat

/-- How one pass through the tile loop body ends: at its end, in `exit`, or in
undefined behaviour. -/
inductive Outcome where
  | running (h : Host)
  | exited (h : Host)
  | undefined

/-- The content of an image object of `n` bytes after a kernel wrote `l` to it. -/
def fit (n : Nat) (l : List Nat) : List Nat := (l ++ List.replicate n 0).take n

/-- The `blankfilepath` of main.c:518-519. -/
def blankfilepath (outdir : CStr) : CStr := snprintf PATH_MAX (outdir ++ "/blank.png".toList)

/-- The `path` of main.c:568-570, `"%s/%d/%d/%d.png"`; `tx` and `ty` are
`unsigned`, printed with `%d`. -/
def tile_path (outdir : CStr) (zoomlevel : Int) (tx ty : Nat) : CStr :=
  snprintf PATH_MAX (outdir ++ ['/'] ++ fmt_d zoomlevel ++ ['/'] ++ fmt_d (int_of_uint tx)
    ++ ['/'] ++ fmt_d (int_of_uint ty) ++ ".png".toList)

/-- The rectangle `tilems` of main.c:539-556 for the tile `(tx, ty)`: the four
corners of the tile, mapped to meters, enclosed and inflated by the prefilter. -/
def tile_footprint (E : Env) (args : arguments) (tx ty : Nat) : rect :=
  let tilet := E.rect_make ⟨E.float_of_uint tx, E.float_of_uint ty⟩
    ⟨E.float_of_uint ((tx + 1) % 4294967296), E.float_of_uint ((ty + 1) % 4294967296)⟩
  let ptstile := [E.rect_lefttop tilet, E.rect_righttop tilet, E.rect_rightbot tilet,
    E.rect_leftbot tilet]
  let ptsms := ptstile.map (fun p => E.tile_to_meters p args.zoomlevel args.proj_meters)
  E.rect_inflate (E.rect_max ptsms) args.prefilter

/-- The body of the tile loop, main.c:532-615, for the tile `(tx, ty)`. -/
def process_tile (E : Env) (args : arguments) (datalen : Nat) (datapts : List cl_float2)
    (datavals : List cl_float) (tx ty : Nat) (h : Host) : Outcome :=
  let w := h.world.emit (Event.log_info "Processing (%d,%d)")
  let (tr, w) := fetch_tile_transform E.generate_translation_tile args.zoomlevel
    (int_of_uint tx) (int_of_uint ty) args.outdir args.proj_meters h.tr w
  let tilems := tile_footprint E args tx ty
  match select_points (E.rect_is_inside tilems) datalen datapts datavals
      h.chosenpts h.chosenvals with
  | none => Outcome.undefined
  | some (npts, chosenpts, chosenvals) =>
    let path := tile_path args.outdir args.zoomlevel tx ty
    let tile := List.replicate (E.TILE_SIZE * E.TILE_SIZE) 0
    if npts ≠ 0 then
      let w := w.emit (Event.log_info " generating from %d...")
      let (s1, w) := cl_call w Event.clEnqueueWriteBuffer
      let pts_cl := if s1 = CL_SUCCESS then chosenpts.take npts ++ h.pts_cl.drop npts else h.pts_cl
      let (s2, w) := cl_call w Event.clEnqueueWriteBuffer
      let vals_cl :=
        if s2 = CL_SUCCESS then chosenvals.take npts ++ h.vals_cl.drop npts else h.vals_cl
      match set_args_and_enqueue w with
      | Except.error w =>
        Outcome.exited { world := w, tr := tr, chosenpts := chosenpts, chosenvals := chosenvals,
                         tile := tile, pts_cl := pts_cl, vals_cl := vals_cl, tile_cl := h.tile_cl }
      | Except.ok w =>
        let tile_cl := fit (E.TILE_SIZE * E.TILE_SIZE) (E.kernel tr.1 tr.2 npts pts_cl vals_cl h.tile_cl)
        let (_, w) := cl_call w Event.clFinish
        let (s3, w) := cl_call w Event.clEnqueueReadImage
        let tile := if s3 = CL_SUCCESS then tile_cl else tile
        match write_png E.png_encode E.COLORMAP_LEN w path E.TILE_SIZE E.TILE_SIZE tile
            args.colormap with
        | none => Outcome.undefined
        | some w =>
          Outcome.running { world := w.emit (Event.log_info " wrote %s"), tr := tr,
                            chosenpts := chosenpts, chosenvals := chosenvals, tile := tile,
                            pts_cl := pts_cl, vals_cl := vals_cl, tile_cl := tile_cl }
    else
      let w := w.emit (Event.log_info " skipping...")
      let (_, w) := link w (blankfilepath args.outdir) path
      let w := w.emit (Event.log_info " linked %s to %s")
      Outcome.running { world := w, tr := tr, chosenpts := chosenpts, chosenvals := chosenvals,
                        tile := tile, pts_cl := h.pts_cl, vals_cl := h.vals_cl, tile_cl := h.tile_cl }

/-- The two nested loops of main.c:530-617 over the tiles they visit, in order;
the loop ends early when a body does not reach its end. -/
def tile_loop (E : Env) (args : arguments) (datalen : Nat) (datapts : List cl_float2)
    (datavals : List cl_float) : List (Nat × Nat) → Host → Outcome
  | [], h => Outcome.running h
  | (tx, ty) :: tiles, h =>
    match process_tile E args datalen datapts datavals tx ty h with
    | Outcome.running h => tile_loop E args datalen datapts datavals tiles h
    | o => o

/-- The blank tile of main.c:518-528: `blank.png` is opened for writing and
`blank_tile_png` written to it; a failed open is logged and otherwise ignored. -/
def write_blank (E : Env) (args : arguments) (w : World) : World :=
  match fopen_w w (blankfilepath args.outdir) with
  | (none, w) => w.emit (Event.log_error "Failed to save the blank tile!")
  | (some file, w) => fwrite w file E.blank_tile_png

/-- The part of `main` that touches the output directory: `mkdir(zpath, 0755)`
(main.c:418-420), the scratch buffers of main.c:503-516 (`calloc` zeroes
`chosenpts` and `chosenvals`; `tile`, `tr` and the three device objects start
with whatever they hold), the blank tile and the tile loop over `tiles`. -/
def render (E : Env) (args : arguments) (datalen : Nat) (datapts : List cl_float2)
    (datavals : List cl_float) (tiles : List (Nat × Nat)) (start : Host) : Outcome :=
  let zpath := snprintf PATH_MAX (args.outdir ++ ['/'] ++ fmt_d args.zoomlevel)
  let (_, w) := mkdir start.world zpath
  let w := write_blank E args w
  tile_loop E args datalen datapts datavals tiles
    { start with world := w
                 chosenpts := List.replicate datalen ⟨0, 0⟩
                 chosenvals := List.replicate datalen 0 }

/-- The world an outcome ends in, if it is not undefined. -/
def Outcome.world : Outcome → Option World
  | Outcome.running h => some h.world
  | Outcome.exited h => some h.world
  | Outcome.undefined => none

/-- Whether an event is a kernel dispatch. -/
def Event.is_dispatch (e : Event) : Bool := decide (e = Event.clEnqueueNDRangeKernel)

/-- Whether an event is a call of `write_png`. -/
def Event.is_encode : Event → Bool
  | Event.write_png _ => true
  | _ => false

/-- The number of `clEnqueueNDRangeKernel` calls in a trace. -/
def dispatches (t : List Event) : Nat := t.countP Event.is_dispatch

/-- The number of `write_png` calls in a trace. -/
def encodes (t : List Event) : Nat := t.countP Event.is_encode

/-! ## The tile range of main -/

/-- A point of tile space. `float` values in the range of tile indices are
rationals; `float` holds every integer up to `2^24`, so for coordinates between
0 and `2^24 - 1` the rounding, the conversions and the comparisons with the loop
counters below are exact. -/
structure tile_point where
  x : ℚ
  y : ℚ
deriving DecidableEq

/-- Modelled from the spec: the `struct rect` of coords.h over tile space,
`{ left_top: (x,y), right_bottom: (x,y) }`. -/
structure tile_rect where
  lt : tile_point
  rb : tile_point
deriving DecidableEq

/-- Modelled from the spec: the `rect_make` of coords.c (not among the sources),
"construction from two arbitrary corners must sort them", so that
`left_top.x ≤ right_bottom.x` and `left_top.y ≤ right_bottom.y`. -/
def rect_make (a b : tile_point) : tile_rect :=
  ⟨⟨min a.x b.x, min a.y b.y⟩, ⟨max a.x b.x, max a.y b.y⟩⟩

/-- Modelled from the spec: the accessor `rect_left` of coords.c. -/
def rect_left (r : tile_rect) : ℚ := r.lt.x
/-- Modelled from the spec: the accessor `rect_right` of coords.c. -/
def rect_right (r : tile_rect) : ℚ := r.rb.x
/-- Modelled from the spec: the accessor `rect_top` of coords.c. -/
def rect_top (r : tile_rect) : ℚ := r.lt.y
/-- Modelled from the spec: the accessor `rect_bot` of coords.c. -/
def rect_bot (r : tile_rect) : ℚ := r.rb.y

/-- Rounding of one coordinate to a multiple of `granularity`, up or down. -/
def round_to (v granularity : ℚ) (up : Bool) : ℚ :=
  if up then (⌈v / granularity⌉ : ℚ) * granularity else (⌊v / granularity⌋ : ℚ) * granularity

/-- Modelled from the spec: the `round_point` of coords.c (not among the
sources), which "rounds both components to the nearest multiple of
`granularity`, rounding toward +∞ when `roundUp` is true, else toward −∞". -/
def round_point (p : tile_point) (granularity : ℚ) (up : Bool) : tile_point :=
  ⟨round_to p.x granularity up, round_to p.y granularity up⟩

/-- The `tilebounds` of main.c:405-409, from the two corners
`wgs84_to_tile(args.bounds.lt, zoom)` and `wgs84_to_tile(args.bounds.rb, zoom)`. -/
def main_tilebounds (a b : tile_point) : tile_rect :=
  let tilebounds := rect_make a b
  { lt := round_point tilebounds.lt 1 false, rb := round_point tilebounds.rb 1 true }

/-- The `UINT_MAX` of `limits.h` for the 32-bit `unsigned int` of the loop counters. -/
def UINT_MAX : Nat := 4294967295

/-- The conversion of a `float` to `unsigned int` in the initialisers
`unsigned int tx = rect_left(tilebounds)` and `unsigned int ty = rect_top(tilebounds)`
of main.c:530-531: the fraction is discarded (rounding toward zero), and the
conversion is undefined (`none`) when the integral part is negative or above
`UINT_MAX`. -/
def uint_of_float (v : ℚ) : Option Nat :=
  let i : Int := if 0 ≤ v then ⌊v⌋ else ⌈v⌉
  if 0 ≤ i ∧ i ≤ (UINT_MAX : Int) then some i.toNat else none

/-- The values a loop `for (unsigned int t = ...; t <= bound; t++)` gives `t`
from `t` on: the counter is compared as a `float`, and `t++` wraps around after
`UINT_MAX`. With `fuel` iterations used up and the loop still running the
result is `none`. -/
def count_up (bound : ℚ) : Nat → Nat → Option (List Nat)
  | 0, _ => none
  | fuel + 1, t =>
    if (t : ℚ) ≤ bound then (count_up bound fuel ((t + 1) % (UINT_MAX + 1))).map (fun l => t :: l)
    else some []

/-- The values of `t` in `for (unsigned int t = start; t <= bound; t++)`, `none`
when the conversion of `start` is undefined or the loop does not end: a loop
that has not ended after `UINT_MAX + 1` iterations has found the condition true
for every value of the counter and never ends. -/
def loop_values (start bound : ℚ) : Option (List Nat) :=
  match uint_of_float start with
  | none => none
  | some t => count_up bound (UINT_MAX + 1) t

/-- The outer loop of main.c:530 over the values `tx` takes, each with a run of
the inner loop of main.c:531. -/
def tile_columns (tilebounds : tile_rect) : List Nat → Option (List (Nat × Nat))
  | [] => some []
  | tx :: rest =>
    match loop_values (rect_top tilebounds) (rect_bot tilebounds) with
    | none => none
    | some tys =>
      (tile_columns tilebounds rest).map (fun l => tys.map (fun ty => (tx, ty)) ++ l)

/-- The tiles `(tx, ty)` the two nested loops of main.c:530-531 visit, in order;
`none` when a conversion is undefined or a loop does not end. -/
def visited_tiles (tilebounds : tile_rect) : Option (List (Nat × Nat)) :=
  match loop_values (rect_left tilebounds) (rect_right tilebounds) with
  | none => none
  | some txs => tile_columns tilebounds txs

/-! ## Vocabulary of the statements -/

/-- A predicate on events that no event of the file system layer satisfies:
failed system calls, messages and the derivation of a transform. -/
def fs_quiet (q : Event → Bool) : Prop :=
  (∀ c p e, q (Event.failed c p e) = false) ∧ (∀ m, q (Event.perror m) = false) ∧
  (∀ m, q (Event.log_info m) = false) ∧ (∀ m, q (Event.log_error m) = false) ∧
  (∀ x y z, q (Event.generate_translation_tile x y z) = false)

/-- A sequence of OpenCL calls, each under `OCLCHECK`. -/
def checked_calls : List Event → World → Except World World
  | [], w => Except.ok w
  | e :: es, w =>
    match OCLCHECK (cl_call w e) with
    | Except.error w => Except.error w
    | Except.ok w => checked_calls es w

/-- The seven calls of `set_args_and_enqueue`. -/
def checked_events : List Event :=
  [Event.clSetKernelArg 0, Event.clSetKernelArg 1, Event.clSetKernelArg 2, Event.clSetKernelArg 3,
    Event.clSetKernelArg 4, Event.clSetKernelArg 5, Event.clEnqueueNDRangeKernel]

/-- The status codes `status`, of which the tile body consumes the first two in
its two buffer writes, make the seven checked calls that follow succeed. -/
def checked_calls_succeed (status : List Int) : Bool :=
  (List.range 7).all (fun i => decide ((status.drop 2).getD i CL_SUCCESS = CL_SUCCESS))

/-- Whether an outcome is the end of the loop body. -/
def Outcome.is_running : Outcome → Bool
  | Outcome.running _ => true
  | _ => false

/-- Whether an outcome is an `exit`. -/
def Outcome.is_exited : Outcome → Bool
  | Outcome.exited _ => true
  | _ => false

/-- The world a call of `cl_call` leaves: the event recorded, one status code consumed. -/
def World.after_cl (w : World) (e : Event) : World :=
  { w.emit e with cl_status := w.cl_status.drop 1 }

/-- The transform and the world after the first two statements of the loop
body: the message and `fetch_tile_transform`. -/
def tile_fetch (E : Env) (args : arguments) (tx ty : Nat) (h : Host) :
    (cl_float4 × cl_float4) × World :=
  fetch_tile_transform E.generate_translation_tile args.zoomlevel (int_of_uint tx)
    (int_of_uint ty) args.outdir args.proj_meters h.tr
    (h.world.emit (Event.log_info "Processing (%d,%d)"))

/-- The world in which the loop body calls `link` for a tile without points. -/
def link_world (E : Env) (args : arguments) (tx ty : Nat) (h : Host) : World :=
  (tile_fetch E args tx ty h).2.emit (Event.log_info " skipping...")

/-- The world after the two buffer writes of a tile with points, in which the
checked calls begin. -/
def upload_world (E : Env) (args : arguments) (tx ty : Nat) (h : Host) : World :=
  ((((tile_fetch E args tx ty h).2.emit (Event.log_info " generating from %d...")).after_cl
    Event.clEnqueueWriteBuffer).after_cl Event.clEnqueueWriteBuffer)

/-- The point buffer of the device after the first buffer write, which returned
`s1`: on success its first `npts` entries are those of `chosenpts`. -/
def uploaded_pts (s1 : Int) (npts : Nat) (chosenpts pts_cl : List cl_float2) : List cl_float2 :=
  if s1 = CL_SUCCESS then chosenpts.take npts ++ pts_cl.drop npts else pts_cl

/-- The value buffer of the device after the second buffer write, which returned `s2`. -/
def uploaded_vals (s2 : Int) (npts : Nat) (chosenvals vals_cl : List cl_float) : List cl_float :=
  if s2 = CL_SUCCESS then chosenvals.take npts ++ vals_cl.drop npts else vals_cl

/-- The image object after the kernel has run on the two device buffers. -/
def kernel_image (E : Env) (tr : cl_float4 × cl_float4) (npts : Nat) (pts_cl : List cl_float2)
    (vals_cl : List cl_float) (tile_cl : List Nat) : List Nat :=
  fit (E.TILE_SIZE * E.TILE_SIZE) (E.kernel tr.1 tr.2 npts pts_cl vals_cl tile_cl)

/-- The raster in host memory after `clEnqueueReadImage` returned `s3`: the
image, or the zeroes of `bzero` when the read failed. -/
def read_tile (E : Env) (s3 : Int) (image : List Nat) : List Nat :=
  if s3 = CL_SUCCESS then image else List.replicate (E.TILE_SIZE * E.TILE_SIZE) 0

/-- The point buffer of the device after the uploads of a tile with `npts`
points, from the state `h` at the start of the loop body. -/
def Host.pts_after (h : Host) (npts : Nat) (chosenpts : List cl_float2) : List cl_float2 :=
  uploaded_pts (h.world.cl_status.getD 0 CL_SUCCESS) npts chosenpts h.pts_cl

/-- The value buffer of the device after the uploads of a tile with `npts` points. -/
def Host.vals_after (h : Host) (npts : Nat) (chosenvals : List cl_float) : List cl_float :=
  uploaded_vals (h.world.cl_status.getD 1 CL_SUCCESS) npts chosenvals h.vals_cl

/-- The image object after the kernel has run for a tile with `npts` points and
the transform `tr`. -/
def Host.image_after (E : Env) (h : Host) (tr : cl_float4 × cl_float4) (npts : Nat)
    (chosenpts : List cl_float2) (chosenvals : List cl_float) : List Nat :=
  kernel_image E tr npts (h.pts_after npts chosenpts) (h.vals_after npts chosenvals) h.tile_cl

/-- The world in which `write_png` is called for a tile with points whose
checked calls succeeded: eleven OpenCL calls after `tile_fetch`. -/
def encode_world (E : Env) (args : arguments) (tx ty : Nat) (h : Host) : World :=
  ⟨(tile_fetch E args tx ty h).2.fs, (tile_fetch E args tx ty h).2.errno,
    (upload_world E args tx ty h).trace ++ checked_events ++
      [Event.clFinish, Event.clEnqueueReadImage],
    h.world.cl_status.drop 11⟩

/-- An event that reports an error: an error message, an `exit`, or a `mkdir` or
`link` that failed for another reason than the name existing. -/
def Event.is_bad : Event → Bool
  | Event.log_error _ => true
  | Event.perror _ => true
  | Event.exit _ => true
  | Event.failed c _ e => decide (c ≠ Syscall.fopen ∧ e ≠ EEXIST)
  | _ => false

/-- The number of error reports in a trace. -/
def bad (t : List Event) : Nat := t.countP Event.is_bad

/-- The file system with the content of inode `j` replaced by `d`. -/
def FS.put (f : FS) (j : Nat) (d : List Nat) : FS :=
  { f with data := fun i => if i = j then d else f.data i }

/-- The file system with the name `k` bound to the node `nd`. -/
def FS.bind (f : FS) (k : Key) (nd : Node) : FS :=
  { f with names := fun p => if p = k then some nd else f.names p }

/-- The file system with a new file of content `d` under the name `k`. -/
def FS.create (f : FS) (k : Key) (d : List Nat) : FS :=
  { f with names := fun p => if p = k then some (Node.file f.next) else f.names p
           data := fun i => if i = f.next then d else f.data i
           next := f.next + 1 }

/-- What `fopen(path, "r")` delivers for a resolved name: the content of a file,
nothing for a directory. -/
def FS.read (f : FS) (k : Key) : Option (List Nat) :=
  match f.names k with
  | some (Node.file i) => some (f.data i)
  | some Node.dir => some []
  | none => none

/-- Every file of the name table has an inode number below `next`. -/
def FS.wf (f : FS) : Prop := ∀ k i, f.names k = some (Node.file i) → i < f.next

/-- The file system `g` is `f` with directories added. -/
def dirs_added (f g : FS) : Prop :=
  g.cwd = f.cwd ∧ g.data = f.data ∧ g.next = f.next ∧
    ∀ k, g.names k = f.names k ∨ (f.names k = none ∧ g.names k = some Node.dir)

/-- No file named by a key in `P` has a second name among the keys in `R`. -/
def no_alias (P R : Key → Prop) (f : FS) : Prop :=
  ∀ k k2 i, P k → R k2 → k ≠ k2 → f.names k = some (Node.file i) →
    f.names k2 ≠ some (Node.file i)

/-- A sequence of updates of the file system that writes only under keys in `W`:
directories added anywhere, a new file under a key of `R`, new content for a
file under a key of `P`, or a second name, under a key of `R` outside `P`, for
the file that `kb` names. -/
inductive upds (P R : Key → Prop) (kb : Key) (W : Key → Prop) : FS → FS → Prop where
  | refl (f : FS) : upds P R kb W f f
  | dirs {f g g2 : FS} : upds P R kb W f g → dirs_added g g2 → upds P R kb W f g2
  | create {f g : FS} (k : Key) (d : List Nat) : upds P R kb W f g → W k → R k →
      g.names k = none → upds P R kb W f (g.create k d)
  | put {f g : FS} (k : Key) (j : Nat) (d : List Nat) : upds P R kb W f g → W k → P k →
      g.names k = some (Node.file j) → upds P R kb W f (g.put j d)
  | link {f g : FS} (k : Key) (b : Nat) : upds P R kb W f g → W k → R k → ¬ P k →
      g.names kb = some (Node.file b) → g.names k = none →
      upds P R kb W f (g.bind k (Node.file b))

/-- The bytes `write_png` writes for a raster `tile` of `TILE_SIZE` x `TILE_SIZE`. -/
def png_bytes (E : Env) (colormap : List rgba_t) (tile : List Nat) : List Nat :=
  match write_png_image E.COLORMAP_LEN E.TILE_SIZE E.TILE_SIZE tile colormap with
  | some image => E.png_encode image
  | none => []

/-- The number of points that pass the filter of the tile `(tx, ty)`. -/
def tile_npts (E : Env) (args : arguments) (datapts : List cl_float2) (tx ty : Nat) : Nat :=
  datapts.countP (E.rect_is_inside (tile_footprint E args tx ty))

/-- The resolved name of the cache file of a tile. -/
def key_map (cwd : Key) (args : arguments) (t : Nat × Nat) : Key :=
  resolve cwd (cache_path args.outdir args.zoomlevel (int_of_uint t.1) (int_of_uint t.2))

/-- The resolved name of the output file of a tile. -/
def key_png (cwd : Key) (args : arguments) (t : Nat × Nat) : Key :=
  resolve cwd (tile_path args.outdir args.zoomlevel t.1 t.2)

/-- The resolved name of the blank tile. -/
def key_blank (cwd : Key) (args : arguments) : Key :=
  resolve cwd (blankfilepath args.outdir)

/-- The file system `f` holds the results of the tile `t`: its cache file reads
as the transform `tr1` (into an array that held `tr0`), and its output path
exists, as a file with the encoding of `tile` when the tile has points. -/
def settled (E : Env) (args : arguments) (datapts : List cl_float2) (t : Nat × Nat) (f : FS)
    (tr0 tr1 : cl_float4 × cl_float4) (tile : List Nat) : Prop :=
  (∃ c, f.read (key_map f.cwd args t) = some c ∧ fread_out tr0 c = tr1) ∧
  (tile_npts E args datapts t.1 t.2 = 0 → f.names (key_png f.cwd args t) ≠ none) ∧
  (tile_npts E args datapts t.1 t.2 ≠ 0 →
    f.read (key_png f.cwd args t) = some (png_bytes E args.colormap tile) ∧
    ∃ j, f.names (key_png f.cwd args t) = some (Node.file j))

/-- Two program states agree in everything but the file system, `errno` and the trace. -/
def Host.same_program (a b : Host) : Prop :=
  a.tr = b.tr ∧ a.chosenpts = b.chosenpts ∧ a.chosenvals = b.chosenvals ∧ a.tile = b.tile ∧
  a.pts_cl = b.pts_cl ∧ a.vals_cl = b.vals_cl ∧ a.tile_cl = b.tile_cl ∧
  a.world.cl_status = b.world.cl_status

/-- The keys under which the tiles of a list are written: their cache files and
their output files. -/
def tile_keys (cwd : Key) (args : arguments) (tiles : List (Nat × Nat)) (k : Key) : Prop :=
  ∃ t ∈ tiles, k = key_map cwd args t ∨ k = key_png cwd args t

/-- The cache file and the output file of the tile `t` are under other names
than those of the tile `u`. -/
def keys_apart (cwd : Key) (args : arguments) (t u : Nat × Nat) : Prop :=
  key_map cwd args t ≠ key_map cwd args u ∧ key_map cwd args t ≠ key_png cwd args u ∧
  key_png cwd args t ≠ key_map cwd args u ∧ key_png cwd args t ≠ key_png cwd args u

/-- The keys the run writes or links: the blank tile and the files of the tiles. -/
def run_keys (cwd : Key) (args : arguments) (tiles : List (Nat × Nat)) (k : Key) : Prop :=
  k = key_blank cwd args ∨ tile_keys cwd args tiles k

/-- The keys whose files the run reads back or overwrites: the cache files of
the tiles and the output files of the tiles that have points. -/
def kept_keys (E : Env) (args : arguments) (datapts : List cl_float2) (cwd : Key)
    (tiles : List (Nat × Nat)) (k : Key) : Prop :=
  ∃ t ∈ tiles, k = key_map cwd args t ∨
    (tile_npts E args datapts t.1 t.2 ≠ 0 ∧ k = key_png cwd args t)

/-- The `zpath` of main.c:418-419. -/
def zpath (args : arguments) : CStr :=
  snprintf PATH_MAX (args.outdir ++ ['/'] ++ fmt_d args.zoomlevel)

instance (cwd : Key) (args : arguments) (t u : Nat × Nat) :
    Decidable (keys_apart cwd args t u) := by
  unfold keys_apart
  infer_instance

/-- The file system `g` is `f` grown: the names of `f` name what they named, a
new name of a file is the name of a new file, and the files of `f` hold what
they held. -/
def FS.grows (f g : FS) : Prop :=
  g.cwd = f.cwd ∧ f.next ≤ g.next ∧
  (∀ k nd, f.names k = some nd → g.names k = some nd) ∧
  (∀ k i, g.names k = some (Node.file i) → f.names k = some (Node.file i) ∨ f.next ≤ i) ∧
  (∀ i, i < f.next → g.data i = f.data i)

/-! ## Worlds and inputs used in the examples -/

/-- The world at the moment `fetch_tile_transform` opens the cache file for
writing on a miss: after the failed `fopen(path, "r")`, the derivation, and
`mkdir_recursive(dirpath)` with its possible error message. -/
def cache_write_world (cachedir : CStr) (z x y : Int) (w : World) : World :=
  let w1 := (fopen_r w (cache_path cachedir z x y)).2.emit (Event.generate_translation_tile x y z)
  let m := mkdir_recursive w1 (cache_dirpath cachedir z x)
  if m.1 < 0 then m.2.emit (Event.log_error "Failed to mkdir %s") else m.2

/-- A file system with the root and the directory `/home`, which is the working
directory, and nothing else. -/
def home_fs : FS :=
  { cwd := ["home".toList]
    names := fun p => if p = [] ∨ p = ["home".toList] then some Node.dir else none
    data := fun _ => []
    next := 0 }

/-- The world of `home_fs` with `errno` as given, no events and every OpenCL
call succeeding. -/
def home_world (errno : Nat) : World := ⟨home_fs, errno, [], []⟩

/-- As `home_fs`, with a regular file `/home/out` of three bytes. -/
def home_fs_with_file_out : FS :=
  { cwd := ["home".toList]
    names := fun p =>
      if p = [] ∨ p = ["home".toList] then some Node.dir
      else if p = ["home".toList, "out".toList] then some (Node.file 0) else none
    data := fun i => if i = 0 then [1, 2, 3] else []
    next := 1 }

/-- As `home_fs`, with an empty directory `/home/out`. -/
def home_fs_with_dir_out : FS :=
  { cwd := ["home".toList]
    names := fun p =>
      if p = [] ∨ p = ["home".toList] ∨ p = ["home".toList, "out".toList] then some Node.dir
      else none
    data := fun _ => []
    next := 0 }

/-- A stand-in for `generate_translation_tile`: the key written into two vectors. -/
def example_transform (x y z : Int) (_proj : projPJ) : cl_float4 × cl_float4 :=
  (⟨Fin.ofNat x.toNat, 1, 2, 3⟩, ⟨Fin.ofNat y.toNat, 5, 6, Fin.ofNat z.toNat⟩)

/-- A stand-in for the functions the sources do not define, over tiles of 2 x 2
pixels and a colormap of two colours: floats are small integers, a tile's
footprint is the tile itself, the kernel paints every pixel with the point
count, and the encoder lists what it is given. -/
def example_env : Env :=
  { TILE_SIZE := 2
    COLORMAP_LEN := 2
    blank_tile_png := [137, 80, 78, 71]
    generate_translation_tile := example_transform
    rect_make := fun a b => ⟨a, b⟩
    rect_lefttop := fun r => r.lt
    rect_righttop := fun r => ⟨r.rb.x, r.lt.y⟩
    rect_rightbot := fun r => r.rb
    rect_leftbot := fun r => ⟨r.lt.x, r.rb.y⟩
    tile_to_meters := fun p _ _ => p
    rect_max := fun ps => ⟨ps.getD 0 ⟨0, 0⟩, ps.getD 2 ⟨0, 0⟩⟩
    rect_inflate := fun r _ => r
    rect_is_inside := fun r p =>
      decide (r.lt.x ≤ p.x ∧ p.x ≤ r.rb.x ∧ r.lt.y ≤ p.y ∧ p.y ≤ r.rb.y)
    float_of_uint := fun n => Fin.ofNat n
    png_encode := fun im =>
      [im.width, im.height] ++ im.palette.map (fun c => c.red) ++ im.trns ++ im.rows.flatten
    kernel := fun _ _ npts _ _ _ => List.replicate 4 (npts % 256) }

/-- Arguments for the examples: zoom level 1, output directory `out`, two colours. -/
def example_args : arguments :=
  { zoomlevel := 1
    outdir := "out".toList
    colormap := [⟨0, 0, 0, 0⟩, ⟨255, 0, 0, 255⟩]
    proj_meters := 0
    prefilter := 0 }

/-- A program state in a given file system: `errno` zero, no events, the
scratch buffers and the device buffers of `datalen` zeroed entries, and the
given status codes for the coming OpenCL calls. -/
def example_host (fs : FS) (datalen : Nat) (cl_status : List Int) : Host :=
  { world := ⟨fs, 0, [], cl_status⟩
    tr := (⟨0, 0, 0, 0⟩, ⟨0, 0, 0, 0⟩)
    chosenpts := List.replicate datalen ⟨0, 0⟩
    chosenvals := List.replicate datalen 0
    tile := []
    pts_cl := List.replicate datalen ⟨0, 0⟩
    vals_cl := List.replicate datalen 0
    tile_cl := [] }

/-- A file system left by an earlier run with other data: the directories `out`,
`out/1` and `out/1/0` under `/home`, and a tile `out/1/0/0.png` of three bytes. -/
def home_fs_with_stale_tile : FS :=
  { cwd := ["home".toList]
    names := fun p =>
      if p = [] ∨ p = ["home".toList] ∨ p = ["home".toList, "out".toList]
          ∨ p = ["home".toList, "out".toList, "1".toList]
          ∨ p = ["home".toList, "out".toList, "1".toList, "0".toList] then some Node.dir
      else if p = ["home".toList, "out".toList, "1".toList, "0".toList, "0.png".toList] then
        some (Node.file 0)
      else none
    data := fun i => if i = 0 then [1, 2, 3] else []
    next := 1 }

/-- A file system in which the directories `out`, `out/1` and `out/1/0` exist
under `/home` and `out/blank.png` is a file of four bytes. -/
def home_fs_with_blank : FS :=
  { cwd := ["home".toList]
    names := fun p =>
      if p = [] ∨ p = ["home".toList] ∨ p = ["home".toList, "out".toList]
          ∨ p = ["home".toList, "out".toList, "1".toList]
          ∨ p = ["home".toList, "out".toList, "1".toList, "0".toList] then some Node.dir
      else if p = ["home".toList, "out".toList, "blank.png".toList] then some (Node.file 0)
      else none
    data := fun i => if i = 0 then [137, 80, 78, 71] else []
    next := 1 }

/-- As `example_env`, with a kernel whose image depends on the transform (every
pixel is the low byte of the first float of the transform, plus one) and an
encoder that writes the four pixels and 28 zero bytes. -/
def example_env_tr : Env :=
  { example_env with
    kernel := fun tr0 _ _ _ _ _ => List.replicate 4 ((tr0.x.val + 1) % 256)
    png_encode := fun im => im.rows.flatten ++ List.replicate 28 0 }

/-- A file system in which the directories `out`, `out/1` and `out/1/0` exist
under `/home`, and `out/1/0/0.map` and `out/1/0/0.png` are two names of one file
of 32 bytes. -/
def home_fs_with_linked_cache : FS :=
  { cwd := ["home".toList]
    names := fun p =>
      if p = [] ∨ p = ["home".toList] ∨ p = ["home".toList, "out".toList]
          ∨ p = ["home".toList, "out".toList, "1".toList]
          ∨ p = ["home".toList, "out".toList, "1".toList, "0".toList] then some Node.dir
      else if p = ["home".toList, "out".toList, "1".toList, "0".toList, "0.map".toList]
          ∨ p = ["home".toList, "out".toList, "1".toList, "0".toList, "0.png".toList] then
        some (Node.file 0)
      else none
    data := fun i => if i = 0 then List.replicate 32 9 else []
    next := 1 }

/-- A file system as a run without points leaves it: the directories `out`,
`out/1` and `out/1/0` under `/home`, the blank tile `out/blank.png` of four
bytes, and the tiles `out/1/0/0.png` and `out/1/0/1.png` as two more names of
that file. -/
def home_fs_with_linked_tiles : FS :=
  { cwd := ["home".toList]
    names := fun p =>
      if p = [] ∨ p = ["home".toList] ∨ p = ["home".toList, "out".toList]
          ∨ p = ["home".toList, "out".toList, "1".toList]
          ∨ p = ["home".toList, "out".toList, "1".toList, "0".toList] then some Node.dir
      else if p = ["home".toList, "out".toList, "blank.png".toList]
          ∨ p = ["home".toList, "out".toList, "1".toList, "0".toList, "0.png".toList]
          ∨ p = ["home".toList, "out".toList, "1".toList, "0".toList, "1.png".toList] then
        some (Node.file 0)
      else none
    data := fun i => if i = 0 then [137, 80, 78, 71] else []
    next := 1 }

/-- A file system in which the directories `out`, `out/1` and `out/1/0` exist
under `/home`, and the cache path `out/1/0/0.map` is a directory too. -/
def home_fs_with_cache_dir : FS :=
  { cwd := ["home".toList]
    names := fun p =>
      if p = [] ∨ p = ["home".toList] ∨ p = ["home".toList, "out".toList]
          ∨ p = ["home".toList, "out".toList, "1".toList]
          ∨ p = ["home".toList, "out".toList, "1".toList, "0".toList]
          ∨ p = ["home".toList, "out".toList, "1".toList, "0".toList, "0.map".toList] then
        some Node.dir
      else none
    data := fun _ => []
    next := 0 }

/-! ## Theorems -/

theorem palette_loop_spec (colormap : List rgba_t) :
    ∀ (n i : Nat) (colors : List png_color) (trns : List Nat),
      i + n ≤ colormap.length → i + n ≤ colors.length → i + n ≤ trns.length →
      ∃ cs ts, palette_loop colormap n i colors trns = some (cs, ts) ∧
        cs.length = colors.length ∧ ts.length = trns.length ∧
        (∀ j, cs[j]? = if i ≤ j ∧ j < i + n then (colormap[j]?).map to_png_color else colors[j]?) ∧
        (∀ j, ts[j]? = if i ≤ j ∧ j < i + n then (colormap[j]?).map (fun c => c.a % 256) else trns[j]?) := by
  intro n
  induction n with
  | zero =>
    intro i colors trns _ _ _
    refine ⟨colors, trns, rfl, rfl, rfl, ?_, ?_⟩ <;> intro j <;> rw [if_neg (by omega)]
  | succ n ih =>
    intro i colors trns h1 h2 h3
    have hi : i < colormap.length := by omega
    obtain ⟨cs, ts, he, hl1, hl2, hc, ht⟩ := ih (i + 1)
      (colors.set i (to_png_color colormap[i])) (trns.set i (colormap[i].a % 256))
      (by omega) (by simp; omega) (by simp; omega)
    refine ⟨cs, ts, ?_, ?_, ?_, ?_, ?_⟩
    · simp only [palette_loop, List.getElem?_eq_getElem hi]
      rw [if_pos ⟨by omega, by omega⟩]
      exact he
    · simpa using hl1
    · simpa using hl2
    · intro j
      rw [hc j]
      by_cases hj : j = i
      · subst hj
        rw [if_neg (show ¬(j + 1 ≤ j ∧ j < j + 1 + n) by omega),
          if_pos (show j ≤ j ∧ j < j + (n + 1) from ⟨le_refl _, by omega⟩),
          List.getElem?_eq_getElem hi]
        rw [List.getElem?_set_self (by omega)]
        rfl
      · have : (colors.set i (to_png_color colormap[i]))[j]? = colors[j]? := by
          rw [List.getElem?_set_ne]; omega
        rw [this]
        by_cases hA : i + 1 ≤ j ∧ j < i + 1 + n
        · rw [if_pos hA, if_pos ⟨by omega, by omega⟩]
        · rw [if_neg hA, if_neg (by omega)]
    · intro j
      rw [ht j]
      by_cases hj : j = i
      · subst hj
        rw [if_neg (show ¬(j + 1 ≤ j ∧ j < j + 1 + n) by omega),
          if_pos (show j ≤ j ∧ j < j + (n + 1) from ⟨le_refl _, by omega⟩),
          List.getElem?_eq_getElem hi]
        rw [List.getElem?_set_self (by omega)]
        rfl
      · have : (trns.set i (colormap[i].a % 256))[j]? = trns[j]? := by
          rw [List.getElem?_set_ne]; omega
        rw [this]
        by_cases hA : i + 1 ≤ j ∧ j < i + 1 + n
        · rw [if_pos hA, if_pos ⟨by omega, by omega⟩]
        · rw [if_neg hA, if_neg (by omega)]

/-- C9: for a colormap of `COLORMAP_LEN` byte-valued RGBA entries, `write_png` hands
libpng a palette and a transparency table of exactly `COLORMAP_LEN` entries each,
where palette entry `i` has the red, green and blue of `colormap[i]` and
transparency entry `i` is its alpha. -/
theorem write_png_palette_entries (COLORMAP_LEN : Nat) (colormap : List rgba_t)
    (hlen : colormap.length = COLORMAP_LEN) (hbytes : ∀ c ∈ colormap, c.is_bytes) :
    ∃ palette trns, write_png_palette COLORMAP_LEN colormap = some (palette, trns) ∧
      palette.length = COLORMAP_LEN ∧ trns.length = COLORMAP_LEN ∧
      ∀ i (hi : i < colormap.length),
        palette[i]? = some ⟨colormap[i].r, colormap[i].g, colormap[i].b⟩ ∧
        trns[i]? = some colormap[i].a := by
  obtain ⟨cs, ts, he, hl1, hl2, hc, ht⟩ := palette_loop_spec colormap COLORMAP_LEN 0
    (List.replicate COLORMAP_LEN (⟨0, 0, 0⟩ : png_color))
    (List.replicate (COLORMAP_LEN * sizeof_png_color) 0)
    (by omega) (by simp) (by simp [sizeof_png_color]; omega)
  simp only [List.length_replicate] at hl1 hl2
  refine ⟨cs.take COLORMAP_LEN, ts.take COLORMAP_LEN, ?_, ?_, ?_, ?_⟩
  · simp only [write_png_palette, he]
  · simp [hl1]
  · simp [hl2, sizeof_png_color]; omega
  · intro i hi
    have hb := hbytes colormap[i] (List.getElem_mem hi)
    obtain ⟨hr, hg, hbl, ha⟩ := hb
    have hi2 : i < COLORMAP_LEN := by omega
    constructor
    · rw [List.getElem?_take_of_lt hi2, hc i, if_pos ⟨by omega, by omega⟩,
        List.getElem?_eq_getElem hi]
      simp [to_png_color, Nat.mod_eq_of_lt hr, Nat.mod_eq_of_lt hg, Nat.mod_eq_of_lt hbl]
    · rw [List.getElem?_take_of_lt hi2, ht i, if_pos ⟨by omega, by omega⟩,
        List.getElem?_eq_getElem hi]
      simp [Nat.mod_eq_of_lt ha]

theorem row_loop_eq (img : List Nat) (height y : Nat) :
    ∀ (n x : Nat), y * height + x + n ≤ img.length →
      row_loop img height y n x = some ((img.drop (y * height + x)).take n) := by
  intro n
  induction n with
  | zero => intro x _; simp [row_loop]
  | succ n ih =>
    intro x h
    have hlt : y * height + x < img.length := by omega
    have := ih (x + 1) (by omega)
    simp only [row_loop, List.getElem?_eq_getElem hlt, this]
    rw [List.drop_eq_getElem_cons hlt]
    simp [Nat.add_assoc]

theorem rows_loop_square (img : List Nat) (s : Nat) :
    ∀ (n y : Nat), (y + n) * s ≤ img.length →
      rows_loop img s s n y =
        some ((List.range' y n).map (fun y => (img.drop (y * s)).take s)) := by
  intro n
  induction n with
  | zero => intro y _; simp [rows_loop]
  | succ n ih =>
    intro y h
    have h1 : y * s + 0 + s ≤ img.length := by
      have : (y + 1) * s ≤ (y + (n + 1)) * s := Nat.mul_le_mul_right _ (by omega)
      rw [Nat.add_mul] at this; omega
    have h2 := ih (y + 1) (by rw [show y + 1 + n = y + (n + 1) by omega]; exact h)
    simp only [rows_loop, row_loop_eq img s y s 0 h1, h2]
    simp [List.range'_succ]

/-- C9 witness: a three-colour colormap. -/
theorem write_png_palette_entries_witness :
    ∃ palette trns,
      write_png_palette 3 [⟨255, 0, 0, 0⟩, ⟨0, 255, 0, 128⟩, ⟨1, 2, 3, 255⟩] = some (palette, trns) ∧
      palette.length = 3 ∧ trns.length = 3 ∧
      ∀ i (hi : i < ([⟨255, 0, 0, 0⟩, ⟨0, 255, 0, 128⟩, ⟨1, 2, 3, 255⟩] : List rgba_t).length),
        palette[i]? = some ⟨([⟨255, 0, 0, 0⟩, ⟨0, 255, 0, 128⟩, ⟨1, 2, 3, 255⟩] : List rgba_t)[i].r,
          ([⟨255, 0, 0, 0⟩, ⟨0, 255, 0, 128⟩, ⟨1, 2, 3, 255⟩] : List rgba_t)[i].g,
          ([⟨255, 0, 0, 0⟩, ⟨0, 255, 0, 128⟩, ⟨1, 2, 3, 255⟩] : List rgba_t)[i].b⟩ ∧
        trns[i]? = some ([⟨255, 0, 0, 0⟩, ⟨0, 255, 0, 128⟩, ⟨1, 2, 3, 255⟩] : List rgba_t)[i].a :=
  write_png_palette_entries 3 [⟨255, 0, 0, 0⟩, ⟨0, 255, 0, 128⟩, ⟨1, 2, 3, 255⟩] (by decide)
    (by decide)

/-- C10: at width 3, height 2 the rows `write_png` emits are not the rows of the
row-major raster: row 1 starts at `img[1 * height]` = `img[2]`, not at
`img[1 * width]` = `img[3]`; and at width 2, height 3 the third row is read from
beyond the `width * height` bytes of the buffer. -/
theorem write_png_rows_stride_is_height :
    write_png_rows 3 2 [10, 11, 12, 13, 14, 15] = some [[10, 11, 12], [12, 13, 14]] ∧
    write_png_rows 3 2 [10, 11, 12, 13, 14, 15] ≠ some [[10, 11, 12], [13, 14, 15]] ∧
    write_png_rows 2 3 [10, 11, 12, 13, 14, 15] = none := by
  decide

theorem take_set_succ {α : Type} (l : List α) (n : Nat) (a : α) (h : n < l.length) :
    (l.set n a).take (n + 1) = l.take n ++ [a] := by
  induction l generalizing n with
  | nil => simp at h
  | cons b l ih =>
    cases n with
    | zero => simp
    | succ n =>
      simp only [List.set_cons_succ, List.take_succ_cons, List.cons_append]
      rw [ih n (by simpa using h)]

theorem selected_vals_length (inside : cl_float2 → Bool) :
    ∀ (datapts : List cl_float2) (datavals : List cl_float),
      datavals.length = datapts.length →
      (selected_vals inside datapts datavals).length = (datapts.filter inside).length := by
  intro datapts
  induction datapts with
  | nil => intro dv _; simp [selected_vals]
  | cons p ps ih =>
    intro dv h
    cases dv with
    | nil => simp at h
    | cons v vs =>
      have ih' := ih vs (by simpa using h)
      simp only [selected_vals, List.zip_cons_cons] at ih' ⊢
      by_cases hp : inside p = true
      · simp [List.filter_cons, hp] at ih' ⊢; exact ih'
      · simp [List.filter_cons, hp] at ih' ⊢; exact ih'

theorem selected_vals_cons (inside : cl_float2 → Bool) (p : cl_float2) (ps : List cl_float2)
    (v : cl_float) (vs : List cl_float) :
    selected_vals inside (p :: ps) (v :: vs) =
      if inside p = true then v :: selected_vals inside ps vs else selected_vals inside ps vs := by
  by_cases hp : inside p = true <;> simp [selected_vals, List.filter_cons, hp]

theorem select_loop_spec (inside : cl_float2 → Bool) (datapts : List cl_float2)
    (datavals : List cl_float) (hlen : datavals.length = datapts.length)
    (h32 : datapts.length < 4294967296) :
    ∀ (n i npts : Nat) (cp : List cl_float2) (cv : List cl_float),
      i + n = datapts.length → npts ≤ i →
      cp.length = datapts.length → cv.length = datapts.length →
      ∃ cp2 cv2,
        select_loop inside datapts datavals n i npts cp cv =
          some (npts + ((datapts.drop i).filter inside).length, cp2, cv2) ∧
        cp2.length = datapts.length ∧ cv2.length = datapts.length ∧
        cp2.take (npts + ((datapts.drop i).filter inside).length) =
          cp.take npts ++ (datapts.drop i).filter inside ∧
        cv2.take (npts + ((datapts.drop i).filter inside).length) =
          cv.take npts ++ selected_vals inside (datapts.drop i) (datavals.drop i) := by
  intro n
  induction n with
  | zero =>
    intro i npts cp cv hi _ hcp hcv
    have : datapts.drop i = [] := by simp; omega
    refine ⟨cp, cv, ?_, hcp, hcv, ?_, ?_⟩ <;> simp [select_loop, this, selected_vals]
  | succ n ih =>
    intro i npts cp cv hi hn hcp hcv
    have hip : i < datapts.length := by omega
    have hiv : i < datavals.length := by omega
    have hdp : datapts.drop i = datapts[i] :: datapts.drop (i + 1) :=
      List.drop_eq_getElem_cons hip
    have hdv : datavals.drop i = datavals[i] :: datavals.drop (i + 1) :=
      List.drop_eq_getElem_cons hiv
    by_cases hin : inside datapts[i] = true
    · have hnp : (npts + 1) % 4294967296 = npts + 1 := Nat.mod_eq_of_lt (by omega)
      obtain ⟨cp2, cv2, he, hl1, hl2, ht1, ht2⟩ := ih (i + 1) (npts + 1)
        (cp.set npts datapts[i]) (cv.set npts datavals[i]) (by omega) (by omega)
        (by simpa using hcp) (by simpa using hcv)
      have hk : ((datapts.drop i).filter inside).length =
          ((datapts.drop (i + 1)).filter inside).length + 1 := by
        rw [hdp, List.filter_cons_of_pos hin]; simp
      refine ⟨cp2, cv2, ?_, hl1, hl2, ?_, ?_⟩
      · simp only [select_loop, List.getElem?_eq_getElem hip, List.getElem?_eq_getElem hiv, hin,
          Bool.not_true, Bool.false_eq_true, if_false, hnp]
        rw [if_pos ⟨by omega, by omega⟩, he, hk]
        congr 2; omega
      · rw [hk, show npts + (((datapts.drop (i + 1)).filter inside).length + 1) =
          npts + 1 + ((datapts.drop (i + 1)).filter inside).length by omega, ht1,
          take_set_succ _ _ _ (by omega), hdp, List.filter_cons_of_pos hin]
        simp
      · rw [hk, show npts + (((datapts.drop (i + 1)).filter inside).length + 1) =
          npts + 1 + ((datapts.drop (i + 1)).filter inside).length by omega, ht2,
          take_set_succ _ _ _ (by omega), hdp, hdv, selected_vals_cons, if_pos hin]
        rw [List.append_assoc]; rfl
    · obtain ⟨cp2, cv2, he, hl1, hl2, ht1, ht2⟩ := ih (i + 1) npts cp cv (by omega) (by omega)
        hcp hcv
      have hk : (datapts.drop i).filter inside = (datapts.drop (i + 1)).filter inside := by
        rw [hdp, List.filter_cons_of_neg hin]
      refine ⟨cp2, cv2, ?_, hl1, hl2, ?_, ?_⟩
      · simp only [select_loop, List.getElem?_eq_getElem hip, hin]
        simpa [hk] using he
      · rw [hk]; exact ht1
      · rw [hk, ht2, hdp, hdv, selected_vals_cons, if_neg hin]

theorem select_points_count (inside : cl_float2 → Bool)
    (datalen : Nat) (datapts : List cl_float2) (datavals : List cl_float)
    (chosenpts : List cl_float2) (chosenvals : List cl_float)
    (hpts : datapts.length = datalen) (hvals : datavals.length = datalen)
    (hcp : chosenpts.length = datalen) (hcv : chosenvals.length = datalen)
    (h32 : datalen < 4294967296) :
    ∃ cp cv, select_points inside datalen datapts datavals chosenpts chosenvals =
        some (datapts.countP inside, cp, cv) ∧ cp.length = datalen ∧ cv.length = datalen := by
  subst hpts
  obtain ⟨cp2, cv2, he, hl1, hl2, -, -⟩ :=
    select_loop_spec inside datapts datavals hvals h32 datapts.length 0 0
      chosenpts chosenvals (by omega) (le_refl _) hcp hcv
  simp only [List.drop_zero, Nat.zero_add] at he
  rw [← List.countP_eq_length_filter] at he
  exact ⟨cp2, cv2, he, hl1, hl2⟩

/-- C2: for point and value arrays of length `datalen` (below `2^32`, which the
loading loops of `main` need to terminate) and scratch buffers of the same length,
the selector scan returns; the count it returns is the number of points inside the
rectangle, the first `npts` entries of `chosenpts` are exactly those points in their
original order, the first `npts` entries of `chosenvals` are their co-indexed
values, and `npts <= datalen`, the scratch buffers keeping their length (no write
lands outside them). -/
theorem select_points_spec (rect_is_inside : rect → cl_float2 → Bool) (tilems : rect)
    (datalen : Nat) (datapts : List cl_float2) (datavals : List cl_float)
    (chosenpts : List cl_float2) (chosenvals : List cl_float)
    (hpts : datapts.length = datalen) (hvals : datavals.length = datalen)
    (hcp : chosenpts.length = datalen) (hcv : chosenvals.length = datalen)
    (h32 : datalen < 4294967296) :
    ∃ npts chosenpts2 chosenvals2,
      select_points (rect_is_inside tilems) datalen datapts datavals chosenpts chosenvals =
        some (npts, chosenpts2, chosenvals2) ∧
      npts = datapts.countP (rect_is_inside tilems) ∧
      chosenpts2.take npts = datapts.filter (rect_is_inside tilems) ∧
      chosenvals2.take npts = selected_vals (rect_is_inside tilems) datapts datavals ∧
      npts ≤ datalen ∧ chosenpts2.length = datalen ∧ chosenvals2.length = datalen := by
  subst hpts
  obtain ⟨cp2, cv2, he, hl1, hl2, ht1, ht2⟩ :=
    select_loop_spec (rect_is_inside tilems) datapts datavals hvals h32 datapts.length 0 0
      chosenpts chosenvals (by omega) (le_refl _) hcp hcv
  simp only [List.drop_zero, Nat.zero_add, List.take_zero, List.nil_append] at he ht1 ht2
  refine ⟨_, cp2, cv2, he, ?_, ht1, ht2, ?_, hl1, hl2⟩
  · rw [List.countP_eq_length_filter]
  · exact List.length_filter_le _ _

/-- C2 witness: three points, the first and the last inside the rectangle. -/
theorem select_points_spec_witness :
    ∃ npts chosenpts2 chosenvals2,
      select_points ((fun _ p => decide (p.x ≠ 5)) (⟨⟨0, 0⟩, ⟨9, 9⟩⟩ : rect)) 3
        [⟨1, 1⟩, ⟨5, 5⟩, ⟨2, 2⟩] [10, 20, 30] [⟨7, 7⟩, ⟨7, 7⟩, ⟨7, 7⟩] [0, 0, 0] =
        some (npts, chosenpts2, chosenvals2) ∧
      npts = ([⟨1, 1⟩, ⟨5, 5⟩, ⟨2, 2⟩] : List cl_float2).countP
        ((fun _ p => decide (p.x ≠ 5)) (⟨⟨0, 0⟩, ⟨9, 9⟩⟩ : rect)) ∧
      chosenpts2.take npts = ([⟨1, 1⟩, ⟨5, 5⟩, ⟨2, 2⟩] : List cl_float2).filter
        ((fun _ p => decide (p.x ≠ 5)) (⟨⟨0, 0⟩, ⟨9, 9⟩⟩ : rect)) ∧
      chosenvals2.take npts = selected_vals ((fun _ p => decide (p.x ≠ 5)) (⟨⟨0, 0⟩, ⟨9, 9⟩⟩ : rect))
        [⟨1, 1⟩, ⟨5, 5⟩, ⟨2, 2⟩] [10, 20, 30] ∧
      npts ≤ 3 ∧ chosenpts2.length = 3 ∧ chosenvals2.length = 3 :=
  select_points_spec (fun _ p => decide (p.x ≠ 5)) ⟨⟨0, 0⟩, ⟨9, 9⟩⟩ 3
    [⟨1, 1⟩, ⟨5, 5⟩, ⟨2, 2⟩] [10, 20, 30] [⟨7, 7⟩, ⟨7, 7⟩, ⟨7, 7⟩] [0, 0, 0]
    (by decide) (by decide) (by decide) (by decide) (by decide)

/-! ### The file system primitives -/

theorem mkdir_cwd (w : World) (path : CStr) : (mkdir w path).2.fs.cwd = w.fs.cwd := by
  unfold mkdir
  dsimp only
  split
  · rfl
  · split
    · rfl
    · split <;> rfl

theorem mkdir_recursive_loop_cwd :
    ∀ (toks : List CStr) (dir : CStr) (w : World),
      (mkdir_recursive_loop toks dir w).2.fs.cwd = w.fs.cwd := by
  intro toks
  induction toks with
  | nil => intro dir w; rfl
  | cons tok toks ih =>
    intro dir w
    simp only [mkdir_recursive_loop]
    split
    · simp [World.emit, mkdir_cwd]
    · rw [ih, mkdir_cwd]

theorem mkdir_recursive_cwd (w : World) (path : CStr) :
    (mkdir_recursive w path).2.fs.cwd = w.fs.cwd :=
  mkdir_recursive_loop_cwd _ _ _

theorem float_of_four_bytes (f : cl_float) :
    (Fin.ofNat (f.val % 256 + 256 * (f.val / 256 % 256)
      + 65536 * (f.val / 65536 % 256) + 16777216 * (f.val / 16777216 % 256)) :
      cl_float) = f := by
  apply Fin.ext
  have hf := f.isLt
  simp only [Fin.ofNat, Nat.mod_mod]
  omega

theorem fread_out_bytes_of_out (out0 out : cl_float4 × cl_float4) :
    fread_out out0 (bytes_of_out out) = out := by
  obtain ⟨⟨a, b, c, d⟩, ⟨e, f, g, h⟩⟩ := out
  simp [fread_out, bytes_of_out, bytes_of_float4, bytes_of_float, float4_of_bytes,
    float_of_bytes, float_of_four_bytes]

/-- C8: `mkdir_recursive` returns 0 without the directory existing. With the
relative path `a/b` and `errno` being `ENOENT` on entry (as a failed `fopen`
leaves it), `mkdir("a/")` succeeds, the test `ret <= 0 && errno != EEXIST` takes
the stale `errno` for a failure and the function returns 0 with `a/b` missing.
With the absolute path `/a/b`, `strtok_r` drops the leading `/` and the
directories are made under the working directory: neither `/a` nor `/a/b` exists. -/
theorem mkdir_recursive_returns_zero_without_directory :
    (mkdir_recursive (home_world ENOENT) "a/b".toList).1 = 0 ∧
    (mkdir_recursive (home_world ENOENT) "a/b".toList).2.fs.is_dir "a".toList = true ∧
    (mkdir_recursive (home_world ENOENT) "a/b".toList).2.fs.is_dir "a/b".toList = false ∧
    (mkdir_recursive (home_world EEXIST) "/a/b".toList).1 = 0 ∧
    (mkdir_recursive (home_world EEXIST) "/a/b".toList).2.fs.is_dir "/a".toList = false ∧
    (mkdir_recursive (home_world EEXIST) "/a/b".toList).2.fs.is_dir "/a/b".toList = false ∧
    (mkdir_recursive (home_world EEXIST) "/a/b".toList).2.fs.is_dir "/home/a/b".toList = true := by
  decide

theorem fopen_w_none_fs (w : World) (path : CStr) (h : (fopen_w w path).1 = none) :
    (fopen_w w path).2.fs = w.fs := by
  by_cases hp : path = []
  · simp [fopen_w, hp, World.fail]
  · cases hn : w.fs.names (resolve w.fs.cwd path) with
    | none =>
      cases hpe : parent_errno w.fs (resolve w.fs.cwd path) with
      | none => simp [fopen_w, hp, hn, hpe] at h
      | some e => simp [fopen_w, hp, hn, hpe, World.fail]
    | some nd =>
      cases nd with
      | dir => simp [fopen_w, hp, hn, World.fail]
      | file i => simp [fopen_w, hp, hn] at h

theorem fetch_tile_transform_miss
    (gen : Int → Int → Int → projPJ → cl_float4 × cl_float4)
    (z x y : Int) (cachedir : CStr) (proj_meters : projPJ) (out : cl_float4 × cl_float4)
    (w : World) (hmiss : (fopen_r w (cache_path cachedir z x y)).1 = none) :
    fetch_tile_transform gen z x y cachedir proj_meters out w =
      match fopen_w (cache_write_world cachedir z x y w) (cache_path cachedir z x y) with
      | (none, w3) =>
        (gen x y z proj_meters,
          w3.emit (Event.log_error "Failed to save tile transform cache file %s"))
      | (some fout, w3) =>
        (gen x y z proj_meters,
          fwrite (w3.emit (Event.log_info "Generated cache file %s")) fout
            (bytes_of_out (gen x y z proj_meters))) := by
  unfold fetch_tile_transform cache_write_world
  dsimp only
  generalize hr : fopen_r w (cache_path cachedir z x y) = r at hmiss
  obtain ⟨o, w1⟩ := r
  simp only at hmiss
  subst hmiss
  rfl

theorem fetch_tile_transform_hit
    (gen : Int → Int → Int → projPJ → cl_float4 × cl_float4)
    (z x y : Int) (cachedir : CStr) (proj_meters : projPJ) (out : cl_float4 × cl_float4)
    (w : World) (content : List Nat)
    (hhit : (fopen_r w (cache_path cachedir z x y)).1 = some content) :
    fetch_tile_transform gen z x y cachedir proj_meters out w =
      (fread_out out content,
        (fopen_r w (cache_path cachedir z x y)).2.emit (Event.log_info "Loaded cache file %s")) := by
  unfold fetch_tile_transform
  dsimp only
  generalize hr : fopen_r w (cache_path cachedir z x y) = r at hhit
  obtain ⟨o, w1⟩ := r
  simp only at hhit
  subst hhit
  rfl

/-- C7: on a cache miss where `mkdir_recursive` fails or the cache file cannot be
opened for writing, `fetch_tile_transform` returns with `out` holding exactly what
`generate_translation_tile` derived for the key; when the open fails, nothing is
written and the call ends with the error message of the failed save. -/
theorem fetch_tile_transform_write_failure
    (generate_translation_tile : Int → Int → Int → projPJ → cl_float4 × cl_float4)
    (z x y : Int) (cachedir : CStr) (proj_meters : projPJ) (out : cl_float4 × cl_float4)
    (w : World)
    (hmiss : (fopen_r w (cache_path cachedir z x y)).1 = none)
    (hfail :
      (mkdir_recursive
        ((fopen_r w (cache_path cachedir z x y)).2.emit (Event.generate_translation_tile x y z))
        (cache_dirpath cachedir z x)).1 < 0 ∨
      (fopen_w (cache_write_world cachedir z x y w) (cache_path cachedir z x y)).1 = none) :
    (fetch_tile_transform generate_translation_tile z x y cachedir proj_meters out w).1 =
      generate_translation_tile x y z proj_meters ∧
    ((fopen_w (cache_write_world cachedir z x y w) (cache_path cachedir z x y)).1 = none →
      (fetch_tile_transform generate_translation_tile z x y cachedir proj_meters out w).2 =
        (fopen_w (cache_write_world cachedir z x y w) (cache_path cachedir z x y)).2.emit
          (Event.log_error "Failed to save tile transform cache file %s") ∧
      (fetch_tile_transform generate_translation_tile z x y cachedir proj_meters out w).2.fs =
        (cache_write_world cachedir z x y w).fs) := by
  have _ := hfail
  rw [fetch_tile_transform_miss _ _ _ _ _ _ _ _ hmiss]
  generalize hr : fopen_w (cache_write_world cachedir z x y w) (cache_path cachedir z x y) = r
  obtain ⟨o, w3⟩ := r
  cases o with
  | none =>
    refine ⟨rfl, fun _ => ⟨rfl, ?_⟩⟩
    have h := fopen_w_none_fs (cache_write_world cachedir z x y w) (cache_path cachedir z x y)
      (by rw [hr])
    rw [hr] at h
    exact h
  | some f =>
    refine ⟨rfl, fun h => ?_⟩
    simp at h

/-- C7 witness: the cache root `out` is a regular file, so both `mkdir_recursive`
and the open for writing fail. -/
theorem fetch_tile_transform_write_failure_witness :
    (fetch_tile_transform example_transform 12 5 7 "out".toList 0 (⟨0, 0, 0, 0⟩, ⟨0, 0, 0, 0⟩)
      ⟨home_fs_with_file_out, 0, [], []⟩).1 = example_transform 5 7 12 0 ∧
    ((fopen_w (cache_write_world "out".toList 12 5 7 ⟨home_fs_with_file_out, 0, [], []⟩)
        (cache_path "out".toList 12 5 7)).1 = none →
      (fetch_tile_transform example_transform 12 5 7 "out".toList 0 (⟨0, 0, 0, 0⟩, ⟨0, 0, 0, 0⟩)
        ⟨home_fs_with_file_out, 0, [], []⟩).2 =
        (fopen_w (cache_write_world "out".toList 12 5 7 ⟨home_fs_with_file_out, 0, [], []⟩)
          (cache_path "out".toList 12 5 7)).2.emit
          (Event.log_error "Failed to save tile transform cache file %s") ∧
      (fetch_tile_transform example_transform 12 5 7 "out".toList 0 (⟨0, 0, 0, 0⟩, ⟨0, 0, 0, 0⟩)
        ⟨home_fs_with_file_out, 0, [], []⟩).2.fs =
        (cache_write_world "out".toList 12 5 7 ⟨home_fs_with_file_out, 0, [], []⟩).fs) :=
  fetch_tile_transform_write_failure example_transform 12 5 7 "out".toList 0
    (⟨0, 0, 0, 0⟩, ⟨0, 0, 0, 0⟩) ⟨home_fs_with_file_out, 0, [], []⟩ (by decide)
    (Or.inl (by decide))

theorem fopen_w_write_read (w : World) (path : CStr) (e : Event) (bytes : List Nat)
    (fout : Nat) (w3 : World) (h : fopen_w w path = (some fout, w3)) (W : World)
    (hW : W.fs = (fwrite (w3.emit e) fout bytes).fs) :
    fopen_r W path = (some bytes, W) := by
  by_cases hp : path = []
  · simp [fopen_w, hp] at h
  · cases hn : w.fs.names (resolve w.fs.cwd path) with
    | none =>
      cases hpe : parent_errno w.fs (resolve w.fs.cwd path) with
      | none =>
        simp only [fopen_w, hp, hn, hpe, if_false, Prod.mk.injEq, Option.some.injEq] at h
        obtain ⟨h1, h2⟩ := h
        subst h1 h2
        simp only [fwrite, World.emit] at hW
        simp [fopen_r, hp, hW]
      | some e => simp [fopen_w, hp, hn, hpe] at h
    | some nd =>
      cases nd with
      | dir => simp [fopen_w, hp, hn] at h
      | file i =>
        simp only [fopen_w, hp, hn, if_false, Prod.mk.injEq, Option.some.injEq] at h
        obtain ⟨h1, h2⟩ := h
        subst h1 h2
        simp only [fwrite, World.emit] at hW
        simp [fopen_r, hp, hW, hn]

/-- C4: when a first call of `fetch_tile_transform` misses the cache and opens the
cache file for writing, a second call with the same key and cache root, in any
world with the file system the first call left, takes the cache-hit branch: it
reports the load as its only event, does not call `generate_translation_tile`,
leaves the file system alone and returns the same two vectors as the first call,
whatever its `out` array held before. -/
theorem fetch_tile_transform_round_trip
    (generate_translation_tile : Int → Int → Int → projPJ → cl_float4 × cl_float4)
    (z x y : Int) (cachedir : CStr) (proj_meters : projPJ)
    (out out2 : cl_float4 × cl_float4) (w w2 : World)
    (hmiss : (fopen_r w (cache_path cachedir z x y)).1 = none)
    (hwrote :
      (fopen_w (cache_write_world cachedir z x y w) (cache_path cachedir z x y)).1 ≠ none)
    (hfs : w2.fs =
      (fetch_tile_transform generate_translation_tile z x y cachedir proj_meters out w).2.fs) :
    (fetch_tile_transform generate_translation_tile z x y cachedir proj_meters out2 w2).1 =
      (fetch_tile_transform generate_translation_tile z x y cachedir proj_meters out w).1 ∧
    (fetch_tile_transform generate_translation_tile z x y cachedir proj_meters out2 w2).2 =
      w2.emit (Event.log_info "Loaded cache file %s") ∧
    (fetch_tile_transform generate_translation_tile z x y cachedir proj_meters out w).1 =
      generate_translation_tile x y z proj_meters := by
  rw [fetch_tile_transform_miss _ _ _ _ _ _ _ _ hmiss] at hfs ⊢
  generalize hr : fopen_w (cache_write_world cachedir z x y w) (cache_path cachedir z x y) = r
    at hwrote hfs
  obtain ⟨o, w3⟩ := r
  cases o with
  | none => simp at hwrote
  | some fout =>
    simp only at hfs ⊢
    have hread := fopen_w_write_read _ _ _ (bytes_of_out (generate_translation_tile x y z proj_meters))
      fout w3 hr w2 hfs
    unfold fetch_tile_transform
    simp only [hread, fread_out_bytes_of_out, and_self]

/-- C4 witness: in the world with an empty directory `out`, the key (12, 5, 7)
misses and is written. -/
theorem fetch_tile_transform_round_trip_witness :
    (fetch_tile_transform example_transform 12 5 7 "out".toList 0 (⟨9, 9, 9, 9⟩, ⟨9, 9, 9, 9⟩)
      (fetch_tile_transform example_transform 12 5 7 "out".toList 0
        (⟨0, 0, 0, 0⟩, ⟨0, 0, 0, 0⟩) ⟨home_fs_with_dir_out, 0, [], []⟩).2).1 =
      (fetch_tile_transform example_transform 12 5 7 "out".toList 0
        (⟨0, 0, 0, 0⟩, ⟨0, 0, 0, 0⟩) ⟨home_fs_with_dir_out, 0, [], []⟩).1 ∧
    (fetch_tile_transform example_transform 12 5 7 "out".toList 0 (⟨9, 9, 9, 9⟩, ⟨9, 9, 9, 9⟩)
      (fetch_tile_transform example_transform 12 5 7 "out".toList 0
        (⟨0, 0, 0, 0⟩, ⟨0, 0, 0, 0⟩) ⟨home_fs_with_dir_out, 0, [], []⟩).2).2 =
      (fetch_tile_transform example_transform 12 5 7 "out".toList 0
        (⟨0, 0, 0, 0⟩, ⟨0, 0, 0, 0⟩) ⟨home_fs_with_dir_out, 0, [], []⟩).2.emit
        (Event.log_info "Loaded cache file %s") ∧
    (fetch_tile_transform example_transform 12 5 7 "out".toList 0
        (⟨0, 0, 0, 0⟩, ⟨0, 0, 0, 0⟩) ⟨home_fs_with_dir_out, 0, [], []⟩).1 =
      example_transform 5 7 12 0 :=
  fetch_tile_transform_round_trip example_transform 12 5 7 "out".toList 0
    (⟨0, 0, 0, 0⟩, ⟨0, 0, 0, 0⟩) (⟨9, 9, 9, 9⟩, ⟨9, 9, 9, 9⟩) ⟨home_fs_with_dir_out, 0, [], []⟩
    _ (by decide) (by decide) rfl

/-! ### Traces of the file system layer -/

theorem dispatches_quiet : fs_quiet Event.is_dispatch := by
  refine ⟨?_, ?_, ?_, ?_, ?_⟩ <;> intros <;> simp [Event.is_dispatch]

theorem encodes_quiet : fs_quiet Event.is_encode := by
  refine ⟨?_, ?_, ?_, ?_, ?_⟩ <;> intros <;> rfl

theorem countP_emit (q : Event → Bool) (w : World) (e : Event) :
    (w.emit e).trace.countP q = w.trace.countP q + (if q e then 1 else 0) := by
  simp [World.emit, List.countP_append, List.countP_cons]

theorem countP_emit_quiet (q : Event → Bool) (w : World) (e : Event) (h : q e = false) :
    (w.emit e).trace.countP q = w.trace.countP q := by
  rw [countP_emit, h]; simp

theorem countP_fail (q : Event → Bool) (hq : fs_quiet q) (w : World) (c : Syscall) (p : CStr)
    (e : Nat) : (w.fail c p e).trace.countP q = w.trace.countP q := by
  simp [World.fail, List.countP_append, List.countP_cons, hq.1 c p e]

theorem countP_mkdir (q : Event → Bool) (hq : fs_quiet q) (w : World) (path : CStr) :
    (mkdir w path).2.trace.countP q = w.trace.countP q := by
  by_cases hp : path = []
  · simp [mkdir, hp, countP_fail q hq]
  · cases hn : w.fs.names (resolve w.fs.cwd path) with
    | none =>
      cases hpe : parent_errno w.fs (resolve w.fs.cwd path) with
      | none => simp [mkdir, hp, hn, hpe]
      | some e => simp [mkdir, hp, hn, hpe, countP_fail q hq]
    | some nd => simp [mkdir, hp, hn, countP_fail q hq]

theorem countP_fopen_r (q : Event → Bool) (hq : fs_quiet q) (w : World) (path : CStr) :
    (fopen_r w path).2.trace.countP q = w.trace.countP q := by
  by_cases hp : path = []
  · simp [fopen_r, hp, countP_fail q hq]
  · cases hn : w.fs.names (resolve w.fs.cwd path) with
    | none =>
      cases hpe : parent_errno w.fs (resolve w.fs.cwd path) with
      | none => simp [fopen_r, hp, hn, hpe, countP_fail q hq]
      | some e => simp [fopen_r, hp, hn, hpe, countP_fail q hq]
    | some nd => cases nd <;> simp [fopen_r, hp, hn]

theorem countP_fopen_w (q : Event → Bool) (hq : fs_quiet q) (w : World) (path : CStr) :
    (fopen_w w path).2.trace.countP q = w.trace.countP q := by
  by_cases hp : path = []
  · simp [fopen_w, hp, countP_fail q hq]
  · cases hn : w.fs.names (resolve w.fs.cwd path) with
    | none =>
      cases hpe : parent_errno w.fs (resolve w.fs.cwd path) with
      | none => simp [fopen_w, hp, hn, hpe]
      | some e => simp [fopen_w, hp, hn, hpe, countP_fail q hq]
    | some nd => cases nd <;> simp [fopen_w, hp, hn, countP_fail q hq]

theorem countP_link (q : Event → Bool) (hq : fs_quiet q) (w : World) (old new : CStr) :
    (link w old new).2.trace.countP q = w.trace.countP q := by
  by_cases hp : old = [] ∨ new = []
  · simp [link, hp, countP_fail q hq]
  · cases hn : w.fs.names (resolve w.fs.cwd old) with
    | none => simp [link, hp, hn, countP_fail q hq]
    | some nd =>
      cases nd with
      | dir => simp [link, hp, hn, countP_fail q hq]
      | file i =>
        cases hk : w.fs.names (resolve w.fs.cwd new) with
        | some _ => simp [link, hp, hn, hk, countP_fail q hq]
        | none =>
          cases hpe : parent_errno w.fs (resolve w.fs.cwd new) with
          | none => simp [link, hp, hn, hk, hpe]
          | some e => simp [link, hp, hn, hk, hpe, countP_fail q hq]

theorem countP_mkdir_recursive_loop (q : Event → Bool) (hq : fs_quiet q) :
    ∀ (toks : List CStr) (dir : CStr) (w : World),
      (mkdir_recursive_loop toks dir w).2.trace.countP q = w.trace.countP q := by
  intro toks
  induction toks with
  | nil => intro dir w; rfl
  | cons tok toks ih =>
    intro dir w
    simp only [mkdir_recursive_loop]
    split
    · rw [countP_emit_quiet q _ _ (hq.2.1 _), countP_mkdir q hq]
    · rw [ih, countP_mkdir q hq]

theorem countP_fetch_tile_transform (q : Event → Bool) (hq : fs_quiet q)
    (gen : Int → Int → Int → projPJ → cl_float4 × cl_float4)
    (z x y : Int) (cachedir : CStr) (proj_meters : projPJ) (out : cl_float4 × cl_float4)
    (w : World) :
    (fetch_tile_transform gen z x y cachedir proj_meters out w).2.trace.countP q =
      w.trace.countP q := by
  have h1 := countP_fopen_r q hq w (cache_path cachedir z x y)
  cases hr : (fopen_r w (cache_path cachedir z x y)).1 with
  | none =>
    rw [fetch_tile_transform_miss _ _ _ _ _ _ _ _ hr]
    have h2 : (cache_write_world cachedir z x y w).trace.countP q = w.trace.countP q := by
      unfold cache_write_world
      dsimp only
      split
      · rw [countP_emit_quiet q _ _ (hq.2.2.2.1 _)]
        unfold mkdir_recursive
        rw [countP_mkdir_recursive_loop q hq, countP_emit_quiet q _ _ (hq.2.2.2.2 _ _ _), h1]
      · unfold mkdir_recursive
        rw [countP_mkdir_recursive_loop q hq, countP_emit_quiet q _ _ (hq.2.2.2.2 _ _ _), h1]
    have h3 := countP_fopen_w q hq (cache_write_world cachedir z x y w) (cache_path cachedir z x y)
    generalize fopen_w (cache_write_world cachedir z x y w) (cache_path cachedir z x y) = r at h3
    obtain ⟨o, w3⟩ := r
    cases o with
    | none =>
      simp only at h3 ⊢
      rw [countP_emit_quiet q _ _ (hq.2.2.2.1 _), h3, h2]
    | some f =>
      simp only at h3 ⊢
      show (w3.emit _).trace.countP q = _
      rw [countP_emit_quiet q _ _ (hq.2.2.1 _), h3, h2]
  | some content =>
    rw [fetch_tile_transform_hit _ _ _ _ _ _ _ _ _ hr]
    show ((fopen_r w (cache_path cachedir z x y)).2.emit _).trace.countP q = _
    rw [countP_emit_quiet q _ _ (hq.2.2.1 _), h1]

/-! ### Status codes are untouched by the file system layer -/

theorem cl_status_mkdir (w : World) (path : CStr) :
    (mkdir w path).2.cl_status = w.cl_status := by
  by_cases hp : path = []
  · simp [mkdir, hp, World.fail]
  · cases hn : w.fs.names (resolve w.fs.cwd path) with
    | none =>
      cases hpe : parent_errno w.fs (resolve w.fs.cwd path) with
      | none => simp [mkdir, hp, hn, hpe]
      | some e => simp [mkdir, hp, hn, hpe, World.fail]
    | some nd => simp [mkdir, hp, hn, World.fail]

theorem cl_status_fopen_r (w : World) (path : CStr) :
    (fopen_r w path).2.cl_status = w.cl_status := by
  by_cases hp : path = []
  · simp [fopen_r, hp, World.fail]
  · cases hn : w.fs.names (resolve w.fs.cwd path) with
    | none =>
      cases hpe : parent_errno w.fs (resolve w.fs.cwd path) with
      | none => simp [fopen_r, hp, hn, hpe, World.fail]
      | some e => simp [fopen_r, hp, hn, hpe, World.fail]
    | some nd => cases nd <;> simp [fopen_r, hp, hn]

theorem cl_status_fopen_w (w : World) (path : CStr) :
    (fopen_w w path).2.cl_status = w.cl_status := by
  by_cases hp : path = []
  · simp [fopen_w, hp, World.fail]
  · cases hn : w.fs.names (resolve w.fs.cwd path) with
    | none =>
      cases hpe : parent_errno w.fs (resolve w.fs.cwd path) with
      | none => simp [fopen_w, hp, hn, hpe]
      | some e => simp [fopen_w, hp, hn, hpe, World.fail]
    | some nd => cases nd <;> simp [fopen_w, hp, hn, World.fail]

theorem cl_status_mkdir_recursive_loop :
    ∀ (toks : List CStr) (dir : CStr) (w : World),
      (mkdir_recursive_loop toks dir w).2.cl_status = w.cl_status := by
  intro toks
  induction toks with
  | nil => intro dir w; rfl
  | cons tok toks ih =>
    intro dir w
    simp only [mkdir_recursive_loop]
    split
    · simp [World.emit, cl_status_mkdir]
    · rw [ih, cl_status_mkdir]

theorem cl_status_fetch_tile_transform
    (gen : Int → Int → Int → projPJ → cl_float4 × cl_float4)
    (z x y : Int) (cachedir : CStr) (proj_meters : projPJ) (out : cl_float4 × cl_float4)
    (w : World) :
    (fetch_tile_transform gen z x y cachedir proj_meters out w).2.cl_status = w.cl_status := by
  have h1 := cl_status_fopen_r w (cache_path cachedir z x y)
  cases hr : (fopen_r w (cache_path cachedir z x y)).1 with
  | none =>
    rw [fetch_tile_transform_miss _ _ _ _ _ _ _ _ hr]
    have h2 : (cache_write_world cachedir z x y w).cl_status = w.cl_status := by
      unfold cache_write_world
      dsimp only
      split
      · show (mkdir_recursive _ _).2.cl_status = _
        unfold mkdir_recursive
        rw [cl_status_mkdir_recursive_loop]
        exact h1
      · unfold mkdir_recursive
        rw [cl_status_mkdir_recursive_loop]
        exact h1
    have h3 := cl_status_fopen_w (cache_write_world cachedir z x y w) (cache_path cachedir z x y)
    generalize fopen_w (cache_write_world cachedir z x y w) (cache_path cachedir z x y) = r at h3
    obtain ⟨o, w3⟩ := r
    cases o with
    | none => simp only at h3 ⊢; show w3.cl_status = _; rw [h3, h2]
    | some f => simp only at h3 ⊢; show w3.cl_status = _; rw [h3, h2]
  | some content =>
    rw [fetch_tile_transform_hit _ _ _ _ _ _ _ _ _ hr]
    exact h1

/-! ### OpenCL calls -/

theorem cl_call_eq (w : World) (e : Event) :
    cl_call w e = (w.cl_status.getD 0 CL_SUCCESS, w.after_cl e) := by
  unfold cl_call World.after_cl
  cases h : w.cl_status with
  | nil => simp [World.emit, h]
  | cons s rest => simp

theorem set_args_and_enqueue_eq (w : World) :
    set_args_and_enqueue w = checked_calls checked_events w := by
  unfold set_args_and_enqueue checked_events
  simp only [checked_calls, bind, Except.bind]
  repeat' split
  all_goals first | rfl | simp_all

theorem checked_calls_ok :
    ∀ (es : List Event) (w : World),
      (∀ i, i < es.length → w.cl_status.getD i CL_SUCCESS = CL_SUCCESS) →
      checked_calls es w =
        Except.ok ⟨w.fs, w.errno, w.trace ++ es, w.cl_status.drop es.length⟩ := by
  intro es
  induction es with
  | nil => intro w _; simp [checked_calls]
  | cons e es ih =>
    intro w h
    have h0 := h 0 (by simp)
    simp only [checked_calls, cl_call_eq, OCLCHECK, h0, ne_eq, not_true_eq_false, if_false]
    rw [ih]
    · simp [World.after_cl, World.emit]
    · intro i hi
      have := h (i + 1) (by simp; omega)
      simpa [World.after_cl, World.emit, List.getD_eq_getElem?_getD] using this

theorem checked_calls_error :
    ∀ (es : List Event) (w : World),
      ¬ (∀ i, i < es.length → w.cl_status.getD i CL_SUCCESS = CL_SUCCESS) →
      ∃ w2 k, checked_calls es w = Except.error w2 ∧ w2.fs = w.fs ∧
        w2.trace = w.trace ++ es.take k ++
          [Event.log_error "OCL Error!", Event.exit EXIT_FAILURE] := by
  intro es
  induction es with
  | nil => intro w h; exact absurd (fun i hi => absurd hi (by simp)) h
  | cons e es ih =>
    intro w h
    by_cases h0 : w.cl_status.getD 0 CL_SUCCESS = CL_SUCCESS
    · have h2 : ¬ (∀ i, i < es.length →
          (w.after_cl e).cl_status.getD i CL_SUCCESS = CL_SUCCESS) := by
        intro hall
        apply h
        intro i hi
        cases i with
        | zero => exact h0
        | succ i =>
          have := hall i (by simpa using hi)
          simpa [World.after_cl, World.emit, List.getD_eq_getElem?_getD] using this
      obtain ⟨w2, k, he, hfs, htr⟩ := ih (w.after_cl e) h2
      refine ⟨w2, k + 1, ?_, ?_, ?_⟩
      · simp only [checked_calls, cl_call_eq, OCLCHECK, h0, ne_eq, not_true_eq_false, if_false]
        exact he
      · rw [hfs]; rfl
      · rw [htr]; simp [World.after_cl, World.emit]
    · refine ⟨((w.after_cl e).emit (Event.log_error "OCL Error!")).emit (Event.exit EXIT_FAILURE),
        1, ?_, ?_, ?_⟩
      · simp only [checked_calls, cl_call_eq, OCLCHECK, ne_eq, h0, not_false_eq_true, if_true]
      · rfl
      · simp [World.after_cl, World.emit]

/-! ### The two branches of the loop body -/

theorem process_tile_empty (E : Env) (args : arguments) (datalen : Nat)
    (datapts : List cl_float2) (datavals : List cl_float) (tx ty : Nat) (h : Host)
    (cp : List cl_float2) (cv : List cl_float)
    (hsel : select_points (E.rect_is_inside (tile_footprint E args tx ty)) datalen datapts
      datavals h.chosenpts h.chosenvals = some (0, cp, cv)) :
    process_tile E args datalen datapts datavals tx ty h =
      Outcome.running
        { world := (link (link_world E args tx ty h) (blankfilepath args.outdir)
            (tile_path args.outdir args.zoomlevel tx ty)).2.emit
            (Event.log_info " linked %s to %s")
          tr := (tile_fetch E args tx ty h).1
          chosenpts := cp
          chosenvals := cv
          tile := List.replicate (E.TILE_SIZE * E.TILE_SIZE) 0
          pts_cl := h.pts_cl
          vals_cl := h.vals_cl
          tile_cl := h.tile_cl } := by
  unfold process_tile link_world tile_fetch
  simp only [hsel]
  rfl

theorem process_tile_nonempty (E : Env) (args : arguments) (datalen : Nat)
    (datapts : List cl_float2) (datavals : List cl_float) (tx ty : Nat) (h : Host)
    (npts : Nat) (cp : List cl_float2) (cv : List cl_float)
    (hsel : select_points (E.rect_is_inside (tile_footprint E args tx ty)) datalen datapts
      datavals h.chosenpts h.chosenvals = some (npts, cp, cv)) (hn : npts ≠ 0) :
    process_tile E args datalen datapts datavals tx ty h =
      match checked_calls checked_events (upload_world E args tx ty h) with
      | Except.error w =>
        Outcome.exited
          { world := w
            tr := (tile_fetch E args tx ty h).1
            chosenpts := cp
            chosenvals := cv
            tile := List.replicate (E.TILE_SIZE * E.TILE_SIZE) 0
            pts_cl := h.pts_after npts cp
            vals_cl := h.vals_after npts cv
            tile_cl := h.tile_cl }
      | Except.ok w =>
        match write_png E.png_encode E.COLORMAP_LEN
            ((w.after_cl Event.clFinish).after_cl Event.clEnqueueReadImage)
            (tile_path args.outdir args.zoomlevel tx ty) E.TILE_SIZE E.TILE_SIZE
            (read_tile E (w.cl_status.getD 1 CL_SUCCESS)
              (h.image_after E (tile_fetch E args tx ty h).1 npts cp cv)) args.colormap with
        | none => Outcome.undefined
        | some w2 =>
          Outcome.running
            { world := w2.emit (Event.log_info " wrote %s")
              tr := (tile_fetch E args tx ty h).1
              chosenpts := cp
              chosenvals := cv
              tile := read_tile E (w.cl_status.getD 1 CL_SUCCESS)
                (h.image_after E (tile_fetch E args tx ty h).1 npts cp cv)
              pts_cl := h.pts_after npts cp
              vals_cl := h.vals_after npts cv
              tile_cl := h.image_after E (tile_fetch E args tx ty h).1 npts cp cv } := by
  have hst : (tile_fetch E args tx ty h).2.cl_status = h.world.cl_status := by
    unfold tile_fetch
    rw [cl_status_fetch_tile_transform]
    rfl
  have h1 : ∀ (w : World), (w.after_cl Event.clFinish).cl_status.getD 0 CL_SUCCESS =
      w.cl_status.getD 1 CL_SUCCESS := by
    intro w
    simp [World.after_cl, World.emit, List.getD_eq_getElem?_getD]
  have h2 : (((tile_fetch E args tx ty h).2.emit (Event.log_info " generating from %d...")).after_cl
      Event.clEnqueueWriteBuffer).cl_status.getD 0 CL_SUCCESS =
      h.world.cl_status.getD 1 CL_SUCCESS := by
    rw [← hst]
    simp [World.after_cl, World.emit, List.getD_eq_getElem?_getD]
  have h3 : ((tile_fetch E args tx ty h).2.emit (Event.log_info " generating from %d...")).cl_status.getD
      0 CL_SUCCESS = h.world.cl_status.getD 0 CL_SUCCESS := by
    rw [← hst]
    rfl
  unfold process_tile
  simp only [hsel, hn, ne_eq, not_false_eq_true, if_true, cl_call_eq, set_args_and_enqueue_eq]
  unfold Host.image_after Host.pts_after Host.vals_after kernel_image read_tile uploaded_pts
    uploaded_vals upload_world tile_fetch
  unfold tile_fetch at h2 h3
  simp only [h1, h2, h3]

/-! ### write_png on a square raster -/

theorem fit_length (n : Nat) (l : List Nat) : (fit n l).length = n := by
  simp [fit]

theorem read_tile_length (E : Env) (s3 : Int) (image : List Nat)
    (h : image.length = E.TILE_SIZE * E.TILE_SIZE) :
    (read_tile E s3 image).length = E.TILE_SIZE * E.TILE_SIZE := by
  unfold read_tile
  split
  · exact h
  · simp

theorem write_png_image_square (n T : Nat) (img : List Nat) (colormap : List rgba_t)
    (hcm : colormap.length = n) (himg : img.length = T * T) :
    ∃ im, write_png_image n T T img colormap = some im := by
  obtain ⟨cs, ts, he, -⟩ := palette_loop_spec colormap n 0
    (List.replicate n (⟨0, 0, 0⟩ : png_color))
    (List.replicate (n * sizeof_png_color) 0)
    (by omega) (by simp) (by simp [sizeof_png_color]; omega)
  have hrows := rows_loop_square img T T 0 (by simp [himg])
  simp only [write_png_image, write_png_palette, he, write_png_rows, hrows]
  exact ⟨_, rfl⟩

theorem write_png_square (q : Event → Bool) (hq : fs_quiet q) (enc : PngImage → List Nat)
    (n T : Nat) (w : World) (fname : CStr) (img : List Nat) (colormap : List rgba_t)
    (hcm : colormap.length = n) (himg : img.length = T * T) :
    ∃ w2, write_png enc n w fname T T img colormap = some w2 ∧
      w2.trace.countP q = w.trace.countP q + (if q (Event.write_png fname) then 1 else 0) := by
  obtain ⟨im, him⟩ := write_png_image_square n T img colormap hcm himg
  have h3 := countP_fopen_w q hq (w.emit (Event.write_png fname)) fname
  unfold write_png
  dsimp only
  generalize fopen_w (w.emit (Event.write_png fname)) fname = r at h3
  obtain ⟨o, w3⟩ := r
  cases o with
  | none =>
    refine ⟨_, rfl, ?_⟩
    simp only at h3
    rw [countP_emit_quiet q _ _ (hq.2.1 _), h3, countP_emit]
  | some f =>
    simp only [him]
    refine ⟨_, rfl, ?_⟩
    simp only at h3
    show w3.trace.countP q = _
    rw [h3, countP_emit]

/-! ### C1: dispatches and encodes of one tile -/

theorem countP_after_cl (q : Event → Bool) (w : World) (e : Event) :
    (w.after_cl e).trace.countP q = w.trace.countP q + (if q e then 1 else 0) := by
  simp [World.after_cl, World.emit, List.countP_append, List.countP_cons]

theorem tile_fetch_cl_status (E : Env) (args : arguments) (tx ty : Nat) (h : Host) :
    (tile_fetch E args tx ty h).2.cl_status = h.world.cl_status := by
  unfold tile_fetch
  rw [cl_status_fetch_tile_transform]
  rfl

theorem tile_fetch_countP (q : Event → Bool) (hq : fs_quiet q) (E : Env) (args : arguments)
    (tx ty : Nat) (h : Host) :
    (tile_fetch E args tx ty h).2.trace.countP q = h.world.trace.countP q := by
  unfold tile_fetch
  rw [countP_fetch_tile_transform q hq, countP_emit_quiet q _ _ (hq.2.2.1 _)]

theorem upload_world_cl_status (E : Env) (args : arguments) (tx ty : Nat) (h : Host) :
    (upload_world E args tx ty h).cl_status = h.world.cl_status.drop 2 := by
  simp [upload_world, World.after_cl, World.emit, tile_fetch_cl_status]

theorem upload_world_countP (q : Event → Bool) (hq : fs_quiet q)
    (hw : q Event.clEnqueueWriteBuffer = false) (E : Env) (args : arguments) (tx ty : Nat)
    (h : Host) :
    (upload_world E args tx ty h).trace.countP q = h.world.trace.countP q := by
  unfold upload_world
  rw [countP_after_cl, countP_after_cl, countP_emit_quiet q _ _ (hq.2.2.1 _),
    tile_fetch_countP q hq, hw]
  simp

theorem checked_calls_succeed_iff (status : List Int) :
    checked_calls_succeed status = true ↔
      ∀ i, i < checked_events.length → (status.drop 2).getD i CL_SUCCESS = CL_SUCCESS := by
  simp [checked_calls_succeed, checked_events, List.all_eq_true]

/-- C1 (as amended): for a tile of the loop, with the arrays of `main` at their
allocated lengths, the body ends normally or in `exit`. When no point passes the
filter it ends normally with no `clEnqueueNDRangeKernel` and no `write_png` call.
When at least one point passes and the seven calls under `OCLCHECK` succeed, it
ends normally with exactly one call of each. When one of those calls fails, the
process exits inside the tile, with no `write_png` call and at most one dispatch. -/
theorem process_tile_dispatch_encode_counts (E : Env) (args : arguments) (datalen : Nat)
    (datapts : List cl_float2) (datavals : List cl_float) (tx ty : Nat) (h : Host)
    (hpts : datapts.length = datalen) (hvals : datavals.length = datalen)
    (hcp : h.chosenpts.length = datalen) (hcv : h.chosenvals.length = datalen)
    (h32 : datalen < 4294967296) (hcm : args.colormap.length = E.COLORMAP_LEN) :
    ∃ w2, (process_tile E args datalen datapts datavals tx ty h).world = some w2 ∧
      (datapts.countP (E.rect_is_inside (tile_footprint E args tx ty)) = 0 →
        (process_tile E args datalen datapts datavals tx ty h).is_running = true ∧
        dispatches w2.trace = dispatches h.world.trace ∧
        encodes w2.trace = encodes h.world.trace) ∧
      (1 ≤ datapts.countP (E.rect_is_inside (tile_footprint E args tx ty)) →
        checked_calls_succeed h.world.cl_status = true →
        (process_tile E args datalen datapts datavals tx ty h).is_running = true ∧
        dispatches w2.trace = dispatches h.world.trace + 1 ∧
        encodes w2.trace = encodes h.world.trace + 1) ∧
      (1 ≤ datapts.countP (E.rect_is_inside (tile_footprint E args tx ty)) →
        checked_calls_succeed h.world.cl_status = false →
        (process_tile E args datalen datapts datavals tx ty h).is_exited = true ∧
        dispatches w2.trace ≤ dispatches h.world.trace + 1 ∧
        encodes w2.trace = encodes h.world.trace) := by
  obtain ⟨cp, cv, hsel, -, -⟩ :=
    select_points_count (E.rect_is_inside (tile_footprint E args tx ty)) datalen datapts datavals
      h.chosenpts h.chosenvals hpts hvals hcp hcv h32
  generalize datapts.countP (E.rect_is_inside (tile_footprint E args tx ty)) = npts at hsel ⊢
  by_cases hz : npts = 0
  · subst hz
    rw [process_tile_empty E args datalen datapts datavals tx ty h cp cv hsel]
    refine ⟨_, rfl, fun _ => ⟨rfl, ?_, ?_⟩, fun h1 => absurd h1 (by omega),
      fun h1 => absurd h1 (by omega)⟩
    · simp only [dispatches]
      rw [countP_emit_quiet _ _ _ (dispatches_quiet.2.2.1 _), countP_link _ dispatches_quiet]
      unfold link_world
      rw [countP_emit_quiet _ _ _ (dispatches_quiet.2.2.1 _),
        tile_fetch_countP _ dispatches_quiet]
    · simp only [encodes]
      rw [countP_emit_quiet _ _ _ (encodes_quiet.2.2.1 _), countP_link _ encodes_quiet]
      unfold link_world
      rw [countP_emit_quiet _ _ _ (encodes_quiet.2.2.1 _),
        tile_fetch_countP _ encodes_quiet]
  · rw [process_tile_nonempty E args datalen datapts datavals tx ty h npts cp cv hsel hz]
    have hst := upload_world_cl_status E args tx ty h
    have hd := upload_world_countP _ dispatches_quiet (by decide) E args tx ty h
    have he := upload_world_countP _ encodes_quiet (by rfl) E args tx ty h
    by_cases hok : checked_calls_succeed h.world.cl_status = true
    · have hall := (checked_calls_succeed_iff _).1 hok
      rw [← hst] at hall
      rw [checked_calls_ok checked_events _ hall]
      simp only
      have hlen := read_tile_length E
        (((upload_world E args tx ty h).cl_status.drop checked_events.length).getD 1 CL_SUCCESS)
        (h.image_after E (tile_fetch E args tx ty h).1 npts cp cv) (fit_length _ _)
      obtain ⟨w3, hw3, hdc⟩ := write_png_square _ dispatches_quiet E.png_encode E.COLORMAP_LEN
        E.TILE_SIZE _ (tile_path args.outdir args.zoomlevel tx ty) _ args.colormap hcm hlen
      obtain ⟨w4, hw4, hec⟩ := write_png_square _ encodes_quiet E.png_encode E.COLORMAP_LEN
        E.TILE_SIZE _ (tile_path args.outdir args.zoomlevel tx ty) _ args.colormap hcm hlen
      rw [hw3] at hw4
      cases hw4
      rw [hw3]
      refine ⟨_, rfl, fun h1 => absurd h1 hz, fun _ _ => ⟨rfl, ?_, ?_⟩,
        fun _ h2 => absurd hok (by rw [h2]; simp)⟩
      · simp only [dispatches] at hd hdc ⊢
        rw [countP_emit_quiet _ _ _ (dispatches_quiet.2.2.1 _), hdc, countP_after_cl,
          countP_after_cl, List.countP_append, hd]
        simp [checked_events, List.countP_cons, Event.is_dispatch]
      · simp only [encodes] at he hec ⊢
        rw [countP_emit_quiet _ _ _ (encodes_quiet.2.2.1 _), hec, countP_after_cl,
          countP_after_cl, List.countP_append, he]
        simp [checked_events, List.countP_cons, Event.is_encode]
    · have hnall : ¬ (∀ i, i < checked_events.length →
          (upload_world E args tx ty h).cl_status.getD i CL_SUCCESS = CL_SUCCESS) := by
        rw [hst]
        exact fun hall => hok ((checked_calls_succeed_iff _).2 hall)
      obtain ⟨w2, k, hcc, -, htr⟩ := checked_calls_error checked_events _ hnall
      rw [hcc]
      refine ⟨w2, rfl, fun h1 => absurd h1 hz, fun _ h2 => absurd h2 hok,
        fun _ _ => ⟨rfl, ?_, ?_⟩⟩
      · simp only [dispatches] at hd ⊢
        rw [htr, List.countP_append, List.countP_append, hd]
        have : (checked_events.take k).countP Event.is_dispatch ≤ 1 := by
          calc _ ≤ checked_events.countP Event.is_dispatch :=
                List.Sublist.countP_le _ (List.take_sublist k checked_events)
            _ = 1 := by decide
        simp [List.countP_cons, Event.is_dispatch]
        omega
      · simp only [encodes] at he ⊢
        rw [htr, List.countP_append, List.countP_append, he]
        have : (checked_events.take k).countP Event.is_encode = 0 := by
          apply Nat.le_zero.1
          calc _ ≤ checked_events.countP Event.is_encode :=
                List.Sublist.countP_le _ (List.take_sublist k checked_events)
            _ = 0 := by decide
        rw [this]
        simp [List.countP_cons, Event.is_encode]

/-- C1 witness: the tile (0, 0) of the example with one point in it, every OpenCL
call succeeding. -/
theorem process_tile_dispatch_encode_counts_witness :
    ∃ w2, (process_tile example_env example_args 1 [⟨0, 0⟩] [7] 0 0
        (example_host home_fs_with_dir_out 1 [])).world = some w2 ∧
      (([⟨0, 0⟩] : List cl_float2).countP
          (example_env.rect_is_inside (tile_footprint example_env example_args 0 0)) = 0 →
        (process_tile example_env example_args 1 [⟨0, 0⟩] [7] 0 0
          (example_host home_fs_with_dir_out 1 [])).is_running = true ∧
        dispatches w2.trace = dispatches (example_host home_fs_with_dir_out 1 []).world.trace ∧
        encodes w2.trace = encodes (example_host home_fs_with_dir_out 1 []).world.trace) ∧
      (1 ≤ ([⟨0, 0⟩] : List cl_float2).countP
          (example_env.rect_is_inside (tile_footprint example_env example_args 0 0)) →
        checked_calls_succeed (example_host home_fs_with_dir_out 1 []).world.cl_status = true →
        (process_tile example_env example_args 1 [⟨0, 0⟩] [7] 0 0
          (example_host home_fs_with_dir_out 1 [])).is_running = true ∧
        dispatches w2.trace =
          dispatches (example_host home_fs_with_dir_out 1 []).world.trace + 1 ∧
        encodes w2.trace = encodes (example_host home_fs_with_dir_out 1 []).world.trace + 1) ∧
      (1 ≤ ([⟨0, 0⟩] : List cl_float2).countP
          (example_env.rect_is_inside (tile_footprint example_env example_args 0 0)) →
        checked_calls_succeed (example_host home_fs_with_dir_out 1 []).world.cl_status = false →
        (process_tile example_env example_args 1 [⟨0, 0⟩] [7] 0 0
          (example_host home_fs_with_dir_out 1 [])).is_exited = true ∧
        dispatches w2.trace ≤
          dispatches (example_host home_fs_with_dir_out 1 []).world.trace + 1 ∧
        encodes w2.trace = encodes (example_host home_fs_with_dir_out 1 []).world.trace) :=
  process_tile_dispatch_encode_counts example_env example_args 1 [⟨0, 0⟩] [7] 0 0
    (example_host home_fs_with_dir_out 1 []) (by decide) (by decide) (by decide) (by decide)
    (by decide) (by decide)

/-- C1, as stated, fails: in the tile (0, 0) of the example one point passes the
filter, the first `clSetKernelArg` returns an error (status codes 0, 0, -49), and
the process exits in the tile with no kernel dispatch and no `write_png` call. -/
theorem process_tile_exits_before_dispatch :
    ([⟨0, 0⟩] : List cl_float2).countP
      (example_env.rect_is_inside (tile_footprint example_env example_args 0 0)) = 1 ∧
    (process_tile example_env example_args 1 [⟨0, 0⟩] [7] 0 0
      (example_host home_fs_with_dir_out 1 [0, 0, -49])).is_exited = true ∧
    (∃ w2, (process_tile example_env example_args 1 [⟨0, 0⟩] [7] 0 0
        (example_host home_fs_with_dir_out 1 [0, 0, -49])).world = some w2 ∧
      dispatches w2.trace = 0 ∧ encodes w2.trace = 0) := by
  refine ⟨by decide, by decide, ?_⟩
  exact ⟨_, rfl, by decide, by decide⟩

/-! ### The file system as an algebra of updates -/

theorem process_tile_nonempty_ok (E : Env) (args : arguments) (datalen : Nat)
    (datapts : List cl_float2) (datavals : List cl_float) (tx ty : Nat) (h : Host)
    (npts : Nat) (cp : List cl_float2) (cv : List cl_float)
    (hsel : select_points (E.rect_is_inside (tile_footprint E args tx ty)) datalen datapts
      datavals h.chosenpts h.chosenvals = some (npts, cp, cv)) (hn : npts ≠ 0)
    (hok : checked_calls_succeed h.world.cl_status = true) :
    process_tile E args datalen datapts datavals tx ty h =
      match write_png E.png_encode E.COLORMAP_LEN (encode_world E args tx ty h)
          (tile_path args.outdir args.zoomlevel tx ty) E.TILE_SIZE E.TILE_SIZE
          (read_tile E (h.world.cl_status.getD 10 CL_SUCCESS)
            (h.image_after E (tile_fetch E args tx ty h).1 npts cp cv)) args.colormap with
      | none => Outcome.undefined
      | some w2 =>
        Outcome.running
          { world := w2.emit (Event.log_info " wrote %s")
            tr := (tile_fetch E args tx ty h).1
            chosenpts := cp
            chosenvals := cv
            tile := read_tile E (h.world.cl_status.getD 10 CL_SUCCESS)
              (h.image_after E (tile_fetch E args tx ty h).1 npts cp cv)
            pts_cl := h.pts_after npts cp
            vals_cl := h.vals_after npts cv
            tile_cl := h.image_after E (tile_fetch E args tx ty h).1 npts cp cv } := by
  rw [process_tile_nonempty E args datalen datapts datavals tx ty h npts cp cv hsel hn]
  have hst := upload_world_cl_status E args tx ty h
  have hall := (checked_calls_succeed_iff _).1 hok
  rw [← hst] at hall
  rw [checked_calls_ok checked_events _ hall]
  have h10 : ((upload_world E args tx ty h).cl_status.drop checked_events.length).getD 1
      CL_SUCCESS = h.world.cl_status.getD 10 CL_SUCCESS := by
    rw [hst]
    simp [checked_events, List.getD_eq_getElem?_getD]
  have hw : (World.after_cl (World.after_cl
      ⟨(upload_world E args tx ty h).fs, (upload_world E args tx ty h).errno,
        (upload_world E args tx ty h).trace ++ checked_events,
        (upload_world E args tx ty h).cl_status.drop checked_events.length⟩ Event.clFinish)
      Event.clEnqueueReadImage) = encode_world E args tx ty h := by
    unfold encode_world
    simp only [World.after_cl, World.emit, hst, List.drop_drop, List.append_assoc]
    simp [checked_events, upload_world, World.after_cl, World.emit]
  simp only [h10, hw]

theorem process_tile_nonempty_not_ok (E : Env) (args : arguments) (datalen : Nat)
    (datapts : List cl_float2) (datavals : List cl_float) (tx ty : Nat) (h : Host)
    (npts : Nat) (cp : List cl_float2) (cv : List cl_float)
    (hsel : select_points (E.rect_is_inside (tile_footprint E args tx ty)) datalen datapts
      datavals h.chosenpts h.chosenvals = some (npts, cp, cv)) (hn : npts ≠ 0)
    (hok : checked_calls_succeed h.world.cl_status = false) :
    (process_tile E args datalen datapts datavals tx ty h).is_running = false := by
  rw [process_tile_nonempty E args datalen datapts datavals tx ty h npts cp cv hsel hn]
  have hst := upload_world_cl_status E args tx ty h
  have hnall : ¬ (∀ i, i < checked_events.length →
      (upload_world E args tx ty h).cl_status.getD i CL_SUCCESS = CL_SUCCESS) := by
    rw [hst]
    intro hall
    rw [(checked_calls_succeed_iff _).2 hall] at hok
    exact absurd hok (by simp)
  obtain ⟨w2, k, hcc, -, -⟩ := checked_calls_error checked_events _ hnall
  rw [hcc]
  rfl

/-! ### C3: tiles without points -/

theorem snprintf_ne_nil (l : CStr) (h : l ≠ []) : snprintf PATH_MAX l ≠ [] := by
  cases l with
  | nil => exact absurd rfl h
  | cons c cs => simp [snprintf, PATH_MAX]

theorem blankfilepath_ne_nil (outdir : CStr) : blankfilepath outdir ≠ [] := by
  unfold blankfilepath
  apply snprintf_ne_nil
  simp

theorem tile_path_ne_nil (outdir : CStr) (z : Int) (tx ty : Nat) :
    tile_path outdir z tx ty ≠ [] := by
  unfold tile_path
  apply snprintf_ne_nil
  simp

/-- C3, as stated, fails: the tile (0, 0) has no point, its output path holds a
file of an earlier run, and after the run the path still holds that file, which
is neither the same file as `blank.png` nor of the same content. -/
theorem render_keeps_stale_tile :
    ∃ h, render example_env example_args 0 [] [] [(0, 0)]
        (example_host home_fs_with_stale_tile 0 []) = Outcome.running h ∧
      ([] : List cl_float2).countP
        (example_env.rect_is_inside (tile_footprint example_env example_args 0 0)) = 0 ∧
      h.world.fs.content (tile_path example_args.outdir example_args.zoomlevel 0 0) =
        some [1, 2, 3] ∧
      h.world.fs.content (blankfilepath example_args.outdir) = some [137, 80, 78, 71] ∧
      h.world.fs.names (resolve h.world.fs.cwd
          (tile_path example_args.outdir example_args.zoomlevel 0 0)) ≠
        h.world.fs.names (resolve h.world.fs.cwd (blankfilepath example_args.outdir)) := by
  refine ⟨_, rfl, by decide, by decide, by decide, by decide⟩

/-- C3 (as amended): a tile without points ends the loop body normally, and
(1) if, when `link` is called, `blank.png` is a regular file, nothing exists at
the tile's output path and the directory of that path exists, then afterwards the
output path names the same file (inode) as `blank.png`, so both have the same
content; (2) if something exists at the output path when `link` is called, the
file system is left as it was. -/
theorem process_tile_empty_links_blank (E : Env) (args : arguments) (datalen : Nat)
    (datapts : List cl_float2) (datavals : List cl_float) (tx ty : Nat) (h : Host)
    (hpts : datapts.length = datalen) (hvals : datavals.length = datalen)
    (hcp : h.chosenpts.length = datalen) (hcv : h.chosenvals.length = datalen)
    (h32 : datalen < 4294967296)
    (hzero : datapts.countP (E.rect_is_inside (tile_footprint E args tx ty)) = 0) :
    ∃ h2, process_tile E args datalen datapts datavals tx ty h = Outcome.running h2 ∧
      (∀ ino,
        (link_world E args tx ty h).fs.names
          (resolve (link_world E args tx ty h).fs.cwd (blankfilepath args.outdir)) =
            some (Node.file ino) →
        (link_world E args tx ty h).fs.names
          (resolve (link_world E args tx ty h).fs.cwd
            (tile_path args.outdir args.zoomlevel tx ty)) = none →
        (link_world E args tx ty h).fs.names
          (resolve (link_world E args tx ty h).fs.cwd
            (tile_path args.outdir args.zoomlevel tx ty)).dropLast = some Node.dir →
        h2.world.fs.names (resolve h2.world.fs.cwd (tile_path args.outdir args.zoomlevel tx ty)) =
          some (Node.file ino) ∧
        h2.world.fs.names (resolve h2.world.fs.cwd (blankfilepath args.outdir)) =
          some (Node.file ino) ∧
        h2.world.fs.content (tile_path args.outdir args.zoomlevel tx ty) =
          h2.world.fs.content (blankfilepath args.outdir) ∧
        h2.world.fs.content (blankfilepath args.outdir) =
          (link_world E args tx ty h).fs.content (blankfilepath args.outdir)) ∧
      ((link_world E args tx ty h).fs.names
          (resolve (link_world E args tx ty h).fs.cwd
            (tile_path args.outdir args.zoomlevel tx ty)) ≠ none →
        h2.world.fs = (link_world E args tx ty h).fs) := by
  obtain ⟨cp, cv, hsel, -, -⟩ :=
    select_points_count (E.rect_is_inside (tile_footprint E args tx ty)) datalen datapts datavals
      h.chosenpts h.chosenvals hpts hvals hcp hcv h32
  rw [hzero] at hsel
  rw [process_tile_empty E args datalen datapts datavals tx ty h cp cv hsel]
  refine ⟨_, rfl, ?_, ?_⟩
  · intro ino hb hn hd
    have hpe : parent_errno (link_world E args tx ty h).fs
        (resolve (link_world E args tx ty h).fs.cwd
          (tile_path args.outdir args.zoomlevel tx ty)) = none := by
      simp [parent_errno, hd]
    have hne : resolve (link_world E args tx ty h).fs.cwd (blankfilepath args.outdir) ≠
        resolve (link_world E args tx ty h).fs.cwd
          (tile_path args.outdir args.zoomlevel tx ty) := by
      intro heq
      rw [heq, hn] at hb
      exact absurd hb (by simp)
    simp [link, blankfilepath_ne_nil, tile_path_ne_nil, hb, hn, hpe, World.emit, FS.content, hne]
  · intro hex
    cases hn : (link_world E args tx ty h).fs.names
        (resolve (link_world E args tx ty h).fs.cwd
          (tile_path args.outdir args.zoomlevel tx ty)) with
    | none => exact absurd hn hex
    | some nd =>
      cases hb : (link_world E args tx ty h).fs.names
          (resolve (link_world E args tx ty h).fs.cwd (blankfilepath args.outdir)) with
      | none => simp [link, blankfilepath_ne_nil, tile_path_ne_nil, hb, World.emit, World.fail]
      | some b =>
        cases b <;>
          simp [link, blankfilepath_ne_nil, tile_path_ne_nil, hb, hn, World.emit, World.fail]

/-- C3 witness: the tile (0, 0) without points, in a file system with
`out/blank.png` and the directory `out/1/0`: afterwards `out/1/0/0.png` is the
file `blank.png`. -/
theorem process_tile_empty_links_blank_witness :
    ∃ h2, process_tile example_env example_args 0 [] [] 0 0
        (example_host home_fs_with_blank 0 []) = Outcome.running h2 ∧
      h2.world.fs.names (resolve h2.world.fs.cwd
        (tile_path example_args.outdir example_args.zoomlevel 0 0)) = some (Node.file 0) ∧
      h2.world.fs.content (tile_path example_args.outdir example_args.zoomlevel 0 0) =
        h2.world.fs.content (blankfilepath example_args.outdir) := by
  obtain ⟨h2, he, h1, -⟩ := process_tile_empty_links_blank example_env example_args 0 [] [] 0 0
    (example_host home_fs_with_blank 0 []) (by decide) (by decide) (by decide) (by decide)
    (by decide) (by decide)
  obtain ⟨a, -, c, -⟩ := h1 0 (by decide) (by decide) (by decide)
  exact ⟨h2, he, a, c⟩

/-! ### C6: the tile range -/

theorem count_up_spec (bound : ℚ) (hb : bound < (UINT_MAX : ℚ)) :
    ∀ (fuel t : Nat), 0 < fuel → ⌊bound⌋ + 1 < (t : Int) + fuel →
      ∃ l, count_up bound fuel t = some l ∧ ∀ u, u ∈ l ↔ t ≤ u ∧ (u : ℚ) ≤ bound := by
  intro fuel
  induction fuel with
  | zero => intro t h; exact absurd h (by omega)
  | succ fuel ih =>
    intro t _ hf
    simp only [count_up]
    by_cases hc : (t : ℚ) ≤ bound
    · rw [if_pos hc]
      have hfl : (t : Int) ≤ ⌊bound⌋ := Int.le_floor.2 (by exact_mod_cast hc)
      have hlt : (t : ℚ) < (UINT_MAX : ℚ) := lt_of_le_of_lt hc hb
      have hlt2 : t < UINT_MAX := by exact_mod_cast hlt
      have hmod : (t + 1) % (UINT_MAX + 1) = t + 1 := Nat.mod_eq_of_lt (by omega)
      rw [hmod]
      obtain ⟨l, hl, hm⟩ := ih (t + 1) (by omega) (by push_cast; omega)
      refine ⟨t :: l, by rw [hl]; rfl, fun u => ?_⟩
      rw [List.mem_cons, hm]
      constructor
      · rintro (rfl | ⟨h1, h2⟩)
        · exact ⟨le_refl _, hc⟩
        · exact ⟨by omega, h2⟩
      · rintro ⟨h1, h2⟩
        by_cases hu : u = t
        · exact Or.inl hu
        · exact Or.inr ⟨by omega, h2⟩
    · rw [if_neg hc]
      refine ⟨[], rfl, fun u => ?_⟩
      simp only [List.not_mem_nil, false_iff]
      rintro ⟨h1, h2⟩
      have : (t : ℚ) ≤ (u : ℚ) := by exact_mod_cast h1
      exact hc (le_trans this h2)

theorem uint_of_float_int (n : Int) (h0 : 0 ≤ n) (h1 : n ≤ (UINT_MAX : Int)) :
    uint_of_float (n : ℚ) = some n.toNat := by
  unfold uint_of_float
  have hq : (0 : ℚ) ≤ (n : ℚ) := by exact_mod_cast h0
  simp only [hq, if_true, Int.floor_intCast]
  rw [if_pos ⟨h0, h1⟩]

theorem loop_values_spec (start : Int) (bound : ℚ) (h0 : 0 ≤ start)
    (h1 : start ≤ (UINT_MAX : Int)) (hb : bound < (UINT_MAX : ℚ)) :
    ∃ l, loop_values (start : ℚ) bound = some l ∧
      ∀ u : Nat, u ∈ l ↔ start ≤ (u : Int) ∧ (u : ℚ) ≤ bound := by
  unfold loop_values
  rw [uint_of_float_int start h0 h1]
  have hfl : ⌊bound⌋ < (UINT_MAX : Int) := Int.floor_lt.2 (by exact_mod_cast hb)
  obtain ⟨l, hl, hm⟩ := count_up_spec bound hb (UINT_MAX + 1) start.toNat (by omega)
    (by push_cast; omega)
  refine ⟨l, hl, fun u => ?_⟩
  rw [hm]
  constructor
  · rintro ⟨a, b⟩
    exact ⟨by omega, b⟩
  · rintro ⟨a, b⟩
    exact ⟨by omega, b⟩

theorem tile_columns_spec (tilebounds : tile_rect) (tys : List Nat)
    (h : loop_values (rect_top tilebounds) (rect_bot tilebounds) = some tys) :
    ∀ txs, tile_columns tilebounds txs =
      some (txs.flatMap (fun tx => tys.map (fun ty => (tx, ty)))) := by
  intro txs
  induction txs with
  | nil => rfl
  | cons tx rest ih =>
    simp only [tile_columns, h, ih, Option.map_some', List.flatMap_cons]

theorem main_tilebounds_eq (a b : tile_point) :
    rect_left (main_tilebounds a b) = ((⌊rect_left (rect_make a b)⌋ : Int) : ℚ) ∧
    rect_right (main_tilebounds a b) = ((⌈rect_right (rect_make a b)⌉ : Int) : ℚ) ∧
    rect_top (main_tilebounds a b) = ((⌊rect_top (rect_make a b)⌋ : Int) : ℚ) ∧
    rect_bot (main_tilebounds a b) = ((⌈rect_bot (rect_make a b)⌉ : Int) : ℚ) := by
  simp [main_tilebounds, rect_left, rect_right, rect_top, rect_bot, round_point, round_to]

theorem floor_range (v : ℚ) (h0 : 0 ≤ v) (h1 : v ≤ 16777215) :
    0 ≤ ⌊v⌋ ∧ ⌊v⌋ ≤ (UINT_MAX : Int) := by
  refine ⟨Int.floor_nonneg.2 h0, ?_⟩
  have h2 : (⌊v⌋ : ℚ) ≤ v := Int.floor_le v
  have h3 : (⌊v⌋ : ℚ) ≤ ((16777215 : Int) : ℚ) := by push_cast; exact le_trans h2 h1
  have h4 : ⌊v⌋ ≤ (16777215 : Int) := by exact_mod_cast h3
  unfold UINT_MAX
  omega

theorem ceil_range (v : ℚ) (h1 : v ≤ 16777215) : ((⌈v⌉ : Int) : ℚ) < (UINT_MAX : ℚ) := by
  have h2 : ⌈v⌉ ≤ (16777215 : Int) := Int.ceil_le.2 (by push_cast; exact h1)
  have h3 : ⌈v⌉ < (UINT_MAX : Int) := by unfold UINT_MAX; omega
  exact_mod_cast h3

/-- C6 (as amended): let the corners of the continuous tile-space rectangle
`rect_make a b` have coordinates between 0 and `2^24 - 1`. Then the two loops of
`main` over the rounded `tilebounds` end, and the tiles they visit are exactly the
`(tx, ty)` with `⌊left⌋ ≤ tx ≤ ⌈right⌉` and `⌊top⌋ ≤ ty ≤ ⌈bottom⌉`. Among them is
every tile whose half-open unit square `[tx, tx + 1) x [ty, ty + 1)` holds a point
`(px, py)` of the rectangle. -/
theorem visited_tiles_cover (a b : tile_point)
    (ha : 0 ≤ a.x ∧ a.x ≤ 16777215 ∧ 0 ≤ a.y ∧ a.y ≤ 16777215)
    (hb : 0 ≤ b.x ∧ b.x ≤ 16777215 ∧ 0 ≤ b.y ∧ b.y ≤ 16777215) :
    ∃ l, visited_tiles (main_tilebounds a b) = some l ∧
      (∀ tx ty : Nat, (tx, ty) ∈ l ↔
        ⌊rect_left (rect_make a b)⌋ ≤ (tx : Int) ∧ (tx : Int) ≤ ⌈rect_right (rect_make a b)⌉ ∧
        ⌊rect_top (rect_make a b)⌋ ≤ (ty : Int) ∧ (ty : Int) ≤ ⌈rect_bot (rect_make a b)⌉) ∧
      (∀ (tx ty : Nat) (px py : ℚ),
        rect_left (rect_make a b) ≤ px → px ≤ rect_right (rect_make a b) →
        rect_top (rect_make a b) ≤ py → py ≤ rect_bot (rect_make a b) →
        (tx : ℚ) ≤ px → px < (tx : ℚ) + 1 → (ty : ℚ) ≤ py → py < (ty : ℚ) + 1 →
        (tx, ty) ∈ l) := by
  obtain ⟨e1, e2, e3, e4⟩ := main_tilebounds_eq a b
  have hl0 : 0 ≤ rect_left (rect_make a b) := le_min ha.1 hb.1
  have hl1 : rect_left (rect_make a b) ≤ 16777215 := le_trans (min_le_left _ _) ha.2.1
  have hr1 : rect_right (rect_make a b) ≤ 16777215 := max_le ha.2.1 hb.2.1
  have ht0 : 0 ≤ rect_top (rect_make a b) := le_min ha.2.2.1 hb.2.2.1
  have ht1 : rect_top (rect_make a b) ≤ 16777215 := le_trans (min_le_left _ _) ha.2.2.2
  have hb1 : rect_bot (rect_make a b) ≤ 16777215 := max_le ha.2.2.2 hb.2.2.2
  obtain ⟨fx0, fx1⟩ := floor_range _ hl0 hl1
  obtain ⟨fy0, fy1⟩ := floor_range _ ht0 ht1
  obtain ⟨txs, hx, mx⟩ := loop_values_spec ⌊rect_left (rect_make a b)⌋
    ((⌈rect_right (rect_make a b)⌉ : Int) : ℚ) fx0 fx1 (ceil_range _ hr1)
  obtain ⟨tys, hy, my⟩ := loop_values_spec ⌊rect_top (rect_make a b)⌋
    ((⌈rect_bot (rect_make a b)⌉ : Int) : ℚ) fy0 fy1 (ceil_range _ hb1)
  rw [← e1, ← e2] at hx
  rw [← e3, ← e4] at hy
  have hmem : ∀ tx ty : Nat, (tx, ty) ∈ txs.flatMap (fun tx => tys.map (fun ty => (tx, ty))) ↔
      ⌊rect_left (rect_make a b)⌋ ≤ (tx : Int) ∧ (tx : Int) ≤ ⌈rect_right (rect_make a b)⌉ ∧
      ⌊rect_top (rect_make a b)⌋ ≤ (ty : Int) ∧ (ty : Int) ≤ ⌈rect_bot (rect_make a b)⌉ := by
    intro tx ty
    have cx : ((tx : ℚ) ≤ ((⌈rect_right (rect_make a b)⌉ : Int) : ℚ)) ↔
        (tx : Int) ≤ ⌈rect_right (rect_make a b)⌉ := by
      constructor
      · intro h; exact_mod_cast h
      · intro h; exact_mod_cast h
    have cy : ((ty : ℚ) ≤ ((⌈rect_bot (rect_make a b)⌉ : Int) : ℚ)) ↔
        (ty : Int) ≤ ⌈rect_bot (rect_make a b)⌉ := by
      constructor
      · intro h; exact_mod_cast h
      · intro h; exact_mod_cast h
    simp only [List.mem_flatMap, List.mem_map, Prod.mk.injEq]
    constructor
    · rintro ⟨x, hxm, y, hym, rfl, rfl⟩
      exact ⟨((mx x).1 hxm).1, cx.1 ((mx x).1 hxm).2, ((my y).1 hym).1, cy.1 ((my y).1 hym).2⟩
    · rintro ⟨h1, h2, h3, h4⟩
      exact ⟨tx, (mx tx).2 ⟨h1, cx.2 h2⟩, ty, (my ty).2 ⟨h3, cy.2 h4⟩, rfl, rfl⟩
  refine ⟨_, ?_, hmem, ?_⟩
  · unfold visited_tiles
    rw [hx]
    exact tile_columns_spec _ tys hy txs
  · intro tx ty px py h1 h2 h3 h4 h5 h6 h7 h8
    rw [hmem]
    refine ⟨?_, ?_, ?_, ?_⟩
    · have : (⌊rect_left (rect_make a b)⌋ : ℚ) < (tx : ℚ) + 1 :=
        lt_of_le_of_lt (le_trans (Int.floor_le _) h1) h6
      have h9 : ⌊rect_left (rect_make a b)⌋ < (tx : Int) + 1 := by exact_mod_cast this
      omega
    · exact Int.le_ceil_iff.2 (by
        have : ((tx : Int) : ℚ) - 1 < rect_right (rect_make a b) := by
          push_cast
          linarith
        exact this)
    · have : (⌊rect_top (rect_make a b)⌋ : ℚ) < (ty : ℚ) + 1 :=
        lt_of_le_of_lt (le_trans (Int.floor_le _) h3) h8
      have h9 : ⌊rect_top (rect_make a b)⌋ < (ty : Int) + 1 := by exact_mod_cast this
      omega
    · exact Int.le_ceil_iff.2 (by
        have : ((ty : Int) : ℚ) - 1 < rect_bot (rect_make a b) := by
          push_cast
          linarith
        exact this)

theorem count_up_one_step (bound : ℚ) (fuel t : Nat) (h : (t : ℚ) ≤ bound) :
    count_up bound (fuel + 1) t =
      (count_up bound fuel ((t + 1) % (UINT_MAX + 1))).map (fun l => t :: l) := by
  simp only [count_up, if_pos h]

theorem count_up_stop (bound : ℚ) (fuel t : Nat) (h : ¬ (t : ℚ) ≤ bound) :
    count_up bound (fuel + 1) t = some [] := by
  simp only [count_up, if_neg h]

theorem loop_values_one_two : loop_values 1 2 = some [1, 2] := by
  have h1 : uint_of_float 1 = some 1 := by
    have := uint_of_float_int 1 (by decide) (by decide)
    simpa using this
  unfold loop_values
  rw [h1]
  show count_up 2 (4294967295 + 1) 1 = _
  rw [count_up_one_step _ _ _ (by norm_num)]
  show Option.map _ (count_up 2 (4294967294 + 1) 2) = _
  rw [count_up_one_step _ _ _ (by norm_num)]
  show Option.map _ (Option.map _ (count_up 2 (4294967293 + 1) 3)) = _
  rw [count_up_stop _ _ _ (by norm_num)]
  rfl

/-- C6, as stated, fails in two ways. (1) The rectangle from (1, 1) to (2, 2):
the loops visit the tiles (1, 1), (1, 2), (2, 1) and (2, 2); the unit square of
the tile (0, 1), with its edges, holds the corner (1, 1) of the rectangle, and
the tile is not visited. (2) The rectangle from (-1/2, 1/2) to (1/2, 3/2): its
left edge rounds to -1, which the conversion to `unsigned int` does not define
(where it delivers `UINT_MAX`, the loop condition fails at once), so that no
defined run visits the tile (0, 0), which holds the point (1/4, 3/4) of the
rectangle. -/
theorem visited_tiles_miss_tiles :
    (visited_tiles (main_tilebounds ⟨1, 1⟩ ⟨2, 2⟩) = some [(1, 1), (1, 2), (2, 1), (2, 2)] ∧
      (0, 1) ∉ [(1, 1), (1, 2), (2, 1), (2, 2)] ∧
      ∃ px py : ℚ,
        rect_left (rect_make ⟨1, 1⟩ ⟨2, 2⟩) ≤ px ∧ px ≤ rect_right (rect_make ⟨1, 1⟩ ⟨2, 2⟩) ∧
        rect_top (rect_make ⟨1, 1⟩ ⟨2, 2⟩) ≤ py ∧ py ≤ rect_bot (rect_make ⟨1, 1⟩ ⟨2, 2⟩) ∧
        ((0 : Nat) : ℚ) ≤ px ∧ px ≤ ((0 : Nat) : ℚ) + 1 ∧
        ((1 : Nat) : ℚ) ≤ py ∧ py ≤ ((1 : Nat) : ℚ) + 1) ∧
    (visited_tiles (main_tilebounds ⟨-1 / 2, 1 / 2⟩ ⟨1 / 2, 3 / 2⟩) = none ∧
      ∃ px py : ℚ,
        rect_left (rect_make ⟨-1 / 2, 1 / 2⟩ ⟨1 / 2, 3 / 2⟩) ≤ px ∧
        px ≤ rect_right (rect_make ⟨-1 / 2, 1 / 2⟩ ⟨1 / 2, 3 / 2⟩) ∧
        rect_top (rect_make ⟨-1 / 2, 1 / 2⟩ ⟨1 / 2, 3 / 2⟩) ≤ py ∧
        py ≤ rect_bot (rect_make ⟨-1 / 2, 1 / 2⟩ ⟨1 / 2, 3 / 2⟩) ∧
        ((0 : Nat) : ℚ) ≤ px ∧ px < ((0 : Nat) : ℚ) + 1 ∧
        ((0 : Nat) : ℚ) ≤ py ∧ py < ((0 : Nat) : ℚ) + 1) := by
  refine ⟨⟨?_, by decide, 1, 1, ?_⟩, ?_, 1 / 4, 3 / 4, ?_⟩
  · obtain ⟨e1, e2, e3, e4⟩ := main_tilebounds_eq ⟨1, 1⟩ ⟨2, 2⟩
    have f1 : rect_left (main_tilebounds ⟨1, 1⟩ ⟨2, 2⟩) = 1 := by
      rw [e1]; norm_num [rect_left, rect_make]
    have f2 : rect_right (main_tilebounds ⟨1, 1⟩ ⟨2, 2⟩) = 2 := by
      rw [e2]; norm_num [rect_right, rect_make]
    have f3 : rect_top (main_tilebounds ⟨1, 1⟩ ⟨2, 2⟩) = 1 := by
      rw [e3]; norm_num [rect_top, rect_make]
    have f4 : rect_bot (main_tilebounds ⟨1, 1⟩ ⟨2, 2⟩) = 2 := by
      rw [e4]; norm_num [rect_bot, rect_make]
    unfold visited_tiles
    rw [f1, f2, loop_values_one_two]
    have hy : loop_values (rect_top (main_tilebounds ⟨1, 1⟩ ⟨2, 2⟩))
        (rect_bot (main_tilebounds ⟨1, 1⟩ ⟨2, 2⟩)) = some [1, 2] := by
      rw [f3, f4, loop_values_one_two]
    exact tile_columns_spec _ _ hy _
  · norm_num [rect_left, rect_right, rect_top, rect_bot, rect_make]
  · obtain ⟨e1, -, -, -⟩ := main_tilebounds_eq ⟨-1 / 2, 1 / 2⟩ ⟨1 / 2, 3 / 2⟩
    have f1 : rect_left (main_tilebounds ⟨-1 / 2, 1 / 2⟩ ⟨1 / 2, 3 / 2⟩) = -1 := by
      rw [e1]
      have : ⌊rect_left (rect_make ⟨-1 / 2, 1 / 2⟩ ⟨1 / 2, 3 / 2⟩)⌋ = -1 := by
        rw [Int.floor_eq_iff]
        norm_num [rect_left, rect_make]
      rw [this]
      norm_num
    have hc : ⌈(-1 : ℚ)⌉ = -1 := by
      rw [Int.ceil_eq_iff]
      norm_num
    have hu : uint_of_float (-1) = none := by
      unfold uint_of_float
      norm_num [hc]
    unfold visited_tiles loop_values
    rw [f1, hu]
  · norm_num [rect_left, rect_right, rect_top, rect_bot, rect_make]

/-- C6 witness: the rectangle from (1/2, 1/2) to (5/2, 3/2); its corner (5/2, 3/2)
lies in the unit square of the tile (2, 1), which is among the visited tiles. -/
theorem visited_tiles_cover_witness :
    ∃ l, visited_tiles (main_tilebounds ⟨1 / 2, 1 / 2⟩ ⟨5 / 2, 3 / 2⟩) = some l ∧ (2, 1) ∈ l := by
  obtain ⟨l, hl, -, hc⟩ := visited_tiles_cover ⟨1 / 2, 1 / 2⟩ ⟨5 / 2, 3 / 2⟩
    (by norm_num) (by norm_num)
  exact ⟨l, hl, hc 2 1 (5 / 2) (3 / 2)
    (by norm_num [rect_left, rect_make]) (by norm_num [rect_right, rect_make])
    (by norm_num [rect_top, rect_make]) (by norm_num [rect_bot, rect_make])
    (by norm_num) (by norm_num) (by norm_num) (by norm_num)⟩

/-! ### System calls as updates of the file system -/

theorem FS.put_put (f : FS) (j : Nat) (d d2 : List Nat) : (f.put j d).put j d2 = f.put j d2 := by
  unfold FS.put
  congr 1
  funext i
  by_cases h : i = j <;> simp [h]

theorem FS.create_put (f : FS) (k : Key) (d d2 : List Nat) :
    (f.create k d).put f.next d2 = f.create k d2 := by
  unfold FS.put FS.create
  congr 1
  funext i
  by_cases h : i = f.next <;> simp [h]

theorem FS.put_self (f : FS) (j : Nat) : f.put j (f.data j) = f := by
  unfold FS.put
  cases f with
  | mk cwd names data next =>
    congr 1
    funext i
    by_cases h : i = j <;> simp [h]

theorem fwrite_fs (w : World) (j : Nat) (d : List Nat) :
    (fwrite w j d).fs = w.fs.put j (w.fs.data j ++ d) := rfl

theorem fwrite_create (w2 : World) (f : FS) (k : Key) (d : List Nat)
    (h : w2.fs = f.create k []) : (fwrite w2 f.next d).fs = f.create k d := by
  rw [fwrite_fs, h]
  have : (f.create k []).data f.next = [] := by simp [FS.create]
  rw [this, List.nil_append]
  exact FS.create_put f k [] d

theorem fwrite_put (w2 : World) (f : FS) (j : Nat) (d : List Nat)
    (h : w2.fs = f.put j []) : (fwrite w2 j d).fs = f.put j d := by
  rw [fwrite_fs, h]
  have : (f.put j []).data j = [] := by simp [FS.put]
  rw [this, List.nil_append]
  exact FS.put_put f j [] d

theorem fopen_r_fs (w : World) (path : CStr) : (fopen_r w path).2.fs = w.fs := by
  by_cases hp : path = []
  · simp [fopen_r, hp, World.fail]
  · cases hn : w.fs.names (resolve w.fs.cwd path) with
    | none =>
      cases hpe : parent_errno w.fs (resolve w.fs.cwd path) with
      | none => simp [fopen_r, hp, hn, hpe, World.fail]
      | some e => simp [fopen_r, hp, hn, hpe, World.fail]
    | some nd => cases nd <;> simp [fopen_r, hp, hn]

theorem fopen_r_fst (w : World) (path : CStr) (hp : path ≠ []) :
    (fopen_r w path).1 = w.fs.read (resolve w.fs.cwd path) := by
  cases hn : w.fs.names (resolve w.fs.cwd path) with
  | none =>
    cases hpe : parent_errno w.fs (resolve w.fs.cwd path) with
    | none => simp [fopen_r, hp, hn, hpe, FS.read]
    | some e => simp [fopen_r, hp, hn, hpe, FS.read]
  | some nd => cases nd <;> simp [fopen_r, hp, hn, FS.read]

theorem bad_emit (w : World) (e : Event) :
    bad (w.emit e).trace = bad w.trace + (if e.is_bad then 1 else 0) :=
  countP_emit _ w e

theorem bad_fail_fopen (w : World) (p : CStr) (e : Nat) :
    bad (w.fail Syscall.fopen p e).trace = bad w.trace := by
  simp [bad, World.fail, List.countP_append, List.countP_cons, Event.is_bad]

theorem bad_fail_exist (w : World) (c : Syscall) (p : CStr) :
    bad (w.fail c p EEXIST).trace = bad w.trace := by
  simp [bad, World.fail, List.countP_append, List.countP_cons, Event.is_bad]

theorem bad_fail_le (w : World) (c : Syscall) (p : CStr) (e : Nat) :
    bad w.trace ≤ bad (w.fail c p e).trace := by
  simp [bad, World.fail, List.countP_append]

theorem bad_fopen_r (w : World) (path : CStr) : bad (fopen_r w path).2.trace = bad w.trace := by
  by_cases hp : path = []
  · simp [fopen_r, hp, bad_fail_fopen]
  · cases hn : w.fs.names (resolve w.fs.cwd path) with
    | none =>
      cases hpe : parent_errno w.fs (resolve w.fs.cwd path) with
      | none => simp [fopen_r, hp, hn, hpe, bad_fail_fopen]
      | some e => simp [fopen_r, hp, hn, hpe, bad_fail_fopen]
    | some nd => cases nd <;> simp [fopen_r, hp, hn]

theorem fopen_w_spec (w : World) (path : CStr) (hp : path ≠ []) :
    (∃ j, w.fs.names (resolve w.fs.cwd path) = some (Node.file j) ∧
        fopen_w w path = (some j, { w with fs := w.fs.put j [] })) ∨
    (w.fs.names (resolve w.fs.cwd path) = none ∧
        fopen_w w path =
          (some w.fs.next, { w with fs := w.fs.create (resolve w.fs.cwd path) [] })) ∨
    (∃ e, fopen_w w path = (none, w.fail Syscall.fopen path e)) := by
  cases hn : w.fs.names (resolve w.fs.cwd path) with
  | none =>
    cases hpe : parent_errno w.fs (resolve w.fs.cwd path) with
    | none =>
      refine Or.inr (Or.inl ⟨rfl, ?_⟩)
      simp [fopen_w, hp, hn, hpe, FS.create]
    | some e =>
      refine Or.inr (Or.inr ⟨e, ?_⟩)
      simp [fopen_w, hp, hn, hpe]
  | some nd =>
    cases nd with
    | dir =>
      refine Or.inr (Or.inr ⟨EISDIR, ?_⟩)
      simp [fopen_w, hp, hn]
    | file j =>
      refine Or.inl ⟨j, rfl, ?_⟩
      simp [fopen_w, hp, hn, FS.put]

theorem mkdir_spec (w : World) (path : CStr) :
    (w.fs.names (resolve w.fs.cwd path) = none ∧
        mkdir w path = (0, { w with fs := w.fs.bind (resolve w.fs.cwd path) Node.dir })) ∨
    (∃ e, mkdir w path = (-1, w.fail Syscall.mkdir path e) ∧
      (e = EEXIST → w.fs.names (resolve w.fs.cwd path) ≠ none)) := by
  by_cases hp : path = []
  · refine Or.inr ⟨ENOENT, ?_, fun h => absurd h (by decide)⟩
    simp [mkdir, hp]
  · cases hn : w.fs.names (resolve w.fs.cwd path) with
    | none =>
      cases hpe : parent_errno w.fs (resolve w.fs.cwd path) with
      | none =>
        refine Or.inl ⟨rfl, ?_⟩
        simp [mkdir, hp, hn, hpe, FS.bind]
      | some e =>
        refine Or.inr ⟨e, ?_, fun h => ?_⟩
        · simp [mkdir, hp, hn, hpe]
        · exfalso
          subst h
          unfold parent_errno at hpe
          split at hpe <;> simp [EEXIST, ENOTDIR, ENOENT] at hpe
    | some nd =>
      refine Or.inr ⟨EEXIST, ?_, fun _ => by simp⟩
      simp [mkdir, hp, hn]

theorem link_spec (w : World) (old new : CStr) :
    (∃ b, w.fs.names (resolve w.fs.cwd old) = some (Node.file b) ∧
        w.fs.names (resolve w.fs.cwd new) = none ∧
        link w old new =
          (0, { w with fs := w.fs.bind (resolve w.fs.cwd new) (Node.file b) })) ∨
    (∃ e, link w old new = (-1, w.fail Syscall.link new e) ∧
      (e = EEXIST → w.fs.names (resolve w.fs.cwd new) ≠ none)) := by
  by_cases hp : old = [] ∨ new = []
  · refine Or.inr ⟨ENOENT, ?_, fun h => absurd h (by decide)⟩
    simp [link, hp]
  · cases hn : w.fs.names (resolve w.fs.cwd old) with
    | none =>
      refine Or.inr ⟨ENOENT, ?_, fun h => absurd h (by decide)⟩
      simp [link, hp, hn]
    | some nd =>
      cases nd with
      | dir =>
        refine Or.inr ⟨EPERM, ?_, fun h => absurd h (by decide)⟩
        simp [link, hp, hn]
      | file b =>
        cases hk : w.fs.names (resolve w.fs.cwd new) with
        | some _ =>
          refine Or.inr ⟨EEXIST, ?_, fun _ => by simp⟩
          simp [link, hp, hn, hk]
        | none =>
          cases hpe : parent_errno w.fs (resolve w.fs.cwd new) with
          | none =>
            refine Or.inl ⟨b, rfl, rfl, ?_⟩
            simp [link, hp, hn, hk, hpe, FS.bind]
          | some e =>
            refine Or.inr ⟨e, ?_, fun h => ?_⟩
            · simp [link, hp, hn, hk, hpe]
            · exfalso
              subst h
              unfold parent_errno at hpe
              split at hpe <;> simp [EEXIST, ENOTDIR, ENOENT] at hpe

theorem link_exists (w : World) (old new : CStr) (ho : old ≠ []) (hn : new ≠ []) (b : Nat)
    (hb : w.fs.names (resolve w.fs.cwd old) = some (Node.file b))
    (hk : w.fs.names (resolve w.fs.cwd new) ≠ none) :
    link w old new = (-1, w.fail Syscall.link new EEXIST) := by
  cases hk2 : w.fs.names (resolve w.fs.cwd new) with
  | none => exact absurd hk2 hk
  | some nd => simp [link, ho, hn, hb, hk2]

/-! ### Invariants of the file system under updates -/

theorem dirs_added_refl (f : FS) : dirs_added f f :=
  ⟨rfl, rfl, rfl, fun _ => Or.inl rfl⟩

theorem dirs_added_trans {f g h : FS} (h1 : dirs_added f g) (h2 : dirs_added g h) :
    dirs_added f h := by
  obtain ⟨a1, b1, c1, d1⟩ := h1
  obtain ⟨a2, b2, c2, d2⟩ := h2
  refine ⟨a2.trans a1, b2.trans b1, c2.trans c1, fun k => ?_⟩
  rcases d2 k with e2 | ⟨n2, e2⟩
  · rw [e2]; exact d1 k
  · rcases d1 k with e1 | ⟨n1, _⟩
    · exact Or.inr ⟨by rw [← e1]; exact n2, e2⟩
    · exact Or.inr ⟨n1, e2⟩

theorem dirs_added_bind (f : FS) (k : Key) (h : f.names k = none) :
    dirs_added f (f.bind k Node.dir) := by
  refine ⟨rfl, rfl, rfl, fun p => ?_⟩
  by_cases hp : p = k
  · subst hp; exact Or.inr ⟨h, by simp [FS.bind]⟩
  · exact Or.inl (by simp [FS.bind, hp])

theorem dirs_added_file {f g : FS} (h : dirs_added f g) (k : Key) (i : Nat) :
    g.names k = some (Node.file i) ↔ f.names k = some (Node.file i) := by
  rcases h.2.2.2 k with e | ⟨n, e⟩
  · rw [e]
  · rw [e, n]; simp

theorem dirs_added_names {f g : FS} (h : dirs_added f g) (k : Key) (nd : Node)
    (hk : f.names k = some nd) : g.names k = some nd := by
  rcases h.2.2.2 k with e | ⟨n, _⟩
  · rw [e]; exact hk
  · rw [n] at hk; exact absurd hk (by simp)

theorem dirs_added_read {f g : FS} (h : dirs_added f g) (k : Key) (c : List Nat)
    (hk : f.read k = some c) : g.read k = some c := by
  unfold FS.read at hk ⊢
  rcases h.2.2.2 k with e | ⟨n, _⟩
  · rw [e, h.2.1]; exact hk
  · rw [n] at hk; exact absurd hk (by simp)

theorem wf_dirs {f g : FS} (h : dirs_added f g) (hwf : f.wf) : g.wf := by
  intro k i hk
  rw [h.2.2.1]
  exact hwf k i ((dirs_added_file h k i).1 hk)

theorem no_alias_dirs {P R : Key → Prop} {f g : FS} (h : dirs_added f g)
    (ha : no_alias P R f) : no_alias P R g := by
  intro k k2 i hP hR hne hk hk2
  exact ha k k2 i hP hR hne ((dirs_added_file h k i).1 hk) ((dirs_added_file h k2 i).1 hk2)

theorem wf_put {f : FS} (j : Nat) (d : List Nat) (hwf : f.wf) : (f.put j d).wf := hwf

theorem no_alias_put {P R : Key → Prop} {f : FS} (j : Nat) (d : List Nat)
    (ha : no_alias P R f) : no_alias P R (f.put j d) := ha

theorem wf_create {f : FS} (k : Key) (d : List Nat) (hwf : f.wf) : (f.create k d).wf := by
  intro p i hp
  simp only [FS.create] at hp ⊢
  by_cases h : p = k
  · simp [h] at hp; omega
  · simp [h] at hp
    have := hwf p i hp
    omega

theorem no_alias_create {P R : Key → Prop} {f : FS} (k : Key) (d : List Nat) (hwf : f.wf)
    (ha : no_alias P R f) : no_alias P R (f.create k d) := by
  intro p p2 i hP hR hne hp hp2
  simp only [FS.create] at hp hp2
  by_cases h1 : p = k
  · simp [h1] at hp
    have h2 : p2 ≠ k := fun e => hne (h1.trans e.symm)
    simp [h2] at hp2
    have := hwf p2 i hp2
    omega
  · simp [h1] at hp
    by_cases h2 : p2 = k
    · simp [h2] at hp2
      have := hwf p i hp
      omega
    · simp [h2] at hp2
      exact ha p p2 i hP hR hne hp hp2

theorem wf_link {f : FS} (k kb : Key) (b : Nat) (hb : f.names kb = some (Node.file b))
    (hwf : f.wf) : (f.bind k (Node.file b)).wf := by
  intro p i hp
  simp only [FS.bind] at hp ⊢
  by_cases h : p = k
  · simp [h] at hp
    rw [← hp]
    exact hwf kb b hb
  · simp [h] at hp
    exact hwf p i hp

theorem no_alias_link {P R : Key → Prop} {f : FS} (k kb : Key) (b : Nat)
    (hb : f.names kb = some (Node.file b)) (hRb : R kb) (hPb : ¬ P kb) (hPk : ¬ P k)
    (ha : no_alias P R f) : no_alias P R (f.bind k (Node.file b)) := by
  intro p p2 i hP hR hne hp hp2
  simp only [FS.bind] at hp hp2
  have h1 : p ≠ k := fun e => hPk (e ▸ hP)
  simp [h1] at hp
  by_cases h2 : p2 = k
  · simp [h2] at hp2
    subst hp2
    have hpb : p ≠ kb := fun e => hPb (e ▸ hP)
    exact ha p kb b hP hRb hpb hp hb
  · simp [h2] at hp2
    exact ha p p2 i hP hR hne hp hp2

theorem read_put {f : FS} (k : Key) (c : List Nat) (j : Nat) (d : List Nat)
    (hk : f.read k = some c) (hj : f.names k ≠ some (Node.file j)) :
    (f.put j d).read k = some c := by
  unfold FS.read at hk ⊢
  simp only [FS.put]
  cases hn : f.names k with
  | none => rw [hn] at hk; exact absurd hk (by simp)
  | some nd =>
    cases nd with
    | dir => rw [hn] at hk; exact hk
    | file i =>
      rw [hn] at hk hj
      have : i ≠ j := fun e => hj (by rw [e])
      simpa [this] using hk

theorem read_create {f : FS} (k k0 : Key) (c d : List Nat) (hwf : f.wf)
    (hk : f.read k = some c) (h0 : f.names k0 = none) : (f.create k0 d).read k = some c := by
  unfold FS.read at hk ⊢
  simp only [FS.create]
  have hne : k ≠ k0 := by
    intro e
    rw [e, h0] at hk
    exact absurd hk (by simp)
  simp only [hne, if_false]
  cases hn : f.names k with
  | none => rw [hn] at hk; exact absurd hk (by simp)
  | some nd =>
    cases nd with
    | dir => rw [hn] at hk; exact hk
    | file i =>
      rw [hn] at hk
      have := hwf k i hn
      have hi : i ≠ f.next := by omega
      simpa [hi] using hk

theorem read_bind {f : FS} (k k0 : Key) (c : List Nat) (nd : Node)
    (hk : f.read k = some c) (h0 : f.names k0 = none) : (f.bind k0 nd).read k = some c := by
  unfold FS.read at hk ⊢
  have hne : k ≠ k0 := by
    intro e
    rw [e, h0] at hk
    exact absurd hk (by simp)
  simpa [FS.bind, hne] using hk

theorem upds_inv {P R : Key → Prop} {kb : Key} {W : Key → Prop} (hRb : R kb) (hPb : ¬ P kb)
    {f g : FS} (h : upds P R kb W f g) (hwf : f.wf) (ha : no_alias P R f) :
    g.wf ∧ no_alias P R g ∧ g.cwd = f.cwd ∧
      (∀ k nd, f.names k = some nd → g.names k = some nd) ∧
      (∀ k c, R k → ¬ W k → f.read k = some c → g.read k = some c) := by
  induction h with
  | refl => exact ⟨hwf, ha, rfl, fun _ _ h => h, fun _ _ _ _ h => h⟩
  | dirs _ hd ih =>
    obtain ⟨i1, i2, i3, i4, i5⟩ := ih
    exact ⟨wf_dirs hd i1, no_alias_dirs hd i2, hd.1.trans i3,
      fun k nd hk => dirs_added_names hd k nd (i4 k nd hk),
      fun k c hR hW hk => dirs_added_read hd k c (i5 k c hR hW hk)⟩
  | create k d _ hW hR hn ih =>
    obtain ⟨i1, i2, i3, i4, i5⟩ := ih
    refine ⟨wf_create k d i1, no_alias_create k d i1 i2, i3, fun p nd hp => ?_,
      fun p c hRp hWp hp => read_create p k c d i1 (i5 p c hRp hWp hp) hn⟩
    have := i4 p nd hp
    have hne : p ≠ k := by
      intro e
      rw [e, hn] at this
      exact absurd this (by simp)
    simpa [FS.create, hne] using this
  | put k j d _ hW hP hn ih =>
    obtain ⟨i1, i2, i3, i4, i5⟩ := ih
    refine ⟨wf_put j d i1, no_alias_put j d i2, i3, i4, fun p c hRp hWp hp => ?_⟩
    apply read_put p c j d (i5 p c hRp hWp hp)
    have hne : k ≠ p := fun e => hWp (e ▸ hW)
    exact i2 k p j hP hRp hne hn
  | link k b _ hW hR hPk hb hn ih =>
    obtain ⟨i1, i2, i3, i4, i5⟩ := ih
    refine ⟨wf_link k kb b hb i1, no_alias_link k kb b hb hRb hPb hPk i2, i3, fun p nd hp => ?_,
      fun p c hRp hWp hp => read_bind p k c _ (i5 p c hRp hWp hp) hn⟩
    have := i4 p nd hp
    have hne : p ≠ k := by
      intro e
      rw [e, hn] at this
      exact absurd this (by simp)
    simpa [FS.bind, hne] using this

theorem upds_trans {P R : Key → Prop} {kb : Key} {W : Key → Prop} {f g h : FS}
    (h1 : upds P R kb W f g) (h2 : upds P R kb W g h) : upds P R kb W f h := by
  induction h2 with
  | refl => exact h1
  | dirs _ hd ih => exact upds.dirs ih hd
  | create k d _ hW hR hn ih => exact upds.create k d ih hW hR hn
  | put k j d _ hW hP hn ih => exact upds.put k j d ih hW hP hn
  | link k b _ hW hR hPk hb hn ih => exact upds.link k b ih hW hR hPk hb hn

theorem upds_mono {P R : Key → Prop} {kb : Key} {W W2 : Key → Prop} (hW : ∀ k, W k → W2 k)
    {f g : FS} (h : upds P R kb W f g) : upds P R kb W2 f g := by
  induction h with
  | refl => exact upds.refl _
  | dirs _ hd ih => exact upds.dirs ih hd
  | create k d _ hk hR hn ih => exact upds.create k d ih (hW k hk) hR hn
  | put k j d _ hk hP hn ih => exact upds.put k j d ih (hW k hk) hP hn
  | link k b _ hk hR hPk hb hn ih => exact upds.link k b ih (hW k hk) hR hPk hb hn

/-! ### fetch_tile_transform as an update -/

theorem mkdir_dirs (w : World) (path : CStr) :
    dirs_added w.fs (mkdir w path).2.fs ∧ bad w.trace ≤ bad (mkdir w path).2.trace := by
  rcases mkdir_spec w path with ⟨hn, he⟩ | ⟨e, he, -⟩
  · rw [he]
    exact ⟨dirs_added_bind _ _ hn, le_refl _⟩
  · rw [he]
    exact ⟨dirs_added_refl _, bad_fail_le _ _ _ _⟩

theorem mkdir_recursive_loop_dirs :
    ∀ (toks : List CStr) (dir : CStr) (w : World),
      dirs_added w.fs (mkdir_recursive_loop toks dir w).2.fs ∧
        bad w.trace ≤ bad (mkdir_recursive_loop toks dir w).2.trace := by
  intro toks
  induction toks with
  | nil => intro dir w; exact ⟨dirs_added_refl _, le_refl _⟩
  | cons tok toks ih =>
    intro dir w
    simp only [mkdir_recursive_loop]
    have h1 := mkdir_dirs w (strlcat (strlcat dir tok PATH_MAX) ['/'] PATH_MAX)
    split
    · refine ⟨h1.1, ?_⟩
      rw [bad_emit]
      exact le_trans h1.2 (Nat.le_add_right _ _)
    · have h2 := ih (strlcat (strlcat dir tok PATH_MAX) ['/'] PATH_MAX)
        (mkdir w (strlcat (strlcat dir tok PATH_MAX) ['/'] PATH_MAX)).2
      exact ⟨dirs_added_trans h1.1 h2.1, le_trans h1.2 h2.2⟩

theorem cache_write_world_dirs (cachedir : CStr) (z x y : Int) (w : World) :
    dirs_added w.fs (cache_write_world cachedir z x y w).fs ∧
      bad w.trace ≤ bad (cache_write_world cachedir z x y w).trace := by
  unfold cache_write_world
  dsimp only
  have h0 : ((fopen_r w (cache_path cachedir z x y)).2.emit
      (Event.generate_translation_tile x y z)).fs = w.fs := by
    show (fopen_r w (cache_path cachedir z x y)).2.fs = w.fs
    exact fopen_r_fs _ _
  have h1 : bad ((fopen_r w (cache_path cachedir z x y)).2.emit
      (Event.generate_translation_tile x y z)).trace = bad w.trace := by
    rw [bad_emit, bad_fopen_r]
    rfl
  have h2 := mkdir_recursive_loop_dirs (strtok_r_all (cache_dirpath cachedir z x)) []
    ((fopen_r w (cache_path cachedir z x y)).2.emit (Event.generate_translation_tile x y z))
  rw [h0, h1] at h2
  split
  · refine ⟨h2.1, ?_⟩
    rw [bad_emit]
    exact le_trans h2.2 (Nat.le_add_right _ _)
  · exact h2

theorem cache_path_ne_nil (cachedir : CStr) (z x y : Int) : cache_path cachedir z x y ≠ [] := by
  unfold cache_path
  apply snprintf_ne_nil
  simp

theorem fetch_step (P R : Key → Prop) (kb : Key) (W : Key → Prop)
    (gen : Int → Int → Int → projPJ → cl_float4 × cl_float4)
    (z x y : Int) (cachedir : CStr) (proj_meters : projPJ) (out : cl_float4 × cl_float4)
    (w : World)
    (hW : W (resolve w.fs.cwd (cache_path cachedir z x y)))
    (hR : R (resolve w.fs.cwd (cache_path cachedir z x y)))
    (hbad : bad (fetch_tile_transform gen z x y cachedir proj_meters out w).2.trace = 0) :
    bad w.trace = 0 ∧
    upds P R kb W w.fs (fetch_tile_transform gen z x y cachedir proj_meters out w).2.fs ∧
    ∃ c, (fetch_tile_transform gen z x y cachedir proj_meters out w).2.fs.read
        (resolve w.fs.cwd (cache_path cachedir z x y)) = some c ∧
      fread_out out c = (fetch_tile_transform gen z x y cachedir proj_meters out w).1 := by
  have hp := cache_path_ne_nil cachedir z x y
  have hfst := fopen_r_fst w (cache_path cachedir z x y) hp
  cases hr : (fopen_r w (cache_path cachedir z x y)).1 with
  | some c =>
    rw [fetch_tile_transform_hit _ _ _ _ _ _ _ _ _ hr] at hbad ⊢
    simp only at hbad ⊢
    rw [bad_emit, bad_fopen_r] at hbad
    have hfs : ((fopen_r w (cache_path cachedir z x y)).2.emit
        (Event.log_info "Loaded cache file %s")).fs = w.fs := fopen_r_fs _ _
    rw [hfs]
    refine ⟨by omega, upds.refl _, c, ?_, rfl⟩
    rw [← hfst, hr]
  | none =>
    rw [fetch_tile_transform_miss _ _ _ _ _ _ _ _ hr] at hbad ⊢
    obtain ⟨hd, hb⟩ := cache_write_world_dirs cachedir z x y w
    have hcwd := hd.1
    have hnone : w.fs.names (resolve w.fs.cwd (cache_path cachedir z x y)) = none := by
      rw [hr] at hfst
      unfold FS.read at hfst
      cases hn : w.fs.names (resolve w.fs.cwd (cache_path cachedir z x y)) with
      | none => rfl
      | some nd => rw [hn] at hfst; cases nd <;> simp at hfst
    rcases fopen_w_spec (cache_write_world cachedir z x y w) (cache_path cachedir z x y) hp with
      ⟨j, hj, -⟩ | ⟨hn, he⟩ | ⟨e, he⟩
    · rw [hcwd] at hj
      rw [(dirs_added_file hd _ j).1 hj] at hnone
      exact absurd hnone (by simp)
    · rw [he] at hbad ⊢
      simp only at hbad ⊢
      rw [hcwd] at hn
      have hfs : (fwrite (World.emit
          { cache_write_world cachedir z x y w with
            fs := (cache_write_world cachedir z x y w).fs.create
              (resolve (cache_write_world cachedir z x y w).fs.cwd (cache_path cachedir z x y)) [] }
          (Event.log_info "Generated cache file %s")) (cache_write_world cachedir z x y w).fs.next
          (bytes_of_out (gen x y z proj_meters))).fs =
          (cache_write_world cachedir z x y w).fs.create
            (resolve w.fs.cwd (cache_path cachedir z x y))
            (bytes_of_out (gen x y z proj_meters)) := by
        rw [← hcwd]
        exact fwrite_create _ _ _ _ rfl
      have hbad2 : bad (cache_write_world cachedir z x y w).trace = 0 := by
        have : bad (fwrite (World.emit
          { cache_write_world cachedir z x y w with
            fs := (cache_write_world cachedir z x y w).fs.create
              (resolve (cache_write_world cachedir z x y w).fs.cwd (cache_path cachedir z x y)) [] }
          (Event.log_info "Generated cache file %s")) (cache_write_world cachedir z x y w).fs.next
          (bytes_of_out (gen x y z proj_meters))).trace =
            bad (cache_write_world cachedir z x y w).trace := by
          show bad (World.emit _ _).trace = _
          rw [bad_emit]
          rfl
        rw [this] at hbad
        exact hbad
      rw [hfs]
      refine ⟨by omega, upds.create _ _ (upds.dirs (upds.refl _) hd) hW hR hn,
        bytes_of_out (gen x y z proj_meters), ?_, fread_out_bytes_of_out _ _⟩
      simp [FS.read, FS.create]
    · rw [he] at hbad
      simp only at hbad
      rw [bad_emit] at hbad
      simp [Event.is_bad] at hbad

/-! ### One tile, the first time -/

theorem write_png_spec (enc : PngImage → List Nat) (n T : Nat) (w : World) (fname : CStr)
    (img : List Nat) (colormap : List rgba_t) (hp : fname ≠ []) (im : PngImage)
    (him : write_png_image n T T img colormap = some im) :
    (∃ j w2, w.fs.names (resolve w.fs.cwd fname) = some (Node.file j) ∧
      write_png enc n w fname T T img colormap = some w2 ∧
      w2.fs = w.fs.put j (enc im) ∧ bad w2.trace = bad w.trace) ∨
    (∃ w2, w.fs.names (resolve w.fs.cwd fname) = none ∧
      write_png enc n w fname T T img colormap = some w2 ∧
      w2.fs = w.fs.create (resolve w.fs.cwd fname) (enc im) ∧ bad w2.trace = bad w.trace) ∨
    (∃ w2, write_png enc n w fname T T img colormap = some w2 ∧
      bad w2.trace = bad w.trace + 1) := by
  have hb : bad (w.emit (Event.write_png fname)).trace = bad w.trace := by
    rw [bad_emit]; rfl
  rcases fopen_w_spec (w.emit (Event.write_png fname)) fname hp with
    ⟨j, hj, he⟩ | ⟨hn, he⟩ | ⟨e, he⟩
  · refine Or.inl ⟨j, fwrite { w.emit (Event.write_png fname) with
        fs := (w.emit (Event.write_png fname)).fs.put j [] } j (enc im), hj, ?_, ?_, ?_⟩
    · unfold write_png
      simp only [he, him]
    · exact fwrite_put _ _ _ _ rfl
    · exact hb
  · refine Or.inr (Or.inl ⟨fwrite { w.emit (Event.write_png fname) with
        fs := (w.emit (Event.write_png fname)).fs.create
          (resolve (w.emit (Event.write_png fname)).fs.cwd fname) [] }
        (w.emit (Event.write_png fname)).fs.next (enc im), hn, ?_, ?_, ?_⟩)
    · unfold write_png
      simp only [he, him]
    · exact fwrite_create _ _ _ _ rfl
    · exact hb
  · refine Or.inr (Or.inr ⟨((w.emit (Event.write_png fname)).fail Syscall.fopen fname e).emit
        (Event.perror "Failed to write a file\n"), ?_, ?_⟩)
    · unfold write_png
      simp only [he]
    · rw [bad_emit, bad_fail_fopen, hb]
      rfl

theorem tile_fetch_step (P R : Key → Prop) (kb : Key) (W : Key → Prop) (E : Env)
    (args : arguments) (tx ty : Nat) (h : Host)
    (hW : W (key_map h.world.fs.cwd args (tx, ty)))
    (hR : R (key_map h.world.fs.cwd args (tx, ty)))
    (hbad : bad (tile_fetch E args tx ty h).2.trace = 0) :
    bad h.world.trace = 0 ∧
    upds P R kb W h.world.fs (tile_fetch E args tx ty h).2.fs ∧
    ∃ c, (tile_fetch E args tx ty h).2.fs.read (key_map h.world.fs.cwd args (tx, ty)) = some c ∧
      fread_out h.tr c = (tile_fetch E args tx ty h).1 := by
  unfold tile_fetch at hbad ⊢
  obtain ⟨h1, h2, h3⟩ := fetch_step P R kb W E.generate_translation_tile args.zoomlevel
    (int_of_uint tx) (int_of_uint ty) args.outdir args.proj_meters h.tr
    (h.world.emit (Event.log_info "Processing (%d,%d)")) hW hR hbad
  rw [bad_emit] at h1
  exact ⟨by omega, h2, h3⟩

theorem bad_fail_link (w : World) (p : CStr) (e : Nat) :
    bad (w.fail Syscall.link p e).trace = bad w.trace + (if e = EEXIST then 0 else 1) := by
  by_cases h : e = EEXIST
  · subst h; rw [bad_fail_exist]; simp
  · simp [bad, World.fail, List.countP_append, List.countP_cons, Event.is_bad, h]

theorem bad_fail_mkdir (w : World) (p : CStr) (e : Nat) :
    bad (w.fail Syscall.mkdir p e).trace = bad w.trace + (if e = EEXIST then 0 else 1) := by
  by_cases h : e = EEXIST
  · subst h; rw [bad_fail_exist]; simp
  · simp [bad, World.fail, List.countP_append, List.countP_cons, Event.is_bad, h]

theorem encode_world_bad (E : Env) (args : arguments) (tx ty : Nat) (h : Host) :
    bad (encode_world E args tx ty h).trace = bad (tile_fetch E args tx ty h).2.trace := by
  simp [encode_world, upload_world, World.after_cl, World.emit, bad, List.countP_append,
    List.countP_cons, checked_events, Event.is_bad]

theorem tile_npts_eq (E : Env) (args : arguments) (datapts : List cl_float2) (tx ty : Nat) :
    datapts.countP (E.rect_is_inside (tile_footprint E args tx ty)) =
      tile_npts E args datapts tx ty := rfl

theorem emit_fs (w : World) (e : Event) : (w.emit e).fs = w.fs := rfl

theorem link_step (P R : Key → Prop) (kb : Key) (W : Key → Prop) (w : World) (old new : CStr)
    (hkb : kb = resolve w.fs.cwd old)
    (hW : W (resolve w.fs.cwd new)) (hR : R (resolve w.fs.cwd new))
    (hP : ¬ P (resolve w.fs.cwd new))
    (hbad : bad (link w old new).2.trace = 0) :
    bad w.trace = 0 ∧ upds P R kb W w.fs (link w old new).2.fs ∧
    (link w old new).2.fs.names (resolve w.fs.cwd new) ≠ none ∧
    ∀ k c, w.fs.read k = some c → (link w old new).2.fs.read k = some c := by
  rcases link_spec w old new with ⟨b, hb, hn, he⟩ | ⟨e, he, hex⟩
  · rw [he] at hbad ⊢
    refine ⟨hbad, upds.link _ b (upds.refl _) hW hR hP (by rw [hkb]; exact hb) hn, ?_,
      fun k c hk => read_bind k _ c _ hk hn⟩
    simp [FS.bind]
  · rw [he] at hbad ⊢
    rw [bad_fail_link] at hbad
    have he2 : e = EEXIST := by
      by_contra hc
      simp [hc] at hbad
    exact ⟨by omega, upds.refl _, hex he2, fun k c hk => hk⟩

theorem write_png_step (P R : Key → Prop) (kb : Key) (W : Key → Prop)
    (enc : PngImage → List Nat) (n T : Nat) (w : World) (fname : CStr)
    (img : List Nat) (colormap : List rgba_t) (hp : fname ≠ []) (im : PngImage)
    (him : write_png_image n T T img colormap = some im)
    (hW : W (resolve w.fs.cwd fname)) (hR : R (resolve w.fs.cwd fname))
    (hP : P (resolve w.fs.cwd fname))
    (hwf : w.fs.wf) (hal : no_alias P R w.fs) (w2 : World)
    (hw : write_png enc n w fname T T img colormap = some w2) (hbad : bad w2.trace = 0) :
    bad w.trace = 0 ∧ upds P R kb W w.fs w2.fs ∧
    w2.fs.read (resolve w.fs.cwd fname) = some (enc im) ∧
    (∃ j, w2.fs.names (resolve w.fs.cwd fname) = some (Node.file j)) ∧
    ∀ k c, R k → k ≠ resolve w.fs.cwd fname → w.fs.read k = some c → w2.fs.read k = some c := by
  rcases write_png_spec enc n T w fname img colormap hp im him with
    ⟨j, w3, hj, hw3, hfs, hb⟩ | ⟨w3, hn, hw3, hfs, hb⟩ | ⟨w3, hw3, hb⟩
  · rw [hw] at hw3
    cases hw3
    rw [hfs]
    refine ⟨by omega, upds.put _ j _ (upds.refl _) hW hP hj, ?_, ⟨j, hj⟩, fun k c hRk hne hk => ?_⟩
    · simp [FS.read, FS.put, hj]
    · exact read_put k c j _ hk (hal _ k j hP hRk (Ne.symm hne) hj)
  · rw [hw] at hw3
    cases hw3
    rw [hfs]
    refine ⟨by omega, upds.create _ _ (upds.refl _) hW hR hn, ?_, ⟨w.fs.next, ?_⟩,
      fun k c _ _ hk => read_create k _ c _ hwf hk hn⟩
    · simp [FS.read, FS.create]
    · simp [FS.create]
  · rw [hw] at hw3
    cases hw3
    omega

theorem link_world_fs (E : Env) (args : arguments) (tx ty : Nat) (h : Host) :
    (link_world E args tx ty h).fs = (tile_fetch E args tx ty h).2.fs := rfl

theorem link_world_bad (E : Env) (args : arguments) (tx ty : Nat) (h : Host) :
    bad (link_world E args tx ty h).trace = bad (tile_fetch E args tx ty h).2.trace := by
  unfold link_world; rw [bad_emit]; rfl

theorem encode_world_fs (E : Env) (args : arguments) (tx ty : Nat) (h : Host) :
    (encode_world E args tx ty h).fs = (tile_fetch E args tx ty h).2.fs := rfl

theorem tile_step_first (P R : Key → Prop) (kb : Key) (W : Key → Prop) (E : Env)
    (args : arguments) (datalen : Nat) (datapts : List cl_float2) (datavals : List cl_float)
    (tx ty : Nat) (H H2 : Host)
    (hpts : datapts.length = datalen) (hvals : datavals.length = datalen)
    (hcp : H.chosenpts.length = datalen) (hcv : H.chosenvals.length = datalen)
    (h32 : datalen < 4294967296) (hcm : args.colormap.length = E.COLORMAP_LEN)
    (hkb : kb = key_blank H.world.fs.cwd args)
    (hWm : W (key_map H.world.fs.cwd args (tx, ty)))
    (hRm : R (key_map H.world.fs.cwd args (tx, ty)))
    (hWp : W (key_png H.world.fs.cwd args (tx, ty)))
    (hRp : R (key_png H.world.fs.cwd args (tx, ty)))
    (hne : key_map H.world.fs.cwd args (tx, ty) ≠ key_png H.world.fs.cwd args (tx, ty))
    (hP1 : tile_npts E args datapts tx ty ≠ 0 → P (key_png H.world.fs.cwd args (tx, ty)))
    (hP0 : tile_npts E args datapts tx ty = 0 → ¬ P (key_png H.world.fs.cwd args (tx, ty)))
    (hRb : R kb) (hPb : ¬ P kb)
    (hwf : H.world.fs.wf) (hal : no_alias P R H.world.fs)
    (hrun : process_tile E args datalen datapts datavals tx ty H = Outcome.running H2)
    (hbad : bad H2.world.trace = 0) :
    bad H.world.trace = 0 ∧ upds P R kb W H.world.fs H2.world.fs ∧
    H2.chosenpts.length = datalen ∧ H2.chosenvals.length = datalen ∧
    settled E args datapts (tx, ty) H2.world.fs H.tr H2.tr H2.tile := by
  obtain ⟨cp, cv, hsel, hl1, hl2⟩ :=
    select_points_count (E.rect_is_inside (tile_footprint E args tx ty)) datalen datapts datavals
      H.chosenpts H.chosenvals hpts hvals hcp hcv h32
  rw [tile_npts_eq] at hsel
  have hfetch := tile_fetch_step P R kb W E args tx ty H hWm hRm
  have hlfs := link_world_fs E args tx ty H
  have hlbad := link_world_bad E args tx ty H
  have hefs := encode_world_fs E args tx ty H
  have hebad := encode_world_bad E args tx ty H
  by_cases hz : tile_npts E args datapts tx ty = 0
  · rw [hz] at hsel
    rw [process_tile_empty E args datalen datapts datavals tx ty H cp cv hsel] at hrun
    have hinj := Outcome.running.inj hrun
    have hw2 : H2.world = (link (link_world E args tx ty H) (blankfilepath args.outdir)
        (tile_path args.outdir args.zoomlevel tx ty)).2.emit
        (Event.log_info " linked %s to %s") := by rw [← hinj]
    have htr : H2.tr = (tile_fetch E args tx ty H).1 := by rw [← hinj]
    have hc1 : H2.chosenpts = cp := by rw [← hinj]
    have hc2 : H2.chosenvals = cv := by rw [← hinj]
    clear hrun hinj hefs hebad
    generalize link_world E args tx ty H = lw at hlfs hlbad hw2
    generalize tile_fetch E args tx ty H = tf at hfetch hlfs hlbad htr
    rw [hw2, bad_emit] at hbad
    have hbl : bad (link lw (blankfilepath args.outdir)
        (tile_path args.outdir args.zoomlevel tx ty)).2.trace = 0 := by omega
    rw [hw2, emit_fs, htr, hc1, hc2]
    -- the fetch facts need bad tf = 0, which comes from the link step, which needs the cwd
    have hcwd_of : bad tf.2.trace = 0 → tf.2.fs.cwd = H.world.fs.cwd := fun hb =>
      (upds_inv hRb hPb (hfetch hb).2.1 hwf hal).2.2.1
    -- link does not look at cwd for its bad count: get bad lw = 0 by monotonicity
    have hmono : bad lw.trace ≤ bad (link lw (blankfilepath args.outdir)
        (tile_path args.outdir args.zoomlevel tx ty)).2.trace := by
      rcases link_spec lw (blankfilepath args.outdir)
        (tile_path args.outdir args.zoomlevel tx ty) with ⟨b, _, _, he⟩ | ⟨e, he, _⟩
      · rw [he]
      · rw [he]; exact bad_fail_le _ _ _ _
    have hbtf : bad tf.2.trace = 0 := by omega
    obtain ⟨g1, g2, c, g3, g4⟩ := hfetch hbtf
    obtain ⟨i1, i2, i3, i4, i5⟩ := upds_inv hRb hPb g2 hwf hal
    have hcwd : lw.fs.cwd = H.world.fs.cwd := by rw [hlfs]; exact i3
    obtain ⟨k1, k2, k3, k4⟩ := link_step P R kb W lw (blankfilepath args.outdir)
        (tile_path args.outdir args.zoomlevel tx ty)
        (by rw [hkb, hcwd]; rfl) (by rw [hcwd]; exact hWp) (by rw [hcwd]; exact hRp)
        (by rw [hcwd]; exact hP0 hz) hbl
    rw [hlfs] at k2
    have hcwd2 := (upds_inv hRb hPb k2 i1 i2).2.2.1
    refine ⟨g1, upds_trans g2 k2, hl1, hl2, ⟨c, ?_, g4⟩, fun _ => ?_, fun h => absurd hz h⟩
    · rw [hcwd2, i3]
      exact k4 _ c (by rw [hlfs]; exact g3)
    · rw [hcwd2, i3]
      rw [hcwd] at k3
      exact k3
  · by_cases hok : checked_calls_succeed H.world.cl_status = true
    · rw [process_tile_nonempty_ok E args datalen datapts datavals tx ty H _ cp cv hsel hz hok]
        at hrun
      have hlen := read_tile_length E (H.world.cl_status.getD 10 CL_SUCCESS)
        (H.image_after E (tile_fetch E args tx ty H).1 (tile_npts E args datapts tx ty) cp cv)
        (fit_length _ _)
      obtain ⟨im, him⟩ := write_png_image_square E.COLORMAP_LEN E.TILE_SIZE _ args.colormap
        hcm hlen
      have hpb : png_bytes E args.colormap (read_tile E (H.world.cl_status.getD 10 CL_SUCCESS)
          (H.image_after E (tile_fetch E args tx ty H).1 (tile_npts E args datapts tx ty) cp cv)) =
          E.png_encode im := by
        unfold png_bytes
        rw [him]
      cases hw : write_png E.png_encode E.COLORMAP_LEN (encode_world E args tx ty H)
          (tile_path args.outdir args.zoomlevel tx ty) E.TILE_SIZE E.TILE_SIZE
          (read_tile E (H.world.cl_status.getD 10 CL_SUCCESS)
            (H.image_after E (tile_fetch E args tx ty H).1 (tile_npts E args datapts tx ty) cp cv))
          args.colormap with
      | none =>
        rw [hw] at hrun
        exact absurd hrun (by simp)
      | some w2 =>
        rw [hw] at hrun
        have hinj := Outcome.running.inj hrun
        have hw2 : H2.world = w2.emit (Event.log_info " wrote %s") := by rw [← hinj]
        have htr : H2.tr = (tile_fetch E args tx ty H).1 := by rw [← hinj]
        have hti : H2.tile = read_tile E (H.world.cl_status.getD 10 CL_SUCCESS)
            (H.image_after E (tile_fetch E args tx ty H).1 (tile_npts E args datapts tx ty) cp cv) := by
          rw [← hinj]
        have hc1 : H2.chosenpts = cp := by rw [← hinj]
        have hc2 : H2.chosenvals = cv := by rw [← hinj]
        clear hrun hinj hlfs hlbad
        rw [hw2, bad_emit] at hbad
        have hb2 : bad w2.trace = 0 := by omega
        rw [hw2, emit_fs, hti, hc1, hc2]
        clear hti hlen hw2
        generalize read_tile E (H.world.cl_status.getD 10 CL_SUCCESS)
            (H.image_after E (tile_fetch E args tx ty H).1 (tile_npts E args datapts tx ty) cp cv) =
            img at him hw hpb ⊢
        rw [htr]
        clear htr
        generalize encode_world E args tx ty H = ew at hefs hebad hw
        generalize tile_fetch E args tx ty H = tf at hfetch hefs hebad
        have hmono : bad ew.trace ≤ bad w2.trace := by
          rcases write_png_spec E.png_encode E.COLORMAP_LEN E.TILE_SIZE ew
              (tile_path args.outdir args.zoomlevel tx ty) img args.colormap
              (tile_path_ne_nil _ _ _ _) im him with
            ⟨j, w3, _, hw3, _, hb⟩ | ⟨w3, _, hw3, _, hb⟩ | ⟨w3, hw3, hb⟩
          all_goals
            rw [hw] at hw3
            cases hw3
            omega
        have hbtf : bad tf.2.trace = 0 := by omega
        obtain ⟨g1, g2, c, g3, g4⟩ := hfetch hbtf
        obtain ⟨i1, i2, i3, i4, i5⟩ := upds_inv hRb hPb g2 hwf hal
        have hcwd : ew.fs.cwd = H.world.fs.cwd := by rw [hefs]; exact i3
        obtain ⟨k1, k2, k3, k4, k5⟩ := write_png_step P R kb W E.png_encode E.COLORMAP_LEN
          E.TILE_SIZE ew (tile_path args.outdir args.zoomlevel tx ty) img args.colormap
          (tile_path_ne_nil _ _ _ _) im him
          (by rw [hcwd]; exact hWp) (by rw [hcwd]; exact hRp) (by rw [hcwd]; exact hP1 hz)
          (by rw [hefs]; exact i1) (by rw [hefs]; exact i2) w2 hw hb2
        rw [hefs] at k2
        have hcwd2 := (upds_inv hRb hPb k2 i1 i2).2.2.1
        rw [hcwd] at k3 k4 k5
        refine ⟨g1, upds_trans g2 k2, hl1, hl2, ⟨c, ?_, g4⟩, fun h => absurd h hz,
          fun _ => ⟨?_, ?_⟩⟩
        · rw [hcwd2, i3]
          exact k5 _ c hRm hne (by rw [hefs]; exact g3)
        · rw [hcwd2, i3, hpb]
          exact k3
        · rw [hcwd2, i3]
          exact k4
    · have hnr := process_tile_nonempty_not_ok E args datalen datapts datavals tx ty H _ cp cv
        hsel hz (by simpa using hok)
      rw [hrun] at hnr
      simp [Outcome.is_running] at hnr

theorem fopen_w_file (w : World) (path : CStr) (hp : path ≠ []) (j : Nat)
    (hj : w.fs.names (resolve w.fs.cwd path) = some (Node.file j)) :
    fopen_w w path = (some j, { w with fs := w.fs.put j [] }) := by
  simp [fopen_w, hp, hj, FS.put]

theorem cl_status_link (w : World) (old new : CStr) :
    (link w old new).2.cl_status = w.cl_status := by
  rcases link_spec w old new with ⟨b, _, _, he⟩ | ⟨e, he, _⟩
  · rw [he]
  · rw [he]
    rfl

theorem cl_status_write_png (enc : PngImage → List Nat) (n : Nat) (w : World) (fname : CStr)
    (T : Nat) (img : List Nat) (colormap : List rgba_t) (w2 : World)
    (hw : write_png enc n w fname T T img colormap = some w2) :
    w2.cl_status = w.cl_status := by
  unfold write_png at hw
  dsimp only at hw
  have h3 := cl_status_fopen_w (w.emit (Event.write_png fname)) fname
  generalize fopen_w (w.emit (Event.write_png fname)) fname = r at hw h3
  obtain ⟨o, w3⟩ := r
  cases o with
  | none =>
    simp only [Option.some.injEq] at hw
    rw [← hw]
    exact h3
  | some f =>
    simp only at hw h3
    cases him : write_png_image n T T img colormap with
    | none => rw [him] at hw; exact absurd hw (by simp)
    | some im =>
      rw [him] at hw
      simp only [Option.some.injEq] at hw
      rw [← hw]
      exact h3

theorem write_png_file (enc : PngImage → List Nat) (n T : Nat) (w : World) (fname : CStr)
    (img : List Nat) (colormap : List rgba_t) (hp : fname ≠ []) (im : PngImage)
    (him : write_png_image n T T img colormap = some im) (j : Nat)
    (hj : w.fs.names (resolve w.fs.cwd fname) = some (Node.file j)) :
    ∃ w2, write_png enc n w fname T T img colormap = some w2 ∧
      w2.fs = w.fs.put j (enc im) ∧ bad w2.trace = bad w.trace := by
  have he := fopen_w_file (w.emit (Event.write_png fname)) fname hp j hj
  refine ⟨fwrite { w.emit (Event.write_png fname) with
      fs := (w.emit (Event.write_png fname)).fs.put j [] } j (enc im), ?_, ?_, ?_⟩
  · unfold write_png
    simp only [he, him]
  · exact fwrite_put _ _ _ _ rfl
  · show bad (w.emit (Event.write_png fname)).trace = _
    rw [bad_emit]; rfl

theorem tile_fetch_hit (E : Env) (args : arguments) (tx ty : Nat) (h : Host) (c : List Nat)
    (hc : h.world.fs.read (key_map h.world.fs.cwd args (tx, ty)) = some c) :
    (tile_fetch E args tx ty h).1 = fread_out h.tr c ∧
    (tile_fetch E args tx ty h).2.fs = h.world.fs ∧
    bad (tile_fetch E args tx ty h).2.trace = bad h.world.trace := by
  have hp := cache_path_ne_nil args.outdir args.zoomlevel (int_of_uint tx) (int_of_uint ty)
  have hr : (fopen_r (h.world.emit (Event.log_info "Processing (%d,%d)"))
      (cache_path args.outdir args.zoomlevel (int_of_uint tx) (int_of_uint ty))).1 = some c := by
    rw [fopen_r_fst _ _ hp]
    exact hc
  unfold tile_fetch
  rw [fetch_tile_transform_hit _ _ _ _ _ _ _ _ _ hr]
  refine ⟨rfl, ?_, ?_⟩
  · show (fopen_r _ _).2.fs = _
    rw [fopen_r_fs]
    rfl
  · rw [bad_emit, bad_fopen_r, bad_emit]
    rfl

theorem same_program_after {G H : Host} (h : G.same_program H) (E : Env)
    (tr : cl_float4 × cl_float4) (npts : Nat) (cp : List cl_float2) (cv : List cl_float) :
    G.pts_after npts cp = H.pts_after npts cp ∧ G.vals_after npts cv = H.vals_after npts cv ∧
    G.image_after E tr npts cp cv = H.image_after E tr npts cp cv := by
  obtain ⟨-, -, -, -, h5, h6, h7, h8⟩ := h
  unfold Host.image_after Host.pts_after Host.vals_after
  rw [h5, h6, h7, h8]
  exact ⟨rfl, rfl, rfl⟩

theorem tile_step_again (E : Env) (args : arguments) (datalen : Nat)
    (datapts : List cl_float2) (datavals : List cl_float) (tx ty : Nat) (H H2 G : Host)
    (hpts : datapts.length = datalen) (hvals : datavals.length = datalen)
    (hcp : H.chosenpts.length = datalen) (hcv : H.chosenvals.length = datalen)
    (h32 : datalen < 4294967296) (hcm : args.colormap.length = E.COLORMAP_LEN)
    (hrun : process_tile E args datalen datapts datavals tx ty H = Outcome.running H2)
    (hprog : G.same_program H)
    (hset : settled E args datapts (tx, ty) G.world.fs H.tr H2.tr H2.tile)
    (b : Nat) (hblank : G.world.fs.names (key_blank G.world.fs.cwd args) = some (Node.file b)) :
    ∃ G2, process_tile E args datalen datapts datavals tx ty G = Outcome.running G2 ∧
      G2.world.fs = G.world.fs ∧ G2.same_program H2 ∧
      bad G2.world.trace = bad G.world.trace := by
  obtain ⟨cp, cv, hsel, -, -⟩ :=
    select_points_count (E.rect_is_inside (tile_footprint E args tx ty)) datalen datapts datavals
      H.chosenpts H.chosenvals hpts hvals hcp hcv h32
  rw [tile_npts_eq] at hsel
  have hselG : select_points (E.rect_is_inside (tile_footprint E args tx ty)) datalen datapts
      datavals G.chosenpts G.chosenvals = some (tile_npts E args datapts tx ty, cp, cv) := by
    rw [hprog.2.1, hprog.2.2.1]; exact hsel
  obtain ⟨⟨c, hc, hfr⟩, hs0, hs1⟩ := hset
  obtain ⟨f1, f2, f3⟩ := tile_fetch_hit E args tx ty G c hc
  rw [hprog.1, hfr] at f1
  have hstG := tile_fetch_cl_status E args tx ty G
  have hstH := tile_fetch_cl_status E args tx ty H
  obtain ⟨p1, p2, p3, p4, p5, p6, p7, p8⟩ := hprog
  by_cases hz : tile_npts E args datapts tx ty = 0
  · rw [hz] at hsel hselG
    rw [process_tile_empty E args datalen datapts datavals tx ty H cp cv hsel] at hrun
    rw [process_tile_empty E args datalen datapts datavals tx ty G cp cv hselG]
    have hinj := Outcome.running.inj hrun
    have htr : H2.tr = (tile_fetch E args tx ty H).1 := by rw [← hinj]
    have hc1 : H2.chosenpts = cp := by rw [← hinj]
    have hc2 : H2.chosenvals = cv := by rw [← hinj]
    have ht : H2.tile = List.replicate (E.TILE_SIZE * E.TILE_SIZE) 0 := by rw [← hinj]
    have hp1 : H2.pts_cl = H.pts_cl := by rw [← hinj]
    have hp2 : H2.vals_cl = H.vals_cl := by rw [← hinj]
    have hp3 : H2.tile_cl = H.tile_cl := by rw [← hinj]
    have hst2 : H2.world.cl_status = H.world.cl_status := by
      rw [← hinj]
      show (link _ _ _).2.cl_status = _
      rw [cl_status_link]
      exact hstH
    have hlfs := link_world_fs E args tx ty G
    have hlbad := link_world_bad E args tx ty G
    have hlst : (link_world E args tx ty G).cl_status = G.world.cl_status := hstG
    clear hrun hinj
    generalize link_world E args tx ty G = lw at hlfs hlbad hlst
    generalize tile_fetch E args tx ty G = tf at f1 f2 f3 hlfs hlbad hstG
    have hkn := hs0 hz
    have hl := link_exists lw (blankfilepath args.outdir)
      (tile_path args.outdir args.zoomlevel tx ty) (blankfilepath_ne_nil _)
      (tile_path_ne_nil _ _ _ _) b (by rw [hlfs, f2]; exact hblank)
      (by rw [hlfs, f2]; exact hkn)
    refine ⟨_, rfl, ?_, ?_, ?_⟩
    · show ((link lw _ _).2.emit _).fs = _
      rw [hl, emit_fs]
      show lw.fs = _
      rw [hlfs, f2]
    · refine ⟨?_, ?_, ?_, ?_, ?_, ?_, ?_, ?_⟩
      · show tf.1 = _
        rw [f1]
      · exact hc1.symm
      · exact hc2.symm
      · exact ht.symm
      · show G.pts_cl = _
        rw [hp1, p5]
      · show G.vals_cl = _
        rw [hp2, p6]
      · show G.tile_cl = _
        rw [hp3, p7]
      · show ((link lw _ _).2.emit _).cl_status = _
        rw [hl, hst2]
        show lw.cl_status = _
        rw [hlst, p8]
    · show bad ((link lw _ _).2.emit _).trace = _
      rw [hl, bad_emit, bad_fail_link, hlbad, f3]
      simp [Event.is_bad]
  · by_cases hok : checked_calls_succeed H.world.cl_status = true
    · have hokG : checked_calls_succeed G.world.cl_status = true := by rw [p8]; exact hok
      rw [process_tile_nonempty_ok E args datalen datapts datavals tx ty H _ cp cv hsel hz hok]
        at hrun
      rw [process_tile_nonempty_ok E args datalen datapts datavals tx ty G _ cp cv hselG hz hokG]
      obtain ⟨q1, q2, q3⟩ := same_program_after ⟨p1, p2, p3, p4, p5, p6, p7, p8⟩ E
        (tile_fetch E args tx ty G).1 (tile_npts E args datapts tx ty) cp cv
      cases hwH : write_png E.png_encode E.COLORMAP_LEN (encode_world E args tx ty H)
          (tile_path args.outdir args.zoomlevel tx ty) E.TILE_SIZE E.TILE_SIZE
          (read_tile E (H.world.cl_status.getD 10 CL_SUCCESS)
            (H.image_after E (tile_fetch E args tx ty H).1 (tile_npts E args datapts tx ty) cp cv))
          args.colormap with
      | none =>
        rw [hwH] at hrun
        exact absurd hrun (by simp)
      | some wH =>
        rw [hwH] at hrun
        have hinj := Outcome.running.inj hrun
        have htr : H2.tr = (tile_fetch E args tx ty H).1 := by rw [← hinj]
        have hti : H2.tile = read_tile E (H.world.cl_status.getD 10 CL_SUCCESS)
            (H.image_after E (tile_fetch E args tx ty H).1 (tile_npts E args datapts tx ty) cp cv) := by
          rw [← hinj]
        have hc1 : H2.chosenpts = cp := by rw [← hinj]
        have hc2 : H2.chosenvals = cv := by rw [← hinj]
        have hp1 : H2.pts_cl = H.pts_after (tile_npts E args datapts tx ty) cp := by rw [← hinj]
        have hp2 : H2.vals_cl = H.vals_after (tile_npts E args datapts tx ty) cv := by rw [← hinj]
        have hp3 : H2.tile_cl = H.image_after E (tile_fetch E args tx ty H).1
            (tile_npts E args datapts tx ty) cp cv := by rw [← hinj]
        have hst2 : H2.world.cl_status = H.world.cl_status.drop 11 := by
          rw [← hinj]
          show wH.cl_status = _
          rw [cl_status_write_png _ _ _ _ _ _ _ _ hwH]
          rfl
        clear hrun hinj hwH
        rw [← htr] at hti hp3
        rw [f1] at q3 ⊢
        rw [p8, q1, q2, q3, ← hti, ← hp1, ← hp2, ← hp3]
        have hlen : H2.tile.length = E.TILE_SIZE * E.TILE_SIZE := by
          rw [hti]
          exact read_tile_length E _ _ (fit_length _ _)
        obtain ⟨im, him⟩ := write_png_image_square E.COLORMAP_LEN E.TILE_SIZE _ args.colormap
          hcm hlen
        have hpb : png_bytes E args.colormap H2.tile = E.png_encode im := by
          unfold png_bytes
          rw [him]
        obtain ⟨hrd, j, hj⟩ := hs1 hz
        have hefs := encode_world_fs E args tx ty G
        have hebad := encode_world_bad E args tx ty G
        have hest : (encode_world E args tx ty G).cl_status = G.world.cl_status.drop 11 := rfl
        generalize encode_world E args tx ty G = ew at hefs hebad hest
        generalize tile_fetch E args tx ty G = tf at f1 f2 f3 hefs hebad hstG
        obtain ⟨w2, hw2, hfs2, hb2⟩ := write_png_file E.png_encode E.COLORMAP_LEN E.TILE_SIZE ew
          (tile_path args.outdir args.zoomlevel tx ty) H2.tile args.colormap
          (tile_path_ne_nil _ _ _ _) im him j (by rw [hefs, f2]; exact hj)
        rw [hw2]
        have hdata : G.world.fs.data j = E.png_encode im := by
          unfold FS.read at hrd
          rw [hj] at hrd
          simp only [Option.some.injEq] at hrd
          rw [hrd, hpb]
        refine ⟨_, rfl, ?_, ?_, ?_⟩
        · show (w2.emit _).fs = _
          rw [emit_fs, hfs2, hefs, f2, ← hdata]
          exact FS.put_self _ _
        · refine ⟨rfl, hc1.symm, hc2.symm, rfl, rfl, rfl, rfl, ?_⟩
          show w2.cl_status = _
          rw [cl_status_write_png _ _ _ _ _ _ _ _ hw2, hest, hst2, p8]
        · show bad (w2.emit _).trace = _
          rw [bad_emit, hb2, hebad, f3]
          rfl
    · have hnr := process_tile_nonempty_not_ok E args datalen datapts datavals tx ty H _ cp cv
        hsel hz (by simpa using hok)
      rw [hrun] at hnr
      simp [Outcome.is_running] at hnr

theorem bad_le_link (w : World) (old new : CStr) : bad w.trace ≤ bad (link w old new).2.trace := by
  rcases link_spec w old new with ⟨b, _, _, he⟩ | ⟨e, he, _⟩
  · rw [he]
  · rw [he]; exact bad_fail_le _ _ _ _

theorem bad_le_fopen_w (w : World) (path : CStr) : bad w.trace ≤ bad (fopen_w w path).2.trace := by
  by_cases hp : path = []
  · simp [fopen_w, hp, bad_fail_fopen]
  · rcases fopen_w_spec w path hp with ⟨j, _, he⟩ | ⟨_, he⟩ | ⟨e, he⟩
    · rw [he]
    · rw [he]
    · rw [he, bad_fail_fopen]

theorem bad_le_write_png (enc : PngImage → List Nat) (n : Nat) (w : World) (fname : CStr)
    (T : Nat) (img : List Nat) (colormap : List rgba_t) (w2 : World)
    (hw : write_png enc n w fname T T img colormap = some w2) :
    bad w.trace ≤ bad w2.trace := by
  unfold write_png at hw
  dsimp only at hw
  have h3 := bad_le_fopen_w (w.emit (Event.write_png fname)) fname
  rw [bad_emit] at h3
  generalize fopen_w (w.emit (Event.write_png fname)) fname = r at hw h3
  obtain ⟨o, w3⟩ := r
  cases o with
  | none =>
    simp only [Option.some.injEq] at hw
    rw [← hw, bad_emit]
    simp only at h3
    omega
  | some f =>
    simp only at hw h3
    cases him : write_png_image n T T img colormap with
    | none => rw [him] at hw; exact absurd hw (by simp)
    | some im =>
      rw [him] at hw
      simp only [Option.some.injEq] at hw
      rw [← hw]
      show _ ≤ bad w3.trace
      omega

theorem bad_le_fetch (gen : Int → Int → Int → projPJ → cl_float4 × cl_float4)
    (z x y : Int) (cachedir : CStr) (proj_meters : projPJ) (out : cl_float4 × cl_float4)
    (w : World) :
    bad w.trace ≤ bad (fetch_tile_transform gen z x y cachedir proj_meters out w).2.trace := by
  cases hr : (fopen_r w (cache_path cachedir z x y)).1 with
  | some c =>
    rw [fetch_tile_transform_hit _ _ _ _ _ _ _ _ _ hr]
    simp only
    rw [bad_emit, bad_fopen_r]
    omega
  | none =>
    rw [fetch_tile_transform_miss _ _ _ _ _ _ _ _ hr]
    have h1 := (cache_write_world_dirs cachedir z x y w).2
    have h2 := bad_le_fopen_w (cache_write_world cachedir z x y w) (cache_path cachedir z x y)
    generalize fopen_w (cache_write_world cachedir z x y w) (cache_path cachedir z x y) = r at h2
    obtain ⟨o, w3⟩ := r
    cases o with
    | none =>
      simp only at h2 ⊢
      rw [bad_emit]
      omega
    | some f =>
      simp only at h2 ⊢
      show _ ≤ bad (w3.emit _).trace
      rw [bad_emit]
      omega

theorem bad_le_tile_fetch (E : Env) (args : arguments) (tx ty : Nat) (h : Host) :
    bad h.world.trace ≤ bad (tile_fetch E args tx ty h).2.trace := by
  unfold tile_fetch
  have := bad_le_fetch E.generate_translation_tile args.zoomlevel (int_of_uint tx)
    (int_of_uint ty) args.outdir args.proj_meters h.tr
    (h.world.emit (Event.log_info "Processing (%d,%d)"))
  rw [bad_emit] at this
  omega

theorem bad_le_process_tile (E : Env) (args : arguments) (datalen : Nat)
    (datapts : List cl_float2) (datavals : List cl_float) (tx ty : Nat) (H H2 : Host)
    (hrun : process_tile E args datalen datapts datavals tx ty H = Outcome.running H2) :
    bad H.world.trace ≤ bad H2.world.trace := by
  have hf := bad_le_tile_fetch E args tx ty H
  cases hsel : select_points (E.rect_is_inside (tile_footprint E args tx ty)) datalen datapts
      datavals H.chosenpts H.chosenvals with
  | none =>
    unfold process_tile at hrun
    simp only [hsel] at hrun
    exact absurd hrun (by simp)
  | some r =>
    obtain ⟨npts, cp, cv⟩ := r
    by_cases hz : npts = 0
    · subst hz
      rw [process_tile_empty E args datalen datapts datavals tx ty H cp cv hsel] at hrun
      have hinj := Outcome.running.inj hrun
      have hw2 : H2.world = (link (link_world E args tx ty H) (blankfilepath args.outdir)
          (tile_path args.outdir args.zoomlevel tx ty)).2.emit
          (Event.log_info " linked %s to %s") := by rw [← hinj]
      have h1 := bad_le_link (link_world E args tx ty H) (blankfilepath args.outdir)
          (tile_path args.outdir args.zoomlevel tx ty)
      rw [link_world_bad] at h1
      rw [hw2, bad_emit]
      omega
    · by_cases hok : checked_calls_succeed H.world.cl_status = true
      · rw [process_tile_nonempty_ok E args datalen datapts datavals tx ty H _ cp cv hsel hz hok]
          at hrun
        cases hw : write_png E.png_encode E.COLORMAP_LEN (encode_world E args tx ty H)
            (tile_path args.outdir args.zoomlevel tx ty) E.TILE_SIZE E.TILE_SIZE
            (read_tile E (H.world.cl_status.getD 10 CL_SUCCESS)
              (H.image_after E (tile_fetch E args tx ty H).1 npts cp cv))
            args.colormap with
        | none =>
          rw [hw] at hrun
          exact absurd hrun (by simp)
        | some w2 =>
          rw [hw] at hrun
          have hinj := Outcome.running.inj hrun
          have hw2 : H2.world = w2.emit (Event.log_info " wrote %s") := by rw [← hinj]
          have h1 := bad_le_write_png _ _ _ _ _ _ _ _ hw
          rw [encode_world_bad] at h1
          rw [hw2, bad_emit]
          omega
      · have hnr := process_tile_nonempty_not_ok E args datalen datapts datavals tx ty H _ cp cv
          hsel hz (by simpa using hok)
        rw [hrun] at hnr
        simp [Outcome.is_running] at hnr

theorem tile_loop_cons_running (E : Env) (args : arguments) (datalen : Nat)
    (datapts : List cl_float2) (datavals : List cl_float) (t : Nat × Nat)
    (tiles : List (Nat × Nat)) (H Hn : Host)
    (hrun : tile_loop E args datalen datapts datavals (t :: tiles) H = Outcome.running Hn) :
    ∃ H1, process_tile E args datalen datapts datavals t.1 t.2 H = Outcome.running H1 ∧
      tile_loop E args datalen datapts datavals tiles H1 = Outcome.running Hn := by
  obtain ⟨tx, ty⟩ := t
  simp only [tile_loop] at hrun
  cases hp : process_tile E args datalen datapts datavals tx ty H with
  | running H1 =>
    rw [hp] at hrun
    exact ⟨H1, rfl, hrun⟩
  | exited H1 =>
    rw [hp] at hrun
    exact absurd hrun (by simp)
  | undefined =>
    rw [hp] at hrun
    exact absurd hrun (by simp)

theorem bad_le_tile_loop (E : Env) (args : arguments) (datalen : Nat)
    (datapts : List cl_float2) (datavals : List cl_float) :
    ∀ (tiles : List (Nat × Nat)) (H Hn : Host),
      tile_loop E args datalen datapts datavals tiles H = Outcome.running Hn →
      bad H.world.trace ≤ bad Hn.world.trace := by
  intro tiles
  induction tiles with
  | nil =>
    intro H Hn hrun
    simp only [tile_loop] at hrun
    cases hrun
    exact le_refl _
  | cons t tiles ih =>
    intro H Hn hrun
    obtain ⟨H1, h1, h2⟩ := tile_loop_cons_running E args datalen datapts datavals t tiles H Hn hrun
    exact le_trans (bad_le_process_tile _ _ _ _ _ _ _ _ _ h1) (ih H1 Hn h2)

theorem settled_upds {P R : Key → Prop} {kb : Key} {W : Key → Prop} (hRb : R kb) (hPb : ¬ P kb)
    (E : Env) (args : arguments) (datapts : List cl_float2) (t : Nat × Nat) {f g : FS}
    (tr0 tr1 : cl_float4 × cl_float4) (tile : List Nat)
    (h : upds P R kb W f g) (hwf : f.wf) (hal : no_alias P R f)
    (hRm : R (key_map f.cwd args t)) (hRp : R (key_png f.cwd args t))
    (hWm : ¬ W (key_map f.cwd args t)) (hWp : ¬ W (key_png f.cwd args t))
    (hs : settled E args datapts t f tr0 tr1 tile) :
    settled E args datapts t g tr0 tr1 tile := by
  obtain ⟨i1, i2, i3, i4, i5⟩ := upds_inv hRb hPb h hwf hal
  obtain ⟨⟨c, hc, hfr⟩, hs0, hs1⟩ := hs
  unfold settled
  rw [i3]
  refine ⟨⟨c, i5 _ c hRm hWm hc, hfr⟩, fun hz => ?_, fun hz => ?_⟩
  · have := hs0 hz
    cases hn : f.names (key_png f.cwd args t) with
    | none => exact absurd hn this
    | some nd => rw [i4 _ nd hn]; simp
  · obtain ⟨hrd, j, hj⟩ := hs1 hz
    exact ⟨i5 _ _ hRp hWp hrd, j, i4 _ _ hj⟩

theorem tile_loop_twice (P R : Key → Prop) (kb : Key) (E : Env) (args : arguments)
    (datalen : Nat) (datapts : List cl_float2) (datavals : List cl_float) (cwd : Key)
    (hpts : datapts.length = datalen) (hvals : datavals.length = datalen)
    (h32 : datalen < 4294967296) (hcm : args.colormap.length = E.COLORMAP_LEN)
    (hkb : kb = key_blank cwd args) (hRb : R kb) (hPb : ¬ P kb) :
    ∀ (tiles : List (Nat × Nat)) (H Hn : Host),
      H.world.fs.cwd = cwd →
      H.chosenpts.length = datalen → H.chosenvals.length = datalen →
      (∀ t ∈ tiles, R (key_map cwd args t) ∧ R (key_png cwd args t) ∧
        key_map cwd args t ≠ key_png cwd args t ∧
        (tile_npts E args datapts t.1 t.2 ≠ 0 → P (key_png cwd args t)) ∧
        (tile_npts E args datapts t.1 t.2 = 0 → ¬ P (key_png cwd args t))) →
      tiles.Pairwise (keys_apart cwd args) →
      H.world.fs.wf → no_alias P R H.world.fs →
      tile_loop E args datalen datapts datavals tiles H = Outcome.running Hn →
      bad Hn.world.trace = 0 →
      bad H.world.trace = 0 ∧
      upds P R kb (tile_keys cwd args tiles) H.world.fs Hn.world.fs ∧
      ∀ (G : Host) (b : Nat), G.same_program H → G.world.fs = Hn.world.fs →
        Hn.world.fs.names kb = some (Node.file b) →
        ∃ Gn, tile_loop E args datalen datapts datavals tiles G = Outcome.running Gn ∧
          Gn.world.fs = Hn.world.fs ∧ Gn.same_program Hn ∧
          bad Gn.world.trace = bad G.world.trace := by
  intro tiles
  induction tiles with
  | nil =>
    intro H Hn _ _ _ _ _ _ _ hrun hbad
    simp only [tile_loop] at hrun
    have hinj := Outcome.running.inj hrun
    subst hinj
    refine ⟨hbad, upds.refl _, fun G b hp hfs _ => ⟨G, rfl, hfs, hp, rfl⟩⟩
  | cons t tiles ih =>
    intro H Hn hcwd hcp hcv hctx hpw hwf hal hrun hbad
    obtain ⟨H1, h1, h2⟩ := tile_loop_cons_running E args datalen datapts datavals t tiles H Hn hrun
    have hb1 : bad H1.world.trace = 0 := by
      have := bad_le_tile_loop E args datalen datapts datavals tiles H1 Hn h2
      omega
    obtain ⟨cRm, cRp, cne, cP1, cP0⟩ := hctx t (List.mem_cons_self _ _)
    have hWm : tile_keys cwd args (t :: tiles) (key_map cwd args t) :=
      ⟨t, List.mem_cons_self _ _, Or.inl rfl⟩
    have hWp : tile_keys cwd args (t :: tiles) (key_png cwd args t) :=
      ⟨t, List.mem_cons_self _ _, Or.inr rfl⟩
    obtain ⟨s1, s2, s3, s4, s5⟩ := tile_step_first P R kb (tile_keys cwd args (t :: tiles)) E args
      datalen datapts datavals t.1 t.2 H H1 hpts hvals hcp hcv h32 hcm (by rw [hcwd]; exact hkb)
      (by rw [hcwd]; exact hWm) (by rw [hcwd]; exact cRm) (by rw [hcwd]; exact hWp)
      (by rw [hcwd]; exact cRp) (by rw [hcwd]; exact cne) (by rw [hcwd]; exact cP1)
      (by rw [hcwd]; exact cP0) hRb hPb hwf hal h1 hb1
    obtain ⟨i1, i2, i3, i4, i5⟩ := upds_inv hRb hPb s2 hwf hal
    have hcwd1 : H1.world.fs.cwd = cwd := by rw [i3, hcwd]
    obtain ⟨j1, j2, j3⟩ := ih H1 Hn hcwd1 s3 s4
      (fun u hu => hctx u (List.mem_cons_of_mem _ hu)) (List.pairwise_cons.1 hpw).2 i1 i2 h2 hbad
    have hsub : ∀ k, tile_keys cwd args tiles k → tile_keys cwd args (t :: tiles) k :=
      fun k ⟨u, hu, hk⟩ => ⟨u, List.mem_cons_of_mem _ hu, hk⟩
    refine ⟨s1, upds_trans s2 (upds_mono hsub j2), fun G b hp hfs hb => ?_⟩
    have hapart := (List.pairwise_cons.1 hpw).1
    have hnWm : ¬ tile_keys cwd args tiles (key_map cwd args t) := by
      rintro ⟨u, hu, hk | hk⟩
      · exact (hapart u hu).1 hk
      · exact (hapart u hu).2.1 hk
    have hnWp : ¬ tile_keys cwd args tiles (key_png cwd args t) := by
      rintro ⟨u, hu, hk | hk⟩
      · exact (hapart u hu).2.2.1 hk
      · exact (hapart u hu).2.2.2 hk
    have hsetn : settled E args datapts t Hn.world.fs H.tr H1.tr H1.tile :=
      settled_upds hRb hPb E args datapts t H.tr H1.tr H1.tile j2 i1 i2
        (by rw [hcwd1]; exact cRm) (by rw [hcwd1]; exact cRp)
        (by rw [hcwd1]; exact hnWm) (by rw [hcwd1]; exact hnWp) s5
    have hcwdn : Hn.world.fs.cwd = cwd := by
      rw [(upds_inv hRb hPb j2 i1 i2).2.2.1, hcwd1]
    obtain ⟨G1, g1, g2, g3, g4⟩ := tile_step_again E args datalen datapts datavals t.1 t.2 H H1 G
      hpts hvals hcp hcv h32 hcm h1 hp (by rw [hfs]; exact hsetn) b
      (by rw [hfs, hcwdn, ← hkb]; exact hb)
    obtain ⟨Gn, k1, k2, k3, k4⟩ := j3 G1 b g3 (by rw [g2, hfs]) hb
    refine ⟨Gn, ?_, k2, k3, by rw [k4, g4]⟩
    obtain ⟨tx, ty⟩ := t
    simp only [tile_loop]
    rw [g1]
    exact k1

theorem mkdir_exists (w : World) (path : CStr) (hp : path ≠ [])
    (hk : w.fs.names (resolve w.fs.cwd path) ≠ none) :
    mkdir w path = (-1, w.fail Syscall.mkdir path EEXIST) := by
  cases hn : w.fs.names (resolve w.fs.cwd path) with
  | none => exact absurd hn hk
  | some nd => simp [mkdir, hp, hn]

theorem zpath_ne_nil (args : arguments) : zpath args ≠ [] := by
  unfold zpath
  apply snprintf_ne_nil
  simp

theorem render_eq (E : Env) (args : arguments) (datalen : Nat) (datapts : List cl_float2)
    (datavals : List cl_float) (tiles : List (Nat × Nat)) (start : Host) :
    render E args datalen datapts datavals tiles start =
      tile_loop E args datalen datapts datavals tiles
        { start with world := write_blank E args (mkdir start.world (zpath args)).2
                     chosenpts := List.replicate datalen ⟨0, 0⟩
                     chosenvals := List.replicate datalen 0 } := rfl

theorem mkdir_first (w : World) (path : CStr) (hbad : bad (mkdir w path).2.trace = 0) :
    bad w.trace = 0 ∧ dirs_added w.fs (mkdir w path).2.fs ∧
    (mkdir w path).2.fs.names (resolve w.fs.cwd path) ≠ none ∧
    (mkdir w path).2.cl_status = w.cl_status := by
  have hst := cl_status_mkdir w path
  rcases mkdir_spec w path with ⟨hn, he⟩ | ⟨e, he, hex⟩
  · rw [he] at hbad ⊢
    exact ⟨hbad, dirs_added_bind _ _ hn, by simp [FS.bind], rfl⟩
  · rw [he] at hbad ⊢
    rw [bad_fail_mkdir] at hbad
    have he2 : e = EEXIST := by
      by_contra hc
      simp [hc] at hbad
    exact ⟨by omega, dirs_added_refl _, hex he2, rfl⟩

theorem write_blank_first (P R : Key → Prop) (E : Env) (args : arguments) (w : World)
    (hwf : w.fs.wf) (hal : no_alias P R w.fs)
    (hbad : bad (write_blank E args w).trace = 0) :
    bad w.trace = 0 ∧ (write_blank E args w).fs.wf ∧ no_alias P R (write_blank E args w).fs ∧
    (write_blank E args w).fs.cwd = w.fs.cwd ∧
    (∀ k nd, w.fs.names k = some nd → (write_blank E args w).fs.names k = some nd) ∧
    (write_blank E args w).fs.read (key_blank w.fs.cwd args) = some E.blank_tile_png ∧
    (∃ b, (write_blank E args w).fs.names (key_blank w.fs.cwd args) = some (Node.file b)) ∧
    (write_blank E args w).cl_status = w.cl_status := by
  have hst := cl_status_fopen_w w (blankfilepath args.outdir)
  unfold write_blank at hbad ⊢
  rcases fopen_w_spec w (blankfilepath args.outdir) (blankfilepath_ne_nil _) with
    ⟨j, hj, he⟩ | ⟨hn, he⟩ | ⟨e, he⟩
  · rw [he] at hbad ⊢
    simp only at hbad ⊢
    have hfs : (fwrite { w with fs := w.fs.put j [] } j E.blank_tile_png).fs =
        w.fs.put j E.blank_tile_png := fwrite_put _ _ _ _ rfl
    rw [hfs]
    refine ⟨hbad, wf_put _ _ hwf, no_alias_put _ _ hal, rfl, fun k nd hk => hk, ?_, ⟨j, hj⟩, rfl⟩
    unfold key_blank
    simp [FS.read, FS.put, hj]
  · rw [he] at hbad ⊢
    simp only at hbad ⊢
    have hfs : (fwrite { w with fs := w.fs.create (resolve w.fs.cwd (blankfilepath args.outdir)) [] }
        w.fs.next E.blank_tile_png).fs =
        w.fs.create (resolve w.fs.cwd (blankfilepath args.outdir)) E.blank_tile_png :=
      fwrite_create _ _ _ _ rfl
    rw [hfs]
    refine ⟨hbad, wf_create _ _ hwf, no_alias_create _ _ hwf hal, rfl, fun k nd hk => ?_, ?_,
      ⟨w.fs.next, ?_⟩, rfl⟩
    · have hne : k ≠ resolve w.fs.cwd (blankfilepath args.outdir) := by
        intro e
        rw [e, hn] at hk
        exact absurd hk (by simp)
      simpa [FS.create, hne] using hk
    · unfold key_blank
      simp [FS.read, FS.create]
    · unfold key_blank
      simp [FS.create]
  · rw [he] at hbad
    simp only at hbad
    rw [bad_emit] at hbad
    simp [Event.is_bad] at hbad

theorem write_blank_again (E : Env) (args : arguments) (w : World) (b : Nat)
    (hb : w.fs.names (key_blank w.fs.cwd args) = some (Node.file b))
    (hd : w.fs.data b = E.blank_tile_png) :
    (write_blank E args w).fs = w.fs ∧ bad (write_blank E args w).trace = bad w.trace ∧
    (write_blank E args w).cl_status = w.cl_status := by
  unfold write_blank
  rw [fopen_w_file w (blankfilepath args.outdir) (blankfilepath_ne_nil _) b hb]
  simp only
  refine ⟨?_, rfl, rfl⟩
  rw [fwrite_put _ w.fs b _ rfl, ← hd]
  exact FS.put_self _ _

theorem process_tile_raster (E : Env) (args : arguments) (datalen : Nat)
    (datapts : List cl_float2) (datavals : List cl_float) (tx ty : Nat) (h : Host)
    (raster : List Nat) :
    process_tile E args datalen datapts datavals tx ty { h with tile := raster } =
      process_tile E args datalen datapts datavals tx ty h := rfl

theorem tile_loop_raster (E : Env) (args : arguments) (datalen : Nat)
    (datapts : List cl_float2) (datavals : List cl_float) (tiles : List (Nat × Nat))
    (h Hn : Host) (raster : List Nat)
    (hrun : tile_loop E args datalen datapts datavals tiles h = Outcome.running Hn) :
    ∃ Gn, tile_loop E args datalen datapts datavals tiles { h with tile := raster } =
        Outcome.running Gn ∧ Gn.world = Hn.world := by
  cases tiles with
  | nil =>
    simp only [tile_loop] at hrun ⊢
    have e := Outcome.running.inj hrun
    exact ⟨_, rfl, by rw [← e]⟩
  | cons t ts =>
    obtain ⟨tx, ty⟩ := t
    simp only [tile_loop] at hrun ⊢
    rw [process_tile_raster]
    exact ⟨Hn, hrun, rfl⟩

theorem kept_keys_ctx (E : Env) (args : arguments) (datapts : List cl_float2) (cwd : Key)
    (tiles : List (Nat × Nat))
    (hkeys : ∀ t ∈ tiles, key_map cwd args t ≠ key_blank cwd args ∧
      key_png cwd args t ≠ key_blank cwd args ∧ key_map cwd args t ≠ key_png cwd args t)
    (hapart : ∀ t ∈ tiles, ∀ u ∈ tiles, t ≠ u → keys_apart cwd args t u) :
    run_keys cwd args tiles (key_blank cwd args) ∧
    ¬ kept_keys E args datapts cwd tiles (key_blank cwd args) ∧
    ¬ tile_keys cwd args tiles (key_blank cwd args) ∧
    ∀ t ∈ tiles, run_keys cwd args tiles (key_map cwd args t) ∧
      run_keys cwd args tiles (key_png cwd args t) ∧
      key_map cwd args t ≠ key_png cwd args t ∧
      (tile_npts E args datapts t.1 t.2 ≠ 0 →
        kept_keys E args datapts cwd tiles (key_png cwd args t)) ∧
      (tile_npts E args datapts t.1 t.2 = 0 →
        ¬ kept_keys E args datapts cwd tiles (key_png cwd args t)) := by
  refine ⟨Or.inl rfl, ?_, ?_, fun t ht => ⟨Or.inr ⟨t, ht, Or.inl rfl⟩, Or.inr ⟨t, ht, Or.inr rfl⟩,
    (hkeys t ht).2.2, fun hn => ⟨t, ht, Or.inr ⟨hn, rfl⟩⟩, ?_⟩⟩
  · rintro ⟨t, ht, h | ⟨_, h⟩⟩
    · exact (hkeys t ht).1 h.symm
    · exact (hkeys t ht).2.1 h.symm
  · rintro ⟨t, ht, h | h⟩
    · exact (hkeys t ht).1 h.symm
    · exact (hkeys t ht).2.1 h.symm
  · rintro h0 ⟨u, hu, h | ⟨hn, h⟩⟩
    · by_cases e : t = u
      · subst e
        exact (hkeys t ht).2.2 h.symm
      · exact (hapart t ht u hu e).2.2.1 h
    · by_cases e : t = u
      · subst e
        exact hn h0
      · exact (hapart t ht u hu e).2.2.2 h

/-- C5 (as amended): let the tile range list no tile twice, let the names of
`blank.png`, of the cache files and of the output files of its tiles be
pairwise different, and let the first run start in a file system in which no
cache file of these tiles, and no output file of a tile with points, has a
second name among them. Let the first run end normally and report no error (no
error message, no `exit`, no `mkdir` or `link` failing for another reason than
`EEXIST`). Let the second run start over the file system the first run left,
with the same OpenCL statuses to come and with the same contents in what `main`
does not initialise before the loop may read it: the array `tr` (which `fread`
leaves as it was where a cache path delivers less than two vectors), the two
device buffers and the device image. Then the second run also ends normally,
leaves that file system exactly as it was (so every output tile file, the blank
tile and every cache file keeps its bytes), and adds no error report: whatever
`mkdir` or `link` of the second run fails, fails with `EEXIST` and is ignored. -/
theorem render_again_idempotent (E : Env) (args : arguments) (datalen : Nat)
    (datapts : List cl_float2) (datavals : List cl_float) (tiles : List (Nat × Nat))
    (start h1 start2 : Host)
    (hpts : datapts.length = datalen) (hvals : datavals.length = datalen)
    (h32 : datalen < 4294967296) (hcm : args.colormap.length = E.COLORMAP_LEN)
    (hnodup : tiles.Nodup)
    (hkeys : ∀ t ∈ tiles,
      key_map start.world.fs.cwd args t ≠ key_blank start.world.fs.cwd args ∧
      key_png start.world.fs.cwd args t ≠ key_blank start.world.fs.cwd args ∧
      key_map start.world.fs.cwd args t ≠ key_png start.world.fs.cwd args t)
    (hapart : ∀ t ∈ tiles, ∀ u ∈ tiles, t ≠ u → keys_apart start.world.fs.cwd args t u)
    (hwf : start.world.fs.wf)
    (hal : no_alias (kept_keys E args datapts start.world.fs.cwd tiles)
      (run_keys start.world.fs.cwd args tiles) start.world.fs)
    (hrun : render E args datalen datapts datavals tiles start = Outcome.running h1)
    (hclean : bad h1.world.trace = 0)
    (hfs : start2.world.fs = h1.world.fs)
    (hst : start2.world.cl_status = start.world.cl_status)
    (htr : start2.tr = start.tr)
    (hdev : start2.pts_cl = start.pts_cl ∧ start2.vals_cl = start.vals_cl ∧
      start2.tile_cl = start.tile_cl) :
    ∃ h2, render E args datalen datapts datavals tiles start2 = Outcome.running h2 ∧
      h2.world.fs = h1.world.fs ∧ bad h2.world.trace = bad start2.world.trace := by
  obtain ⟨hRb, hPb, hWb, hctx⟩ := kept_keys_ctx E args datapts start.world.fs.cwd tiles hkeys hapart
  have hpw : tiles.Pairwise (keys_apart start.world.fs.cwd args) :=
    List.Pairwise.imp_of_mem (fun ha hb hne => hapart _ ha _ hb hne) hnodup
  rw [render_eq] at hrun ⊢
  -- the first run: directory of the zoom level and blank tile
  have hb2 := bad_le_tile_loop E args datalen datapts datavals tiles _ _ hrun
  have hbad2 : bad (write_blank E args (mkdir start.world (zpath args)).2).trace = 0 := by
    simp only at hb2
    omega
  have hd1 := (mkdir_dirs start.world (zpath args)).1
  have hcwd1 : (mkdir start.world (zpath args)).2.fs.cwd = start.world.fs.cwd := hd1.1
  obtain ⟨hbad1, hwf2, hal2, hcwd2, hmono2, hread2, ⟨b, hnb2⟩, hst2⟩ :=
    write_blank_first _ _ E args (mkdir start.world (zpath args)).2 (wf_dirs hd1 hwf)
      (no_alias_dirs hd1 hal) hbad2
  rw [hcwd1] at hread2 hnb2
  obtain ⟨-, -, hz1, hst1⟩ := mkdir_first start.world (zpath args) hbad1
  -- the tile loop of the first run
  obtain ⟨-, hup, hreplay⟩ := tile_loop_twice _ _ (key_blank start.world.fs.cwd args) E args
    datalen datapts datavals start.world.fs.cwd hpts hvals h32 hcm rfl hRb hPb tiles _ h1
    (hcwd2.trans hcwd1) (List.length_replicate _ _) (List.length_replicate _ _) hctx hpw
    hwf2 hal2 hrun hclean
  obtain ⟨-, -, hcwdn, hmonon, hreadn⟩ := upds_inv hRb hPb hup hwf2 hal2
  have hnbn := hmonon _ _ hnb2
  have hrbn := hreadn _ _ hRb hWb hread2
  have hdata : h1.world.fs.data b = E.blank_tile_png := by
    simpa [FS.read, hnbn] using hrbn
  have hzn : h1.world.fs.names (resolve start.world.fs.cwd (zpath args)) ≠ none := by
    cases hz : (mkdir start.world (zpath args)).2.fs.names (resolve start.world.fs.cwd (zpath args)) with
    | none => exact absurd hz hz1
    | some nd =>
      rw [hmonon _ _ (hmono2 _ _ hz)]
      simp
  have hcwds : start2.world.fs.cwd = start.world.fs.cwd := by
    rw [hfs, hcwdn, hcwd2, hcwd1]
  -- the second run: the directory exists, the blank tile is written again
  have hm2 : mkdir start2.world (zpath args) =
      (-1, start2.world.fail Syscall.mkdir (zpath args) EEXIST) :=
    mkdir_exists _ _ (zpath_ne_nil args) (by rw [hcwds, hfs]; exact hzn)
  obtain ⟨hwfs, hwbad, hwst⟩ := write_blank_again E args
    (start2.world.fail Syscall.mkdir (zpath args) EEXIST) b
    (by show start2.world.fs.names (key_blank start2.world.fs.cwd args) = _
        rw [hcwds, hfs]; exact hnbn)
    (by show start2.world.fs.data b = _
        rw [hfs]; exact hdata)
  rw [hm2]
  obtain ⟨Gn, hG, hGfs, -, hGbad⟩ := hreplay
    { start2 with world := write_blank E args (start2.world.fail Syscall.mkdir (zpath args) EEXIST)
                  chosenpts := List.replicate datalen ⟨0, 0⟩
                  chosenvals := List.replicate datalen 0
                  tile := start.tile } b
    ⟨htr, rfl, rfl, rfl, hdev.1, hdev.2.1, hdev.2.2, by
      show (write_blank E args (start2.world.fail Syscall.mkdir (zpath args) EEXIST)).cl_status =
        (write_blank E args (mkdir start.world (zpath args)).2).cl_status
      rw [hwst, hst2, hst1]
      exact hst⟩
    (by show (write_blank E args (start2.world.fail Syscall.mkdir (zpath args) EEXIST)).fs = _
        rw [hwfs]; exact hfs)
    hnbn
  -- the raster is written before it is read, so what it held at the start is immaterial
  obtain ⟨G2, hG2, hw2⟩ := tile_loop_raster E args datalen datapts datavals tiles _ Gn
    start2.tile hG
  refine ⟨G2, hG2, by rw [hw2]; exact hGfs, ?_⟩
  rw [hw2, hGbad]
  show bad (write_blank E args (start2.world.fail Syscall.mkdir (zpath args) EEXIST)).trace = _
  rw [hwbad, bad_fail_mkdir]
  simp

/-- C5, as stated, fails in three ways. (1) The output directory does not exist:
the first run creates `out` and then gives up on the tile (0, 0) (error messages,
no cache file, no tile, no blank tile); the second run over what it left creates
`out/blank.png`, the cache file and the tile. (2) `out/1/0/0.map` and
`out/1/0/0.png` are two names of one file: both runs end without any error
report, the first run leaves the tile with one content, and the second run, which
reads its transform from the bytes of that tile, leaves it with another. (3) The
cache path `out/1/0/0.map` is a directory: it opens, nothing is read from it, and
the kernel runs on what the array `tr` held; two runs that find other bytes in
`tr` end without any error report and leave the tile with different contents. -/
theorem render_again_changes_files :
    (∃ h1 h2,
      render example_env example_args 1 [⟨0, 0⟩] [7] [(0, 0)] (example_host home_fs 1 []) =
        Outcome.running h1 ∧
      render example_env example_args 1 [⟨0, 0⟩] [7] [(0, 0)] (example_host h1.world.fs 1 []) =
        Outcome.running h2 ∧
      h1.world.fs.content (blankfilepath example_args.outdir) = none ∧
      h2.world.fs.content (blankfilepath example_args.outdir) = some [137, 80, 78, 71] ∧
      h1.world.fs.content (cache_path example_args.outdir 1 0 0) = none ∧
      h2.world.fs.content (cache_path example_args.outdir 1 0 0) ≠ none ∧
      h1.world.fs.content (tile_path example_args.outdir 1 0 0) = none ∧
      h2.world.fs.content (tile_path example_args.outdir 1 0 0) =
        some [2, 2, 0, 255, 0, 255, 1, 1, 1, 1]) ∧
    (∃ h1 h2,
      render example_env_tr example_args 1 [⟨0, 0⟩] [7] [(0, 0)]
        (example_host home_fs_with_linked_cache 1 []) = Outcome.running h1 ∧
      render example_env_tr example_args 1 [⟨0, 0⟩] [7] [(0, 0)]
        (example_host h1.world.fs 1 []) = Outcome.running h2 ∧
      bad h1.world.trace = 0 ∧ bad h2.world.trace = 0 ∧
      h1.world.fs.content (tile_path example_args.outdir 1 0 0) =
        some (List.replicate 4 10 ++ List.replicate 28 0) ∧
      h2.world.fs.content (tile_path example_args.outdir 1 0 0) =
        some (List.replicate 4 11 ++ List.replicate 28 0)) ∧
    (∃ h1 h2,
      render example_env_tr example_args 1 [⟨0, 0⟩] [7] [(0, 0)]
        (example_host home_fs_with_cache_dir 1 []) = Outcome.running h1 ∧
      render example_env_tr example_args 1 [⟨0, 0⟩] [7] [(0, 0)]
        { example_host h1.world.fs 1 [] with tr := (⟨5, 0, 0, 0⟩, ⟨0, 0, 0, 0⟩) } =
        Outcome.running h2 ∧
      bad h1.world.trace = 0 ∧ bad h2.world.trace = 0 ∧
      h1.world.fs.content (tile_path example_args.outdir 1 0 0) =
        some (List.replicate 4 1 ++ List.replicate 28 0) ∧
      h2.world.fs.content (tile_path example_args.outdir 1 0 0) =
        some (List.replicate 4 6 ++ List.replicate 28 0)) := by
  refine ⟨⟨_, _, rfl, rfl, by decide, by decide, by decide, by decide, by decide, by decide⟩,
    ⟨_, _, rfl, rfl, by decide, by decide, by decide, by decide⟩,
    ⟨_, _, rfl, rfl, by decide, by decide, by decide, by decide⟩⟩

theorem home_fs_with_dir_out_no_file (k : Key) (i : Nat) :
    home_fs_with_dir_out.names k ≠ some (Node.file i) := by
  unfold home_fs_with_dir_out
  simp only
  split <;> simp

/-- C5 witness: one point, the tiles (0, 0) (which has it) and (0, 1) (which has
none), and an empty output directory `out`. The first run reports no error, and
the second run over what it left ends with the same file system and no error. -/
theorem render_again_idempotent_witness :
    ∃ h1 h2,
      render example_env example_args 1 [⟨0, 0⟩] [7] [(0, 0), (0, 1)]
        (example_host home_fs_with_dir_out 1 []) = Outcome.running h1 ∧
      bad h1.world.trace = 0 ∧
      h1.world.fs.content (tile_path example_args.outdir 1 0 0) =
        some [2, 2, 0, 255, 0, 255, 1, 1, 1, 1] ∧
      render example_env example_args 1 [⟨0, 0⟩] [7] [(0, 0), (0, 1)]
        (example_host h1.world.fs 1 []) = Outcome.running h2 ∧
      h2.world.fs = h1.world.fs ∧ bad h2.world.trace = 0 := by
  have hrun : render example_env example_args 1 [⟨0, 0⟩] [7] [(0, 0), (0, 1)]
      (example_host home_fs_with_dir_out 1 []) = Outcome.running _ := rfl
  obtain ⟨h2, e2, f2, b2⟩ := render_again_idempotent example_env example_args 1 [⟨0, 0⟩] [7]
    [(0, 0), (0, 1)] (example_host home_fs_with_dir_out 1 []) _ (example_host _ 1 [])
    rfl rfl (by decide) rfl (by decide) (by decide) (by decide)
    (fun k i hk => absurd hk (home_fs_with_dir_out_no_file k i))
    (fun k _ i _ _ _ hk => absurd hk (home_fs_with_dir_out_no_file k i))
    hrun (by decide) rfl rfl rfl ⟨rfl, rfl, rfl⟩
  exact ⟨_, h2, hrun, by decide, by decide, e2, f2, b2⟩

/-! ### What a tile leaves alone -/

theorem grows_refl (f : FS) : f.grows f :=
  ⟨rfl, le_refl _, fun _ _ h => h, fun _ _ h => Or.inl h, fun _ _ => rfl⟩

theorem grows_of_dirs {f g : FS} (h : dirs_added f g) : f.grows g :=
  ⟨h.1, le_of_eq h.2.2.1.symm, fun k nd hk => dirs_added_names h k nd hk,
    fun k i hk => Or.inl ((dirs_added_file h k i).1 hk), fun i _ => by rw [h.2.1]⟩

theorem grows_create (f : FS) (k : Key) (d : List Nat) (hn : f.names k = none) :
    f.grows (f.create k d) := by
  refine ⟨rfl, Nat.le_succ _, fun p nd hp => ?_, fun p i hp => ?_, fun i hi => ?_⟩
  · have hne : p ≠ k := by
      intro e
      rw [e, hn] at hp
      exact absurd hp (by simp)
    simpa [FS.create, hne] using hp
  · by_cases e : p = k
    · subst e
      have : i = f.next := by simpa [FS.create] using hp.symm
      exact Or.inr (le_of_eq this.symm)
    · exact Or.inl (by simpa [FS.create, e] using hp)
  · have hne : i ≠ f.next := by omega
    simp [FS.create, hne]

theorem grows_trans {f g h : FS} (h1 : f.grows g) (h2 : g.grows h) : f.grows h := by
  obtain ⟨a1, a2, a3, a4, a5⟩ := h1
  obtain ⟨b1, b2, b3, b4, b5⟩ := h2
  refine ⟨b1.trans a1, le_trans a2 b2, fun k nd hk => b3 k nd (a3 k nd hk), fun k i hk => ?_,
    fun i hi => ?_⟩
  · rcases b4 k i hk with e | e
    · exact a4 k i e
    · exact Or.inr (le_trans a2 e)
  · rw [b5 i (by omega), a5 i hi]

theorem fetch_grows (gen : Int → Int → Int → projPJ → cl_float4 × cl_float4)
    (z x y : Int) (cachedir : CStr) (proj_meters : projPJ) (out : cl_float4 × cl_float4)
    (w : World) (hwf : w.fs.wf) :
    w.fs.grows (fetch_tile_transform gen z x y cachedir proj_meters out w).2.fs ∧
    (fetch_tile_transform gen z x y cachedir proj_meters out w).2.fs.wf := by
  have hp := cache_path_ne_nil cachedir z x y
  have hfst := fopen_r_fst w (cache_path cachedir z x y) hp
  cases hr : (fopen_r w (cache_path cachedir z x y)).1 with
  | some c =>
    rw [fetch_tile_transform_hit _ _ _ _ _ _ _ _ _ hr]
    have hfs : ((fopen_r w (cache_path cachedir z x y)).2.emit
        (Event.log_info "Loaded cache file %s")).fs = w.fs := fopen_r_fs _ _
    simp only
    rw [hfs]
    exact ⟨grows_refl _, hwf⟩
  | none =>
    rw [fetch_tile_transform_miss _ _ _ _ _ _ _ _ hr]
    obtain ⟨hd, -⟩ := cache_write_world_dirs cachedir z x y w
    rcases fopen_w_spec (cache_write_world cachedir z x y w) (cache_path cachedir z x y) hp with
      ⟨j, hj, he⟩ | ⟨hn, he⟩ | ⟨e, he⟩
    · rw [he]
      simp only
      have hfs : (fwrite (World.emit
          { cache_write_world cachedir z x y w with
            fs := (cache_write_world cachedir z x y w).fs.put j [] }
          (Event.log_info "Generated cache file %s")) j (bytes_of_out (gen x y z proj_meters))).fs =
          (cache_write_world cachedir z x y w).fs.put j (bytes_of_out (gen x y z proj_meters)) :=
        fwrite_put _ _ _ _ rfl
      rw [hfs]
      -- the file was not there when `fopen(path, "r")` failed
      exfalso
      rw [hd.1] at hj
      have hj0 := (dirs_added_file hd _ j).1 hj
      rw [hr] at hfst
      simp [FS.read, hj0] at hfst
    · rw [he]
      simp only
      have hfs : (fwrite (World.emit
          { cache_write_world cachedir z x y w with
            fs := (cache_write_world cachedir z x y w).fs.create
              (resolve (cache_write_world cachedir z x y w).fs.cwd (cache_path cachedir z x y)) [] }
          (Event.log_info "Generated cache file %s")) (cache_write_world cachedir z x y w).fs.next
          (bytes_of_out (gen x y z proj_meters))).fs =
          (cache_write_world cachedir z x y w).fs.create
            (resolve (cache_write_world cachedir z x y w).fs.cwd (cache_path cachedir z x y))
            (bytes_of_out (gen x y z proj_meters)) :=
        fwrite_create _ _ _ _ rfl
      rw [hfs]
      exact ⟨grows_trans (grows_of_dirs hd) (grows_create _ _ _ hn),
        wf_create _ _ (wf_dirs hd hwf)⟩
    · rw [he]
      simp only
      exact ⟨grows_of_dirs hd, wf_dirs hd hwf⟩

theorem write_png_keeps (enc : PngImage → List Nat) (n T : Nat) (w : World) (fname : CStr)
    (img : List Nat) (colormap : List rgba_t) (hp : fname ≠ []) (im : PngImage)
    (him : write_png_image n T T img colormap = some im) (hwf : w.fs.wf) :
    ∃ w2, write_png enc n w fname T T img colormap = some w2 ∧ w2.fs.cwd = w.fs.cwd ∧
      ∀ k i, w.fs.names k = some (Node.file i) →
        w2.fs.names k = some (Node.file i) ∧
        (w.fs.names (resolve w.fs.cwd fname) ≠ some (Node.file i) →
          w2.fs.data i = w.fs.data i) ∧
        (w.fs.names (resolve w.fs.cwd fname) = some (Node.file i) →
          w2.fs.data i = enc im) := by
  rcases fopen_w_spec (w.emit (Event.write_png fname)) fname hp with
    ⟨j, hj, he⟩ | ⟨hn, he⟩ | ⟨e, he⟩
  · refine ⟨fwrite { w.emit (Event.write_png fname) with
        fs := (w.emit (Event.write_png fname)).fs.put j [] } j (enc im), ?_, ?_, ?_⟩
    · unfold write_png
      simp only [he, him]
    · rw [fwrite_put _ _ _ _ rfl]
      rfl
    · intro k i hk
      rw [fwrite_put _ _ _ _ rfl]
      refine ⟨hk, fun hne => ?_, fun he2 => ?_⟩
      · have hij : i ≠ j := by
          intro e
          subst e
          exact hne hj
        simp [FS.put, hij, World.emit]
      · have hij : i = j := by
          have h3 : some (Node.file j) = some (Node.file i) := hj.symm.trans he2
          simpa using h3.symm
        simp [FS.put, hij]
  · refine ⟨fwrite { w.emit (Event.write_png fname) with
        fs := (w.emit (Event.write_png fname)).fs.create
          (resolve (w.emit (Event.write_png fname)).fs.cwd fname) [] }
        (w.emit (Event.write_png fname)).fs.next (enc im), ?_, ?_, ?_⟩
    · unfold write_png
      simp only [he, him]
    · rw [fwrite_create _ _ _ _ rfl]
      rfl
    · intro k i hk
      rw [fwrite_create _ _ _ _ rfl]
      obtain ⟨-, -, g3, -, g5⟩ := grows_create w.fs (resolve w.fs.cwd fname) (enc im) hn
      exact ⟨g3 k _ hk, fun _ => g5 i (hwf k i hk), fun he2 => by
        have hn2 : w.fs.names (resolve w.fs.cwd fname) = none := hn
        rw [hn2] at he2
        exact absurd he2 (by simp)⟩
  · refine ⟨((w.emit (Event.write_png fname)).fail Syscall.fopen fname e).emit
        (Event.perror "Failed to write a file\n"), ?_, rfl, fun k i hk => ⟨hk, fun _ => rfl, ?_⟩⟩
    · unfold write_png
      simp only [he]
    · -- a path that names a file opens
      intro he2
      rw [fopen_w_file (w.emit (Event.write_png fname)) fname hp i he2] at he
      exact absurd (congrArg Prod.fst he) (by simp)

theorem content_eq_of_names {f g : FS} (p : CStr) (i : Nat) (hcwd : g.cwd = f.cwd)
    (hf : f.names (resolve f.cwd p) = some (Node.file i))
    (hg : g.names (resolve f.cwd p) = some (Node.file i)) (hd : g.data i = f.data i) :
    g.content p = f.content p := by
  simp only [FS.content, hcwd, hf, hg, hd]

theorem upload_world_fs (E : Env) (args : arguments) (tx ty : Nat) (h : Host) :
    (upload_world E args tx ty h).fs = (tile_fetch E args tx ty h).2.fs := by
  simp only [upload_world, World.after_cl, World.emit]

theorem tile_fetch_grows (E : Env) (args : arguments) (tx ty : Nat) (h : Host)
    (hwf : h.world.fs.wf) :
    h.world.fs.grows (tile_fetch E args tx ty h).2.fs ∧ (tile_fetch E args tx ty h).2.fs.wf :=
  fetch_grows E.generate_translation_tile args.zoomlevel (int_of_uint tx)
    (int_of_uint ty) args.outdir args.proj_meters h.tr
    (h.world.emit (Event.log_info "Processing (%d,%d)")) hwf

/-- C11 (as amended): a tile with at least one filtered point is processed to
the end of the loop body or to `exit`, and every path that named a regular file
before still names that file afterwards. The content of the file is what it was,
unless the file is the one that the tile's own output path named before (under
that path or under another name, a hard link). When the loop body reaches its
end, every path that named the file of the tile's own output path holds the
encoding of the new tile; when the tile ends in `exit`, every file has the
content it had. -/
theorem process_tile_keeps_other_files (E : Env) (args : arguments) (datalen : Nat)
    (datapts : List cl_float2) (datavals : List cl_float) (tx ty : Nat) (h : Host)
    (hpts : datapts.length = datalen) (hvals : datavals.length = datalen)
    (hcp : h.chosenpts.length = datalen) (hcv : h.chosenvals.length = datalen)
    (h32 : datalen < 4294967296) (hcm : args.colormap.length = E.COLORMAP_LEN)
    (hwf : h.world.fs.wf)
    (hnz : datapts.countP (E.rect_is_inside (tile_footprint E args tx ty)) ≠ 0) :
    ∃ w2, (process_tile E args datalen datapts datavals tx ty h).world = some w2 ∧
      (∀ (p : CStr) (i : Nat),
        h.world.fs.names (resolve h.world.fs.cwd p) = some (Node.file i) →
        w2.fs.names (resolve w2.fs.cwd p) = some (Node.file i) ∧
        (h.world.fs.names (resolve h.world.fs.cwd (tile_path args.outdir args.zoomlevel tx ty)) ≠
            some (Node.file i) →
          w2.fs.content p = h.world.fs.content p)) ∧
      (∀ h2, process_tile E args datalen datapts datavals tx ty h = Outcome.running h2 →
        ∀ (p : CStr) (i : Nat),
          h.world.fs.names (resolve h.world.fs.cwd p) = some (Node.file i) →
          h.world.fs.names (resolve h.world.fs.cwd (tile_path args.outdir args.zoomlevel tx ty)) =
            some (Node.file i) →
          h2.world.fs.content p = some (png_bytes E args.colormap h2.tile)) ∧
      (∀ h2, process_tile E args datalen datapts datavals tx ty h = Outcome.exited h2 →
        ∀ (p : CStr) (i : Nat),
          h.world.fs.names (resolve h.world.fs.cwd p) = some (Node.file i) →
          h2.world.fs.content p = h.world.fs.content p) := by
  obtain ⟨cp, cv, hsel, -, -⟩ := select_points_count
    (E.rect_is_inside (tile_footprint E args tx ty)) datalen datapts datavals
    h.chosenpts h.chosenvals hpts hvals hcp hcv h32
  rw [process_tile_nonempty E args datalen datapts datavals tx ty h _ cp cv hsel hnz]
  -- the file system when the OpenCL calls begin
  obtain ⟨hg1, hwf2⟩ := tile_fetch_grows E args tx ty h hwf
  rw [← upload_world_fs] at hg1 hwf2
  generalize tile_fetch E args tx ty h = tf at *
  generalize upload_world E args tx ty h = wu at *
  obtain ⟨g1, g2, g3, g4, g5⟩ := hg1
  by_cases hall : ∀ i, i < checked_events.length → wu.cl_status.getD i CL_SUCCESS = CL_SUCCESS
  · rw [checked_calls_ok checked_events wu hall]
    simp only
    have hlen := read_tile_length E
      ((wu.cl_status.drop checked_events.length).getD 1 CL_SUCCESS)
      (h.image_after E tf.1 (datapts.countP (E.rect_is_inside (tile_footprint E args tx ty))) cp cv)
      (fit_length _ _)
    obtain ⟨im, him⟩ := write_png_image_square E.COLORMAP_LEN E.TILE_SIZE _ args.colormap
      hcm hlen
    have hpb : png_bytes E args.colormap
        (read_tile E ((wu.cl_status.drop checked_events.length).getD 1 CL_SUCCESS)
          (h.image_after E tf.1
            (datapts.countP (E.rect_is_inside (tile_footprint E args tx ty))) cp cv)) =
        E.png_encode im := by
      unfold png_bytes
      rw [him]
    obtain ⟨w2, he, hc, hk⟩ := write_png_keeps E.png_encode E.COLORMAP_LEN E.TILE_SIZE
      ((World.after_cl ⟨wu.fs, wu.errno, wu.trace ++ checked_events,
        wu.cl_status.drop checked_events.length⟩ Event.clFinish).after_cl Event.clEnqueueReadImage)
      (tile_path args.outdir args.zoomlevel tx ty) _ args.colormap (tile_path_ne_nil _ _ _ _)
      im him hwf2
    rw [he]
    have hc2 : w2.fs.cwd = h.world.fs.cwd := hc.trans g1
    refine ⟨w2.emit (Event.log_info " wrote %s"), rfl, fun p i hp => ?_, fun h2 hrun p i hp ht => ?_,
      fun h2 hrun => absurd hrun (by simp)⟩
    · have h1 := g3 _ _ hp
      obtain ⟨k1, k2, -⟩ := hk _ i h1
      have hn2 : (w2.emit (Event.log_info " wrote %s")).fs.names
          (resolve h.world.fs.cwd p) = some (Node.file i) := k1
      refine ⟨by rw [show (w2.emit (Event.log_info " wrote %s")).fs.cwd = h.world.fs.cwd from hc2]
                 exact hn2, fun hne => ?_⟩
      have hlt : i < h.world.fs.next := hwf _ i hp
      have hne1 : wu.fs.names (resolve wu.fs.cwd (tile_path args.outdir args.zoomlevel tx ty)) ≠
          some (Node.file i) := by
        intro hx
        rw [g1] at hx
        rcases g4 _ i hx with e | e
        · exact hne e
        · omega
      exact content_eq_of_names p i hc2 hp hn2 ((k2 hne1).trans (g5 i hlt))
    · have hinj := Outcome.running.inj hrun
      have hw : h2.world = w2.emit (Event.log_info " wrote %s") := by rw [← hinj]
      have hti : h2.tile = read_tile E
          ((wu.cl_status.drop checked_events.length).getD 1 CL_SUCCESS)
          (h.image_after E tf.1
            (datapts.countP (E.rect_is_inside (tile_footprint E args tx ty))) cp cv) := by
        rw [← hinj]
      rw [hw, hti, hpb]
      obtain ⟨k1, -, k3⟩ := hk _ i (g3 _ _ hp)
      have ht1 : wu.fs.names (resolve wu.fs.cwd (tile_path args.outdir args.zoomlevel tx ty)) =
          some (Node.file i) := by
        rw [g1]
        exact g3 _ _ ht
      have hd : w2.fs.data i = E.png_encode im := k3 ht1
      show FS.content w2.fs p = _
      unfold FS.content
      rw [hc2, show w2.fs.names (resolve h.world.fs.cwd p) = some (Node.file i) from k1]
      simp only [hd]
  · obtain ⟨w2, k, he, hfs, -⟩ := checked_calls_error checked_events wu hall
    rw [he]
    have hc2 : w2.fs.cwd = h.world.fs.cwd := by rw [hfs]; exact g1
    have hkeep : ∀ (p : CStr) (i : Nat),
        h.world.fs.names (resolve h.world.fs.cwd p) = some (Node.file i) →
        w2.fs.names (resolve h.world.fs.cwd p) = some (Node.file i) ∧
        w2.fs.content p = h.world.fs.content p := by
      intro p i hp
      have hn2 : w2.fs.names (resolve h.world.fs.cwd p) = some (Node.file i) := by
        rw [hfs]; exact g3 _ _ hp
      exact ⟨hn2, content_eq_of_names p i hc2 hp hn2 (by rw [hfs]; exact g5 i (hwf _ i hp))⟩
    refine ⟨w2, rfl, fun p i hp => ⟨by rw [hc2]; exact (hkeep p i hp).1,
      fun _ => (hkeep p i hp).2⟩, fun h2 hrun => absurd hrun (by simp), fun h2 hrun p i hp => ?_⟩
    have hinj := Outcome.exited.inj hrun
    have hw : h2.world = w2 := by rw [← hinj]
    rw [hw]
    exact (hkeep p i hp).2

/-- C11, as stated, fails: `out/1/0/0.png` and `out/1/0/1.png` are hard links to
`out/blank.png`, as a run in which these tiles had no points leaves them. The
tile (0, 0) now has a point; after it has been processed, `out/blank.png` and
the output file of the tile (0, 1) hold the encoding of the tile (0, 0). -/
theorem process_tile_overwrites_blank :
    ∃ h2, process_tile example_env example_args 1 [⟨0, 0⟩] [7] 0 0
        (example_host home_fs_with_linked_tiles 1 []) = Outcome.running h2 ∧
      ([⟨0, 0⟩] : List cl_float2).countP
        (example_env.rect_is_inside (tile_footprint example_env example_args 0 0)) = 1 ∧
      home_fs_with_linked_tiles.content (blankfilepath example_args.outdir) =
        some [137, 80, 78, 71] ∧
      h2.world.fs.content (blankfilepath example_args.outdir) =
        some [2, 2, 0, 255, 0, 255, 1, 1, 1, 1] ∧
      home_fs_with_linked_tiles.content (tile_path example_args.outdir 1 0 1) =
        some [137, 80, 78, 71] ∧
      h2.world.fs.content (tile_path example_args.outdir 1 0 1) =
        some [2, 2, 0, 255, 0, 255, 1, 1, 1, 1] ∧
      h2.world.fs.content (tile_path example_args.outdir 1 0 0) =
        some [2, 2, 0, 255, 0, 255, 1, 1, 1, 1] := by
  refine ⟨_, rfl, by decide, by decide, by decide, by decide, by decide, by decide⟩

theorem home_fs_with_blank_wf : home_fs_with_blank.wf := by
  intro k i hk
  unfold home_fs_with_blank at hk ⊢
  simp only at hk ⊢
  split at hk
  · exact absurd hk (by simp)
  · split at hk
    · have : i = 0 := by simpa using hk.symm
      omega
    · exact absurd hk (by simp)

/-- C11 witness: the tile (0, 0) with one point, in a file system with
`out/blank.png` and the directory `out/1/0`: the tile is written, and
`out/blank.png` is the file it was, with the content it had. -/
theorem process_tile_keeps_other_files_witness :
    ∃ w2, (process_tile example_env example_args 1 [⟨0, 0⟩] [7] 0 0
        (example_host home_fs_with_blank 1 [])).world = some w2 ∧
      ([⟨0, 0⟩] : List cl_float2).countP
        (example_env.rect_is_inside (tile_footprint example_env example_args 0 0)) ≠ 0 ∧
      w2.fs.names (resolve w2.fs.cwd (blankfilepath example_args.outdir)) = some (Node.file 0) ∧
      w2.fs.content (blankfilepath example_args.outdir) = some [137, 80, 78, 71] := by
  obtain ⟨w2, he, hall, -, -⟩ := process_tile_keeps_other_files example_env example_args 1 [⟨0, 0⟩] [7]
    0 0 (example_host home_fs_with_blank 1 []) rfl rfl rfl rfl (by decide) rfl
    home_fs_with_blank_wf (by decide)
  obtain ⟨a, b⟩ := hall (blankfilepath example_args.outdir) 0 (by decide)
  exact ⟨w2, he, by decide, a, (b (by decide)).trans (by decide)⟩

end ClHeatmap
